import Mathlib

/-!
# Tabli: window matcher, session recovery and snapshot merge

A shallow embedding of `src/js/bgHelper.js` (the background helper of the Tabli
tab manager): `reattachWindows`, `matchSnapshot`, `attachSessions`, `loadSnapState`,
`loadManagedWindows` and the listeners of `registerEventHandlers`, and of the actions
`closeWindow`, `revertWindow`, `manageWindow` and `unmanageWindow` of `src/js/actions.js`, with the
Immutable.js collections they use modelled as lists.

Conventions of the embedding:

* an `Immutable.Map` is an association list with pairwise distinct keys, in
  insertion order (`mapGet`, `mapSet`, `mergeWith`, `mapFromEntries`);
* JavaScript numbers that are counters or array lengths are `Nat`, window and tab
  ids and timestamps are `Int`, bookmark ids, session ids and URLs are `String`;
* an uncaught JavaScript exception is the `none` of an `Option` result;
* asynchronous browser calls are replaced by their result, passed as an argument; an
  action is the list of the steps it takes, the browser completing every call.
-/

namespace Tabli

/-! ## Immutable.Map as an association list -/

/-- Association-list model of `Immutable.Map`. -/
abbrev IMap (κ ν : Type) := List (κ × ν)

/-- The keys of a map, in iteration order. -/
def mapKeys {κ ν : Type} (m : IMap κ ν) : List κ := m.map Prod.fst

/-- The operation `m.get(k)`: the value stored under `k`, if any. -/
def mapGet {κ ν : Type} [DecidableEq κ] : IMap κ ν → κ → Option ν
  | [], _ => none
  | (k', v) :: rest, k => if k' = k then some v else mapGet rest k

/-- The operation `m.set(k, v)`: replace the value under `k`, or add a new entry. -/
def mapSet {κ ν : Type} [DecidableEq κ] : IMap κ ν → κ → ν → IMap κ ν
  | [], k, v => [(k, v)]
  | (k', v') :: rest, k, v =>
    if k' = k then (k, v) :: rest else (k', v') :: mapSet rest k v

/-- The constructor `Immutable.Map(entries)`: entries are set one after the other, so a
later entry overrides an earlier one with the same key. -/
def mapFromEntries {κ ν : Type} [DecidableEq κ] (entries : List (κ × ν)) : IMap κ ν :=
  entries.foldl (fun m e => mapSet m e.1 e.2) []

/-- One entry of the right-hand map of `mergeWith` merged into the left-hand map. -/
def mergeStep {κ ν : Type} [DecidableEq κ] (f : ν → ν → ν) (m : IMap κ ν) (e : κ × ν) : IMap κ ν :=
  match mapGet m e.1 with
  | some prev => mapSet m e.1 (f prev e.2)
  | none => mapSet m e.1 e.2

/-- The operation `mA.mergeWith(f, mB)`: every entry of `mB` is set into `mA`, values of
keys present on both sides being combined as `f prev next`. -/
def mergeWith {κ ν : Type} [DecidableEq κ] (f : ν → ν → ν) (mA mB : IMap κ ν) : IMap κ ν :=
  mB.foldl (mergeStep f) mA

/-- One element counted by `countBy`. -/
def countStep {κ : Type} [DecidableEq κ] (m : IMap κ Nat) (v : κ) : IMap κ Nat :=
  match mapGet m v with
  | some c => mapSet m v (c + 1)
  | none => mapSet m v 1

/-- The operation `s.countBy(v => v)` on a collection of keys: how often each occurs. -/
def countBy {κ : Type} [DecidableEq κ] (s : List κ) : IMap κ Nat :=
  s.foldl countStep []

/-- One element added to its group by `groupBy`. -/
def groupStep {α κ : Type} [DecidableEq κ] (f : α → κ) (m : IMap κ (List α)) (a : α) :
    IMap κ (List α) :=
  match mapGet m (f a) with
  | some g => mapSet m (f a) (g ++ [a])
  | none => mapSet m (f a) [a]

/-- The operation `seq.groupBy(f)`: the elements grouped under their key, groups in order
of first occurrence and elements of a group in sequence order. -/
def groupBy {α κ : Type} [DecidableEq κ] (f : α → κ) (l : List α) : IMap κ (List α) :=
  l.foldl (groupStep f) []

/-- Insertion into an `Immutable.Set`, modelled as a duplicate-free list. -/
def setAdd {κ : Type} [DecidableEq κ] (s : List κ) (k : κ) : List κ :=
  if k ∈ s then s else s ++ [k]

/-! ## Data model -/

abbrev BookmarkId := String
abbrev WindowId := Int
abbrev TabId := Int
abbrev Url := String

/-- Modelled from the spec: the record behind `ti.openState` (`src/js/tabWindow.js` is not
among the sources). Spec §3: "present iff currently open — live tab id, live window id,
active flag"; `actions.js` reads `openState.openTabId`. -/
structure OpenState where
  openTabId : TabId
  openWindowId : WindowId
  active : Bool
  deriving DecidableEq, Repr

/-- Modelled from the spec: the record behind `ti.savedState` (`src/js/tabWindow.js` is not
among the sources). Spec §3: "present iff bookmarked — bookmark id, title"; `actions.js`
also reads `savedState.url`. -/
structure SavedState where
  bookmarkId : BookmarkId
  title : String
  url : Url
  deriving DecidableEq, Repr

/-- Modelled from the spec: the record `TabItem` (`src/js/tabWindow.js` is not among the
sources). Spec §3: one tab, identified by its `url`, with an `openState` present iff it is
open and a `savedState` present iff it is bookmarked; the sources also read `ti.title`. -/
structure TabItem where
  url : Url
  title : String
  openState : Option OpenState
  savedState : Option SavedState
  deriving DecidableEq, Repr

/-- The getter `ti.open`. -/
def TabItem.isOpen (ti : TabItem) : Bool := ti.openState.isSome

/-- The getter `ti.saved`. -/
def TabItem.saved (ti : TabItem) : Bool := ti.savedState.isSome

/-- Modelled from the spec: the record `TabWindow` (`src/js/tabWindow.js` is not among the
sources). Spec §3: a window with its `savedFolderId` if saved, its `openWindowId` if open,
`tabItems`, `title`, `windowType`, the `snapshot` flag and an optional `chromeSessionId`. -/
structure TabWindow where
  savedFolderId : Option BookmarkId
  openWindowId : Option WindowId
  title : String
  windowType : String
  tabItems : List TabItem
  snapshot : Bool
  chromeSessionId : Option String
  deriving DecidableEq, Repr

/-- The getter `tabWindow.open`. -/
def TabWindow.isOpen (tw : TabWindow) : Bool := tw.openWindowId.isSome

/-- The getter `tabWindow.saved`. -/
def TabWindow.saved (tw : TabWindow) : Bool := tw.savedFolderId.isSome

/-- Modelled from the spec: the record `TabManagerState` (`src/js/tabManagerState.js` is not
among the sources). Spec §3: all known windows, indexed by saved folder id
(`bookmarkIdMap`) and by live window id (`windowIdMap`), with `currentWindowId` and
`initializing`; `bgHelper.js` constructs it from `folderId` and `archiveFolderId`. -/
structure TabManagerState where
  windowIdMap : IMap WindowId TabWindow
  bookmarkIdMap : IMap BookmarkId TabWindow
  folderId : Option BookmarkId
  archiveFolderId : Option BookmarkId
  currentWindowId : Option WindowId
  initializing : Bool
  deriving DecidableEq, Repr

/-- A live tab as reported by the browser. -/
structure ChromeTab where
  id : TabId
  windowId : WindowId
  url : Url
  title : String
  active : Bool
  deriving DecidableEq, Repr

/-- A live window as reported by `chrome.windows.getAll({populate: true})`. -/
structure ChromeWindow where
  id : WindowId
  tabs : List ChromeTab
  deriving DecidableEq, Repr

/-! ## Truthiness -/

/-- JavaScript truthiness of a value that is a string or `null`. -/
def truthyStr : Option String → Bool
  | some s => s ≠ ""
  | none => false

/-- JavaScript truthiness of a value that is an integer or `null`. -/
def truthyInt : Option Int → Bool
  | some n => n ≠ 0
  | none => false

/-! ## The window matcher (`reattachWindows`) -/

/-- Modelled from the spec: `utils.bestMatch` (`src/js/utils.js` is not among the sources).
Spec §4.3 step 4: "highest `matchCount`; a tie (more than one candidate at the maximum)
yields no match (ambiguous ⇒ declined), not an arbitrary pick". The entries whose count
no other entry exceeds are collected; exactly one such entry gives its key. -/
def bestMatch {κ : Type} (matchMap : IMap κ Nat) : Option κ :=
  match matchMap.filter (fun e => matchMap.all (fun e' => decide (e'.2 ≤ e.2))) with
  | [e] => some e.1
  | _ => none

/-- Modelled from the spec: `TabManagerState.getUrlBookmarkIdMap`
(`src/js/tabManagerState.js` is not among the sources). Spec §4.3 step 1: "a precomputed
inverse index `url -> {bookmarkId}` built once from all saved windows", giving for a URL
"the set of saved-bookmark-ids whose saved window contains that exact URL". -/
def getUrlBookmarkIdMap (bmStore : TabManagerState) : IMap Url (List BookmarkId) :=
  bmStore.bookmarkIdMap.foldl (fun idx e =>
    e.2.tabItems.foldl (fun idx ti =>
      mapSet idx ti.url (setAdd ((mapGet idx ti.url).getD []) e.1)) idx) []

/-- The constant `MATCH_THRESHOLD = 0.4`, as the fraction `num / den`. -/
def MATCH_THRESHOLD_NUM : Nat := 2

/-- The denominator of `MATCH_THRESHOLD`. -/
def MATCH_THRESHOLD_DEN : Nat := 5

/-- The test `matchCount / savedUrlCount >= MATCH_THRESHOLD` on JavaScript numbers. Both
operands are counters below `2^32`, for which the double-precision quotient compares with
the double `0.4` exactly as the rational quotient compares with `2/5`; `n / 0` is
`Infinity` for `n > 0` and `0 / 0` is `NaN`, which compares false. -/
def ratioAtLeastThreshold (matchCount savedUrlCount : Nat) : Bool :=
  if savedUrlCount = 0 then decide (0 < matchCount)
  else decide (MATCH_THRESHOLD_NUM * savedUrlCount ≤ MATCH_THRESHOLD_DEN * matchCount)

/-- The inner function `aboveMatchThreshold`; `none` is the `TypeError` of reading
`tabItems` of an absent saved window. -/
def aboveMatchThreshold (bmStore : TabManagerState) (matchCount : Nat)
    (bookmarkId : BookmarkId) : Option Bool :=
  match mapGet bmStore.bookmarkIdMap bookmarkId with
  | none => none
  | some savedTabWindow =>
    let savedUrlCount := savedTabWindow.tabItems.length
    some (ratioAtLeastThreshold matchCount savedUrlCount)

/-- The call `matchMap.filter(aboveMatchThreshold)`. -/
def threshFilter (bmStore : TabManagerState) :
    IMap BookmarkId Nat → Option (IMap BookmarkId Nat)
  | [] => some []
  | (b, c) :: rest =>
    match aboveMatchThreshold bmStore c b with
    | none => none
    | some keep =>
      match threshFilter bmStore rest with
      | none => none
      | some rest' => some (if keep then (b, c) :: rest' else rest')

/-- The record `MatchInfo`; its field `matches` is written `matches_`. -/
structure MatchInfo where
  windowId : WindowId
  matches_ : IMap BookmarkId Nat
  bestMatch : Option BookmarkId
  tabCount : Nat
  deriving DecidableEq, Repr

/-- The first half of `getMatchInfo`: `matchSets`, `countMaps` and their reduction to
`matchMap` with `aggMerge`. -/
def matchMap (urlIdMap : IMap Url (List BookmarkId)) (w : ChromeWindow) : IMap BookmarkId Nat :=
  let matchSets := (w.tabs.map (fun t => mapGet urlIdMap t.url)).filterMap id
  let countMaps := matchSets.map countBy
  let aggMerge := fun (mA mB : IMap BookmarkId Nat) => mergeWith (fun prev next => prev + next) mA mB
  countMaps.foldl aggMerge []

/-- The inner function `getMatchInfo` of `reattachWindows`. -/
def getMatchInfo (bmStore : TabManagerState) (urlIdMap : IMap Url (List BookmarkId))
    (w : ChromeWindow) : Option MatchInfo :=
  let mm := matchMap urlIdMap w
  match threshFilter bmStore mm with
  | none => none
  | some threshMap =>
    some { windowId := w.id, matches_ := mm, bestMatch := bestMatch threshMap,
           tabCount := w.tabs.length }

/-- All of `getMatchInfo` over the window list; the first exception aborts. -/
def allMatchInfo (bmStore : TabManagerState) (urlIdMap : IMap Url (List BookmarkId)) :
    List ChromeWindow → Option (List MatchInfo)
  | [] => some []
  | w :: rest =>
    match getMatchInfo bmStore urlIdMap w with
    | none => none
    | some mi =>
      match allMatchInfo bmStore urlIdMap rest with
      | none => none
      | some mis => some (mi :: mis)

/-- The sequence `windowMatchInfo`: match infos with a truthy `bestMatch`. -/
def windowMatchInfo (bmStore : TabManagerState) (windowList : List ChromeWindow) :
    Option (List MatchInfo) :=
  (allMatchInfo bmStore (getUrlBookmarkIdMap bmStore) windowList).map
    (fun mis => mis.filter (fun mi => truthyStr mi.bestMatch))

/-- The grouping `bmMatches = windowMatchInfo.groupBy(mi => mi.bestMatch)`; the key of a
kept match info is a non-empty string. -/
def bmMatches (mis : List MatchInfo) : IMap BookmarkId (List MatchInfo) :=
  groupBy (fun mi => mi.bestMatch.getD "") mis

/-- The map `bmMatchMaps : Map<BookmarkId, Map<WindowId, Num>>`. The count of the best
match is present in `mi.matches`, the best match being one of its keys. -/
def bmMatchMaps (mis : List MatchInfo) : IMap BookmarkId (IMap WindowId Nat) :=
  (bmMatches mis).map (fun e =>
    (e.1, mapFromEntries (e.2.map (fun mi =>
      (mi.windowId, (mapGet mi.matches_ (mi.bestMatch.getD "")).getD 0)))))

/-- The pairing `bestBMMatches : Seq.Keyed<BookmarkId, WindowId>` on given match infos. -/
def bestBMMatchesOf (mis : List MatchInfo) : IMap BookmarkId WindowId :=
  (bmMatchMaps mis).filterMap (fun e =>
    match bestMatch e.2 with
    | some wid => if truthyInt (some wid) then some (e.1, wid) else none
    | none => none)

/-- The pairing `bestBMMatches` of `reattachWindows`: the (bookmark id, window id) pairs
that are attached. -/
def bestBMMatches (bmStore : TabManagerState) (windowList : List ChromeWindow) :
    Option (IMap BookmarkId WindowId) :=
  (windowMatchInfo bmStore windowList).map bestBMMatchesOf

/-- The object `chromeWinMap = _.fromPairs(windowList.map(w => [w.id, w]))`. -/
def chromeWinMap (windowList : List ChromeWindow) : IMap WindowId ChromeWindow :=
  mapFromEntries (windowList.map (fun w => (w.id, w)))

/-- The function `attacher` of `reattachWindows`, applied in the reduction of
`bestBMMatches` to the store so far and to one pair of a bookmark id and a window id. The
method `attachChromeWindow` of the store (`src/js/tabManagerState.js` is not among the
sources) is a parameter. -/
def attacher
    (attachChromeWindow : TabManagerState → Option TabWindow → Option ChromeWindow → TabManagerState)
    (chromeWinMap : IMap WindowId ChromeWindow) (st : TabManagerState)
    (e : BookmarkId × WindowId) : TabManagerState :=
  let chromeWindow := mapGet chromeWinMap e.2
  let bmTabWindow := mapGet st.bookmarkIdMap e.1
  let nextSt := attachChromeWindow st bmTabWindow chromeWindow
  nextSt

/-- The function `reattachWindows`, for a given result of `chrome.windows.getAll`: the
store passed to `cb`, which is `bestBMMatches.reduce(attacher, bmStore)`. The method
`attachChromeWindow` of the store is a parameter; it is applied to the saved window and the
live window of every pair of `bestBMMatches`, in order. -/
def reattachWindows
    (attachChromeWindow : TabManagerState → Option TabWindow → Option ChromeWindow → TabManagerState)
    (bmStore : TabManagerState) (windowList : List ChromeWindow) : Option TabManagerState :=
  match bestBMMatches bmStore windowList with
  | none => none
  | some best =>
    let attachedStore := best.foldl (attacher attachChromeWindow (chromeWinMap windowList)) bmStore
    some attachedStore

/-! ### Quantities the statements about the matcher are phrased in -/

/-- The match count of a live window with a saved window: the number of tabs of the live
window whose URL is the URL of a tab item of the saved window. -/
def urlMatchCount (w : ChromeWindow) (savedTabWindow : TabWindow) : Nat :=
  (w.tabs.filter (fun t => savedTabWindow.tabItems.any (fun ti => decide (ti.url = t.url)))).length

/-- The store is a map: no bookmark id is the key of two saved windows. -/
def storeKeysDistinct (bmStore : TabManagerState) : Prop :=
  (mapKeys bmStore.bookmarkIdMap).Nodup

instance (bmStore : TabManagerState) : Decidable (storeKeysDistinct bmStore) := by
  unfold storeKeysDistinct; infer_instance

/-- The live windows have pairwise distinct window ids. -/
def windowIdsDistinct (windowList : List ChromeWindow) : Prop :=
  (windowList.map (fun w => w.id)).Nodup

instance (windowList : List ChromeWindow) : Decidable (windowIdsDistinct windowList) := by
  unfold windowIdsDistinct; infer_instance

/-- Saved window `b` is a candidate of live window `w` with match count `c`: it is in the
store, `c` of the tabs of `w` have a URL saved in it, `c` is positive and the ratio of `c`
to its number of tab items passes the threshold. -/
def isCandidate (bmStore : TabManagerState) (w : ChromeWindow) (b : BookmarkId) (c : Nat) : Prop :=
  ∃ tw, mapGet bmStore.bookmarkIdMap b = some tw ∧ urlMatchCount w tw = c ∧ 0 < c ∧
    ratioAtLeastThreshold c tw.tabItems.length = true

/-- Saved window `b` is the best match that `getMatchInfo` finds for live window `w`. -/
def picksBest (bmStore : TabManagerState) (w : ChromeWindow) (b : BookmarkId) : Prop :=
  ∃ mi, getMatchInfo bmStore (getUrlBookmarkIdMap bmStore) w = some mi ∧ mi.bestMatch = some b

/-- The pair of saved window `b` and live window id `wid` is attached by `reattachWindows`. -/
def attaches (bmStore : TabManagerState) (windowList : List ChromeWindow) (b : BookmarkId)
    (wid : WindowId) : Prop :=
  ∃ best, bestBMMatches bmStore windowList = some best ∧ (b, wid) ∈ best

/-- The store that `reattachWindows` passes on is built by attaching saved window `b` to
live window `w`: whatever the method `attachChromeWindow` does, the pairing is `pre`, then
the pair of `b` and the id of `w`, then `post`, and the store passed on is the one obtained
by applying `attachChromeWindow` to the store reached after the pairs of `pre`, to the saved
window that store holds under `b` and to `w`, and then reducing over the pairs of `post`. -/
def reattachAttaches (bmStore : TabManagerState) (windowList : List ChromeWindow)
    (b : BookmarkId) (w : ChromeWindow) : Prop :=
  ∃ pre post : List (BookmarkId × WindowId),
    bestBMMatches bmStore windowList = some (pre ++ (b, w.id) :: post) ∧
    ∀ attachChromeWindow,
      reattachWindows attachChromeWindow bmStore windowList =
        some (post.foldl (attacher attachChromeWindow (chromeWinMap windowList))
          (attachChromeWindow
            (pre.foldl (attacher attachChromeWindow (chromeWinMap windowList)) bmStore)
            (mapGet (pre.foldl (attacher attachChromeWindow (chromeWinMap windowList))
              bmStore).bookmarkIdMap b)
            (some w)))

/-- The only thing `reattachWindows` does is to attach saved window `tw` to live window `w`:
whatever the method `attachChromeWindow` does, the store passed on is the one it returns for
the input store, `tw` and `w`. -/
def reattachAttachesOnly (bmStore : TabManagerState) (windowList : List ChromeWindow)
    (tw : TabWindow) (w : ChromeWindow) : Prop :=
  ∀ attachChromeWindow,
    reattachWindows attachChromeWindow bmStore windowList
      = some (attachChromeWindow bmStore (some tw) (some w))

/-- The function `reattachWindows` attaches nothing: whatever the method `attachChromeWindow`
does, the store passed on is the input store. -/
def reattachAttachesNothing (bmStore : TabManagerState) (windowList : List ChromeWindow) : Prop :=
  ∀ attachChromeWindow, reattachWindows attachChromeWindow bmStore windowList = some bmStore

/-- A method in the place of `attachChromeWindow` that changes every store: it flips
`initializing`. -/
def flipInitializing (st : TabManagerState) (_ : Option TabWindow) (_ : Option ChromeWindow) :
    TabManagerState :=
  { st with initializing := !st.initializing }

/-- The best match `getMatchInfo` finds for a live window, with the index of the store. -/
def bestMatchOf (bmStore : TabManagerState) (w : ChromeWindow) : Option BookmarkId :=
  (getMatchInfo bmStore (getUrlBookmarkIdMap bmStore) w).bind (fun mi => mi.bestMatch)

/-- The count `mi.matches.get(b)` that `getMatchInfo` holds for a live window and a saved
window, with the index of the store. -/
def matchCountOf (bmStore : TabManagerState) (w : ChromeWindow) (b : BookmarkId) : Nat :=
  (mapGet (matchMap (getUrlBookmarkIdMap bmStore) w) b).getD 0

/-- The live windows whose best match is saved window `b`, each with its match count for
`b`: the entries of `bmMatchMaps` under `b`. -/
def pickerEntries (bmStore : TabManagerState) (windowList : List ChromeWindow) (b : BookmarkId) :
    List (WindowId × Nat) :=
  (windowList.filter (fun w => decide (bestMatchOf bmStore w = some b))).map
    (fun w => (w.id, matchCountOf bmStore w b))

/-! ### Sample data -/

/-- A saved, closed tab item with the given URL. -/
def savedTabItem (url : Url) : TabItem :=
  { url := url, title := url, openState := none,
    savedState := some { bookmarkId := url, title := url, url := url } }

/-- A saved, closed window with the given bookmark folder id and saved URLs. -/
def savedWindow (folderId : BookmarkId) (urls : List Url) : TabWindow :=
  { savedFolderId := some folderId, openWindowId := none, title := folderId,
    windowType := "normal", tabItems := urls.map savedTabItem, snapshot := false,
    chromeSessionId := none }

/-- The store that holds the given saved windows under their folder ids. -/
def storeOf (windows : List (BookmarkId × List Url)) : TabManagerState :=
  { windowIdMap := [], bookmarkIdMap := windows.map (fun e => (e.1, savedWindow e.1 e.2)),
    folderId := none, archiveFolderId := none, currentWindowId := none, initializing := true }

/-- A live window with the given id and tab URLs. -/
def liveWindow (id : WindowId) (urls : List Url) : ChromeWindow :=
  { id := id,
    tabs := urls.map (fun u => { id := 0, windowId := id, url := u, title := u, active := false }) }

/-! ## Session recovery (`matchSnapshot`, `attachSessions`) -/

/-- The `window` of a recently closed session. -/
structure SessionWindow where
  sessionId : Option String
  tabs : List ChromeTab
  deriving DecidableEq, Repr

/-- A record of `chrome.sessions.getRecentlyClosed`; `window` is absent for a session
that records a single closed tab. -/
structure Session where
  lastModified : Int
  window : Option SessionWindow
  deriving DecidableEq, Repr

/-- A session that has a `window`, as kept by `sessions.filter(s => 'window' in s)`. -/
structure WinSession where
  lastModified : Int
  window : SessionWindow
  deriving DecidableEq, Repr

/-- The filter `sessions.filter(s => 'window' in s)`. -/
def windowSessions (sessions : List Session) : List WinSession :=
  sessions.filterMap (fun s => s.window.map (fun w => { lastModified := s.lastModified, window := w }))

/-- The array `snapUrls` of `matchSnapshot`. -/
def snapUrls (tabWindow : TabWindow) : List Url :=
  (tabWindow.tabItems.filter (fun ti => ti.isOpen)).map (fun ti => ti.url)

/-- The array `sessionUrls` of `matchSnapshot`. -/
def sessionUrls (session : WinSession) : List Url :=
  session.window.tabs.map (fun t => t.url)

/-- The function `matchSnapshot`; `_.isEqual` on two arrays of strings is list equality. -/
def matchSnapshot (tabWindow : TabWindow) (session : WinSession) : Bool :=
  if snapUrls tabWindow = sessionUrls session then true else false

/-- Modelled from the spec: `TabManagerState.registerTabWindow`
(`src/js/tabManagerState.js` is not among the sources). Spec §4.2: "insert/replace by
identity in the saved index"; the identity of a saved window is its bookmark folder id
(§3), and a window without one has no place in the saved index. -/
def registerTabWindow (st : TabManagerState) (tabWindow : TabWindow) : TabManagerState :=
  match tabWindow.savedFolderId with
  | some id => { st with bookmarkIdMap := mapSet st.bookmarkIdMap id tabWindow }
  | none => st

/-- The body of the inner loop of `attachSessions` for one saved window and one session;
the state is the pair of `nextSt` and the global `lastSessionTimestamp`. -/
def attachSessionStep (tabWindow : TabWindow) (acc : TabManagerState × Int) (s : WinSession) :
    TabManagerState × Int :=
  let nextSt :=
    if matchSnapshot tabWindow s then
      let nextWin := { tabWindow with chromeSessionId := s.window.sessionId }
      registerTabWindow acc.1 nextWin
    else acc.1
  let lastSessionTimestamp :=
    if s.lastModified > acc.2 then s.lastModified else acc.2
  (nextSt, lastSessionTimestamp)

/-- The function `attachSessions`, with the module variable `lastSessionTimestamp` passed in
and returned next to the store. The outer loop runs over the saved windows of the input
store `st`, the inner loop over the sessions. -/
def attachSessions (st : TabManagerState) (sessions : List WinSession)
    (lastSessionTimestamp : Int) : TabManagerState × Int :=
  let tabWindows := st.bookmarkIdMap.map Prod.snd
  tabWindows.foldl (fun acc tabWindow => sessions.foldl (attachSessionStep tabWindow) acc)
    (st, lastSessionTimestamp)

/-! ### Quantities the statements about session recovery are phrased in -/

/-- The saved index is consistent: it is a map, and every window in it is stored under its
own bookmark folder id. -/
def savedIndexConsistent (st : TabManagerState) : Prop :=
  storeKeysDistinct st ∧ ∀ e ∈ st.bookmarkIdMap, e.2.savedFolderId = some e.1

instance (st : TabManagerState) : Decidable (savedIndexConsistent st) := by
  unfold savedIndexConsistent; infer_instance

/-- The last session of the list, in list order, that `matchSnapshot` matches with the
window. -/
def lastMatchingSession (tabWindow : TabWindow) (sessions : List WinSession) : Option WinSession :=
  (sessions.filter (fun s => matchSnapshot tabWindow s)).getLast?

/-- The window tagged with the session id of its last matching session, if it has one. -/
def tagWithSession (tabWindow : TabWindow) (sessions : List WinSession) : TabWindow :=
  match lastMatchingSession tabWindow sessions with
  | some s => { tabWindow with chromeSessionId := s.window.sessionId }
  | none => tabWindow

/-- A saved window that is open in the live window with the given id, every saved URL
open in a tab. -/
def openSavedWindow (folderId : BookmarkId) (windowId : WindowId) (urls : List Url) : TabWindow :=
  { savedFolderId := some folderId, openWindowId := some windowId, title := folderId,
    windowType := "normal",
    tabItems := urls.map (fun u =>
      { savedTabItem u with
        openState := some { openTabId := 0, openWindowId := windowId, active := false } }),
    snapshot := false, chromeSessionId := none }

/-- A store with saved window "10", open with the tabs A and B, and saved window "11",
closed. -/
def sampleSessionStore : TabManagerState :=
  { windowIdMap := [],
    bookmarkIdMap := [("10", openSavedWindow "10" 5 ["A", "B"]), ("11", savedWindow "11" ["C"])],
    folderId := none, archiveFolderId := none, currentWindowId := none, initializing := false }

/-- A recently closed window session with the given id, timestamp and tab URLs. -/
def windowSession (sessionId : String) (lastModified : Int) (urls : List Url) : WinSession :=
  { lastModified := lastModified,
    window := { sessionId := some sessionId, tabs := (liveWindow 0 urls).tabs } }

/-- Three sessions: tabs A, B; tabs B, A; tabs A, B. -/
def sampleSessions : List WinSession :=
  [windowSession "s1" 100 ["A", "B"], windowSession "s2" 200 ["B", "A"],
   windowSession "s3" 300 ["A", "B"]]

/-! ## Snapshot merge (`loadSnapState`) -/

/-- A parsed JSON value. -/
inductive Json where
  | null : Json
  | bool (b : Bool) : Json
  | num (n : Int) : Json
  | str (s : String) : Json
  | arr (items : List Json) : Json
  | obj (fields : List (String × Json)) : Json

/-- JavaScript truthiness of a JSON value; `none` is `undefined`. -/
def truthyJson : Option Json → Bool
  | none => false
  | some Json.null => false
  | some (Json.bool b) => b
  | some (Json.num n) => n ≠ 0
  | some (Json.str s) => s ≠ ""
  | some (Json.arr _) => true
  | some (Json.obj _) => true

/-- The last field of a JSON object with the given name (`JSON.parse` keeps the last of
duplicate names). -/
def objField : List (String × Json) → String → Option Json
  | [], _ => none
  | (k, v) :: rest, name =>
    match objField rest name with
    | some v' => some v'
    | none => if k = name then some v else none

/-- The value of a decimal digit. -/
def digitValue (c : Char) : Option Nat :=
  if c = '0' then some 0 else if c = '1' then some 1 else if c = '2' then some 2
  else if c = '3' then some 3 else if c = '4' then some 4 else if c = '5' then some 5
  else if c = '6' then some 6 else if c = '7' then some 7 else if c = '8' then some 8
  else if c = '9' then some 9 else none

/-- The number written by a list of decimal digits, most significant first. -/
def digitsValue : List Char → Nat → Option Nat
  | [], acc => some acc
  | c :: rest, acc =>
    match digitValue c with
    | some d => digitsValue rest (10 * acc + d)
    | none => none

/-- The array index a property name denotes: a decimal numeral without a leading zero. -/
def arrayIndex (name : String) : Option Nat :=
  match name.data with
  | [] => none
  | ['0'] => some 0
  | '0' :: _ => none
  | cs => digitsValue cs 0

/-- Length of a string in UTF-16 code units. -/
def utf16Length (s : String) : Nat :=
  (s.data.map (fun c => if c.val.toNat < 65536 then 1 else 2)).sum

/-- Property access `v[name]` on a parsed JSON value, for a name that is a bookmark id or
one of `tabItems`, `open` (names of inherited properties such as `length` or `constructor`
are not covered). The outer `none` is the `TypeError` of reading a property of `null`; the
inner `none` is `undefined`. An indexed character of a string is only known to be a
one-character, hence truthy, string. -/
def jsProp (v : Json) (name : String) : Option (Option Json) :=
  match v with
  | Json.null => none
  | Json.bool _ => some none
  | Json.num _ => some none
  | Json.str s =>
    match arrayIndex name with
    | some i => if i < utf16Length s then some (some (Json.str "?")) else some none
    | none => some none
  | Json.arr items =>
    match arrayIndex name with
    | some i => some items[i]?
    | none => some none
  | Json.obj fields => some (objField fields name)

/-- The functions of `src/js/tabWindow.js` that `loadSnapState` calls; the file is not
among the sources, so they are parameters of the embedding. -/
structure TabWindowOps where
  tabItemFromJS : Json → TabItem
  resetSavedItem : TabItem → TabItem
  mergeSavedOpenTabs : List TabItem → List TabItem → List TabItem

/-- The filter `savedState.tabItems.filter(ti => ti.open)`; reading `open` of a `null`
item is a `TypeError`. -/
def filterOpenJson : List Json → Option (List Json)
  | [] => some []
  | ti :: rest =>
    match jsProp ti "open" with
    | none => none
    | some isOpen =>
      match filterOpenJson rest with
      | none => none
      | some rest' => some (if truthyJson isOpen then ti :: rest' else rest')

/-- The body of the loop over `closedWindowIds` in `loadSnapState`: the entry of
`savedOpenTabsMap` for one id, if one is written. The outer `none` is a `TypeError`
(`savedWindowState` is `null`, or `savedState.tabItems` is not an array, or an item is
`null`); an `undefined` entry is falsy and skipped. -/
def snapEntry (ops : TabWindowOps) (savedWindowState : Json) (bmId : BookmarkId) :
    Option (Option (List TabItem)) :=
  match jsProp savedWindowState bmId with
  | none => none
  | some none => some none
  | some (some savedState) =>
    if truthyJson (some savedState) then
      match jsProp savedState "tabItems" with
      | some (some (Json.arr tabItems)) =>
        match filterOpenJson tabItems with
        | none => none
        | some openTabItems =>
          if openTabItems.length > 0 then
            let convTabItems := openTabItems.map ops.tabItemFromJS
            some (some convTabItems)
          else some none
      | _ => none
    else some none

/-- The loop over `closedWindowIds` in `loadSnapState`, building `savedOpenTabsMap`. -/
def savedOpenTabsLoop (ops : TabWindowOps) (savedWindowState : Json) :
    List BookmarkId → IMap BookmarkId (List TabItem) → Option (IMap BookmarkId (List TabItem))
  | [], acc => some acc
  | bmId :: rest, acc =>
    match snapEntry ops savedWindowState bmId with
    | none => none
    | some (some tiList) => savedOpenTabsLoop ops savedWindowState rest (mapSet acc bmId tiList)
    | some none => savedOpenTabsLoop ops savedWindowState rest acc

/-- The ids `closedWindowIds`: keys of the saved windows that are not open. -/
def closedWindowIds (bmStore : TabManagerState) : List BookmarkId :=
  mapKeys (bmStore.bookmarkIdMap.filter (fun e => !e.2.isOpen))

/-- The object `savedOpenTabsMap` of `loadSnapState`. -/
def savedOpenTabsMap (ops : TabWindowOps) (bmStore : TabManagerState) (savedWindowState : Json) :
    Option (IMap BookmarkId (List TabItem)) :=
  savedOpenTabsLoop ops savedWindowState (closedWindowIds bmStore) []

/-- The function mapped over `bmStore.bookmarkIdMap` to give `updBookmarkMap`. -/
def updTabWindow (ops : TabWindowOps) (openTabs : IMap BookmarkId (List TabItem))
    (tabWindow : TabWindow) (bmId : BookmarkId) : TabWindow :=
  match mapGet openTabs bmId with
  | none => tabWindow
  | some snapTabs =>
    let baseSavedItems := (tabWindow.tabItems.filter (fun ti => ti.saved)).map ops.resetSavedItem
    let mergedTabs := ops.mergeSavedOpenTabs baseSavedItems snapTabs
    { tabWindow with tabItems := mergedTabs, snapshot := true }

/-- The snapshot merge of `loadSnapState`: from the parsed `savedWindowState` to
`nextStore`. -/
def mergeSnapState (ops : TabWindowOps) (bmStore : TabManagerState) (savedWindowState : Json) :
    Option TabManagerState :=
  match savedOpenTabsMap ops bmStore savedWindowState with
  | none => none
  | some openTabs =>
    let updBookmarkMap := bmStore.bookmarkIdMap.map (fun e => (e.1, updTabWindow ops openTabs e.2 e.1))
    some { bmStore with bookmarkIdMap := updBookmarkMap }

/-- What a run of `loadSnapState` does: the stores passed to `cb`, in order, whether the
run ended in an uncaught exception, and the value of `lastSessionTimestamp` at the end. -/
structure LoadOutcome where
  delivered : List TabManagerState
  threw : Bool
  lastSessionTimestamp : Int
  deriving DecidableEq

/-- The function `loadSnapState`. The argument `items` is what `chrome.storage.local.get`
passes to the callback (`none` for `undefined`), reduced to its string-valued property
`savedWindowState` (`none` when it is not set); `jsonParse` stands for `JSON.parse`, with
`none` for a `SyntaxError`; `sessions` is the result of `chrome.sessions.getRecentlyClosed`. -/
def loadSnapState (ops : TabWindowOps) (jsonParse : String → Option Json)
    (bmStore : TabManagerState) (items : Option (Option String)) (sessions : List Session)
    (lastSessionTimestamp : Int) : LoadOutcome :=
  match items with
  | none =>
    -- `cb(bmStore)` is followed by the read of `items.savedWindowState`
    { delivered := [bmStore], threw := true, lastSessionTimestamp := lastSessionTimestamp }
  | some savedWindowStateStr =>
    if !truthyStr savedWindowStateStr then
      { delivered := [bmStore], threw := false, lastSessionTimestamp := lastSessionTimestamp }
    else
      match jsonParse (savedWindowStateStr.getD "") with
      | none => { delivered := [], threw := true, lastSessionTimestamp := lastSessionTimestamp }
      | some savedWindowState =>
        match mergeSnapState ops bmStore savedWindowState with
        | none => { delivered := [], threw := true, lastSessionTimestamp := lastSessionTimestamp }
        | some nextStore =>
          let winSessions := windowSessions sessions
          let r := attachSessions nextStore winSessions lastSessionTimestamp
          { delivered := [r.1], threw := false, lastSessionTimestamp := r.2 }

/-- Modelled from the spec: `TabWindow.resetSavedItem` (`src/js/tabWindow.js` is not among
the sources). Spec §4.1: "strip open-only fields from a tab item leaving only its saved
identity". -/
def resetSavedItem (ti : TabItem) : TabItem :=
  { ti with openState := none }

/-- Modelled from the spec: `TabWindow.tabItemFromJS` (`src/js/tabWindow.js` is not among
the sources). Spec §4.1: "reconstruct a TabItem from persisted snapshot data", the
persisted layout being `{title, url, open}` per item (§6). The item has no saved
identity; an open item has no live ids, written `-1` here. -/
def tabItemFromJS (js : Json) : TabItem :=
  let strField := fun (name : String) =>
    match (jsProp js name).bind id with
    | some (Json.str s) => s
    | _ => ""
  { url := strField "url", title := strField "title",
    openState :=
      if truthyJson ((jsProp js "open").bind id) then
        some { openTabId := -1, openWindowId := -1, active := false }
      else none,
    savedState := none }

/-- Modelled from the spec: `TabWindow.mergeSavedOpenTabs` (`src/js/tabWindow.js` is not
among the sources). Spec §4.4: the open persisted tabs "are merged onto its baseline saved
tabs"; §4.1 on merging open tabs into a saved tab list: "tabs matching a saved URL become
both-state; unmatched live tabs are appended as open-only". A saved item takes the open
state of the first open item with its URL. -/
def mergeSavedOpenTabs (savedItems openItems : List TabItem) : List TabItem :=
  savedItems.map (fun si =>
    match openItems.find? (fun oi => oi.url = si.url) with
    | some oi => { si with openState := oi.openState }
    | none => si)
  ++ openItems.filter (fun oi => !savedItems.any (fun si => si.url = oi.url))

/-- The spec-modelled functions of `src/js/tabWindow.js`. -/
def specOps : TabWindowOps :=
  { tabItemFromJS := tabItemFromJS, resetSavedItem := resetSavedItem,
    mergeSavedOpenTabs := mergeSavedOpenTabs }

/-! ### Quantities the statements about the snapshot merge are phrased in -/

/-- A persisted entry that the loop of `loadSnapState` reads without an exception: a falsy
value, or an object whose `tabItems` is an array without a `null` item. -/
def wellFormedEntry (v : Json) : Prop :=
  truthyJson (some v) = false ∨
    ∃ items, jsProp v "tabItems" = some (some (Json.arr items)) ∧ ∀ it ∈ items, jsProp it "open" ≠ none

/-- A persisted `savedWindowState` that is a JSON object of well-formed entries. -/
def wellFormedSnapshot (savedWindowState : Json) : Prop :=
  ∃ fields, savedWindowState = Json.obj fields ∧ ∀ e ∈ fields, wellFormedEntry e.2

/-- The persisted items of an entry that are open: `tabItems.filter(ti => ti.open)`. -/
def openJsonItems (items : List Json) : List Json :=
  items.filter (fun it => truthyJson ((jsProp it "open").bind id))

/-- The baseline of a saved window in the snapshot merge: its saved tab items, each reset. -/
def baseSavedItems (ops : TabWindowOps) (tabWindow : TabWindow) : List TabItem :=
  (tabWindow.tabItems.filter (fun ti => ti.saved)).map ops.resetSavedItem

/-- A store with one closed saved window "10" with saved URLs A and B, and one open saved
window "11" with the saved URL C. -/
def sampleSnapStore : TabManagerState :=
  { windowIdMap := [],
    bookmarkIdMap :=
      [("10", savedWindow "10" ["A", "B"]),
       ("11", { savedWindow "11" ["C"] with openWindowId := some 7 })],
    folderId := none, archiveFolderId := none, currentWindowId := none, initializing := true }

/-- A persisted tab item `{title, url, open}`. -/
def jsonTabItem (url : String) (isOpen : Bool) : Json :=
  Json.obj [("title", Json.str url), ("url", Json.str url), ("open", Json.bool isOpen)]

/-- A persisted snapshot with entries for the windows "10" and "11". -/
def sampleSnapshot : Json :=
  Json.obj
    [("10", Json.obj [("tabItems", Json.arr [jsonTabItem "B" true, jsonTabItem "X" true,
        jsonTabItem "A" false])]),
     ("11", Json.obj [("tabItems", Json.arr [jsonTabItem "Y" true])])]

/-! ## The sessions-changed handler -/

/-- The sessions that the `chrome.sessions.onChanged` listener passes to `attachSessions`:
the window sessions whose `lastModified` is greater than `lastSessionTimestamp`. -/
def changedWinSessions (sessions : List Session) (lastSessionTimestamp : Int) : List WinSession :=
  (windowSessions sessions).filter (fun s => decide (s.lastModified > lastSessionTimestamp))

/-- The `chrome.sessions.onChanged` listener, for a given result of
`chrome.sessions.getRecentlyClosed`: the updater `st => attachSessions(st, winSessions)`
applied to the current store, with the module variable `lastSessionTimestamp` passed in and
returned next to the store. -/
def onSessionsChanged (st : TabManagerState) (sessions : List Session)
    (lastSessionTimestamp : Int) : TabManagerState × Int :=
  let winSessions := changedWinSessions sessions lastSessionTimestamp
  attachSessions st winSessions lastSessionTimestamp

/-! ## Event handlers (`registerEventHandlers`) -/

/-- The `changeInfo` of `chrome.tabs.onUpdated`. -/
structure ChangeInfo where
  status : Option String
  url : Option Url
  title : Option String
  deriving DecidableEq, Repr

/-- The methods of `TabManagerState` that the event handlers call. The class is defined in
`src/js/tabManagerState.js`, which is not among the sources, so the methods are parameters
of the embedding. A lookup returns `none` for `null`; a transition returns `none` when it
raises an exception. -/
structure StoreMethods where
  getTabWindowByChromeId : TabManagerState → WindowId → Option TabWindow
  getTabWindowByChromeTabId : TabManagerState → TabId → Option TabWindow
  handleTabCreated : TabManagerState → TabWindow → ChromeTab → Option TabManagerState
  handleTabActivated : TabManagerState → Option TabWindow → TabId → Option TabManagerState
  handleTabClosed : TabManagerState → TabWindow → TabId → Option TabManagerState
  handleTabUpdated : TabManagerState → TabWindow → TabId → ChangeInfo → Option TabManagerState
  handleTabWindowClosed : TabManagerState → TabWindow → Option TabManagerState

/-- The updater that `onTabCreated(uf, tab, markActive)` submits. -/
def onTabCreated (m : StoreMethods) (tab : ChromeTab) (markActive : Bool)
    (state : TabManagerState) : Option TabManagerState :=
  match m.getTabWindowByChromeId state tab.windowId with
  | none => some state
  | some tabWindow =>
    match m.handleTabCreated state tabWindow tab with
    | none => none
    | some st =>
      let nw := m.getTabWindowByChromeId st tab.windowId
      if markActive then m.handleTabActivated st nw tab.id else some st

/-- The updater that `onTabRemoved(uf, windowId, tabId)` submits. -/
def onTabRemoved (m : StoreMethods) (windowId : WindowId) (tabId : TabId)
    (state : TabManagerState) : Option TabManagerState :=
  match m.getTabWindowByChromeId state windowId with
  | none => some state
  | some tabWindow => m.handleTabClosed state tabWindow tabId

/-- The updater of the `chrome.windows.onRemoved` listener. -/
def onWindowRemoved (m : StoreMethods) (windowId : WindowId)
    (state : TabManagerState) : Option TabManagerState :=
  match m.getTabWindowByChromeId state windowId with
  | some tabWindow => m.handleTabWindowClosed state tabWindow
  | none => some state

/-- Whether the updater of the `chrome.windows.onRemoved` listener starts the timer that
clears `showPopout`: the window is found, is a popup, and the store is not initializing. -/
def onWindowRemovedSetsTimer (m : StoreMethods) (windowId : WindowId)
    (state : TabManagerState) : Bool :=
  match m.getTabWindowByChromeId state windowId with
  | some tabWindow => decide (tabWindow.windowType = "popup") && !state.initializing
  | none => false

/-- The updater of the `chrome.tabs.onUpdated` listener. -/
def onTabUpdated (m : StoreMethods) (tabId : TabId) (changeInfo : ChangeInfo) (tab : ChromeTab)
    (state : TabManagerState) : Option TabManagerState :=
  match m.getTabWindowByChromeId state tab.windowId with
  | none => some state
  | some tabWindow => m.handleTabUpdated state tabWindow tabId changeInfo

/-- The updater of the `chrome.tabs.onActivated` listener. -/
def onTabActivated (m : StoreMethods) (tabId : TabId) (windowId : WindowId)
    (state : TabManagerState) : Option TabManagerState :=
  match m.getTabWindowByChromeId state windowId with
  | none => some state
  | some tabWindow => m.handleTabActivated state (some tabWindow) tabId

/-- The updater of the `chrome.tabs.onReplaced` listener. -/
def onTabReplaced (m : StoreMethods) (removedTabId : TabId)
    (state : TabManagerState) : Option TabManagerState :=
  match m.getTabWindowByChromeTabId state removedTabId with
  | none => some state
  | some tabWindow => m.handleTabClosed state tabWindow removedTabId

/-- Whether the updater of the `chrome.tabs.onReplaced` listener asks the browser for the
added tab (`chrome.tabs.get(addedTabId, ...)`), to submit `onTabCreated` for it later. -/
def onTabReplacedFetchesTab (m : StoreMethods) (removedTabId : TabId)
    (state : TabManagerState) : Bool :=
  (m.getTabWindowByChromeTabId state removedTabId).isSome

/-- The browser events of the claim about stale references, each with the data its
listener receives; a tab-attached event carries the tab that `chrome.tabs.get` returns. -/
inductive BrowserEvent where
  | tabCreated (tab : ChromeTab)
  | tabAttached (tab : ChromeTab)
  | tabUpdated (tabId : TabId) (changeInfo : ChangeInfo) (tab : ChromeTab)
  | tabActivated (tabId : TabId) (windowId : WindowId)
  | tabRemoved (tabId : TabId) (windowId : WindowId) (isWindowClosing : Bool)
  | tabDetached (tabId : TabId) (oldWindowId : WindowId)
  | windowRemoved (windowId : WindowId)
  | tabReplaced (addedTabId : TabId) (removedTabId : TabId)

/-- The updater that the listener registered by `registerEventHandlers` submits for an
event; `none` when it submits none (a tab removed because its window is closing). -/
def submittedUpdater (m : StoreMethods) :
    BrowserEvent → Option (TabManagerState → Option TabManagerState)
  | BrowserEvent.tabCreated tab => some (onTabCreated m tab false)
  | BrowserEvent.tabAttached tab => some (onTabCreated m tab true)
  | BrowserEvent.tabUpdated tabId changeInfo tab => some (onTabUpdated m tabId changeInfo tab)
  | BrowserEvent.tabActivated tabId windowId => some (onTabActivated m tabId windowId)
  | BrowserEvent.tabRemoved tabId windowId isWindowClosing =>
    if isWindowClosing then none else some (onTabRemoved m windowId tabId)
  | BrowserEvent.tabDetached tabId oldWindowId => some (onTabRemoved m oldWindowId tabId)
  | BrowserEvent.windowRemoved windowId => some (onWindowRemoved m windowId)
  | BrowserEvent.tabReplaced _ removedTabId => some (onTabReplaced m removedTabId)

/-- The reference of an event is stale: the lookup its updater starts with finds no window
in the store. -/
def staleReference (m : StoreMethods) (state : TabManagerState) : BrowserEvent → Prop
  | BrowserEvent.tabCreated tab => m.getTabWindowByChromeId state tab.windowId = none
  | BrowserEvent.tabAttached tab => m.getTabWindowByChromeId state tab.windowId = none
  | BrowserEvent.tabUpdated _ _ tab => m.getTabWindowByChromeId state tab.windowId = none
  | BrowserEvent.tabActivated _ windowId => m.getTabWindowByChromeId state windowId = none
  | BrowserEvent.tabRemoved _ windowId _ => m.getTabWindowByChromeId state windowId = none
  | BrowserEvent.tabDetached _ oldWindowId => m.getTabWindowByChromeId state oldWindowId = none
  | BrowserEvent.windowRemoved windowId => m.getTabWindowByChromeId state windowId = none
  | BrowserEvent.tabReplaced _ removedTabId => m.getTabWindowByChromeTabId state removedTabId = none

/-- Modelled from the spec: `TabManagerState.getTabWindowByChromeId`
(`src/js/tabManagerState.js` is not among the sources). Spec §4.2: "O(window count) or
indexed lookup; return `null` if absent", the index being the one by live window id. -/
def getTabWindowByChromeId (st : TabManagerState) (windowId : WindowId) : Option TabWindow :=
  mapGet st.windowIdMap windowId

/-- Modelled from the spec: `TabManagerState.getTabWindowByChromeTabId`
(`src/js/tabManagerState.js` is not among the sources). Spec §4.2: "O(window count) or
indexed lookup; return `null` if absent": the open window that holds a tab item with the
given live tab id. -/
def getTabWindowByChromeTabId (st : TabManagerState) (tabId : TabId) : Option TabWindow :=
  (st.windowIdMap.find? (fun e =>
    e.2.tabItems.any (fun ti => ti.openState.any (fun os => decide (os.openTabId = tabId))))).map
    Prod.snd

/-- Store methods for sample evaluations: the two lookups as the specification describes
them; every transition marks the store (it clears `currentWindowId` and sets
`initializing`), so that a transition that ran is visible. -/
def sampleMethods : StoreMethods :=
  { getTabWindowByChromeId := getTabWindowByChromeId,
    getTabWindowByChromeTabId := getTabWindowByChromeTabId,
    handleTabCreated := fun st _ _ => some { st with currentWindowId := none, initializing := true },
    handleTabActivated := fun st _ _ => some { st with currentWindowId := none, initializing := true },
    handleTabClosed := fun st _ _ => some { st with currentWindowId := none, initializing := true },
    handleTabUpdated := fun st _ _ _ => some { st with currentWindowId := none, initializing := true },
    handleTabWindowClosed := fun st _ => some { st with currentWindowId := none, initializing := true } }

/-- A store with one open window, live id 5, holding the open tab 51. -/
def sampleOpenStore : TabManagerState :=
  { windowIdMap :=
      [(5, { savedFolderId := none, openWindowId := some 5, title := "w", windowType := "normal",
             tabItems := [{ url := "A", title := "A",
                            openState := some { openTabId := 51, openWindowId := 5, active := true },
                            savedState := none }],
             snapshot := false, chromeSessionId := none })],
    bookmarkIdMap := [], folderId := none, archiveFolderId := none,
    currentWindowId := some 5, initializing := false }

/-! ## Startup load of the saved windows (`loadManagedWindows`) -/

/-- A node of the bookmark tree (`chrome.bookmarks.BookmarkTreeNode`); `children` is
absent for a bookmark and for a folder that was read without its subtree. -/
inductive BookmarkTreeNode where
  | mk (id : BookmarkId) (title : String) (url : Option Url)
      (children : Option (List BookmarkTreeNode)) : BookmarkTreeNode

/-- The property `node.id`. -/
def BookmarkTreeNode.id : BookmarkTreeNode → BookmarkId
  | BookmarkTreeNode.mk id _ _ _ => id

/-- The property `node.title`. -/
def BookmarkTreeNode.title : BookmarkTreeNode → String
  | BookmarkTreeNode.mk _ title _ _ => title

/-- The property `node.url`. -/
def BookmarkTreeNode.url : BookmarkTreeNode → Option Url
  | BookmarkTreeNode.mk _ _ url _ => url

/-- The property `node.children`. -/
def BookmarkTreeNode.children : BookmarkTreeNode → Option (List BookmarkTreeNode)
  | BookmarkTreeNode.mk _ _ _ children => children

/-- The test `title[0] === '_'`; the first character of an empty title is `undefined`. -/
def titleStartsWithUnderscore (title : String) : Bool :=
  match title.data with
  | c :: _ => decide (c = '_')
  | [] => false

/-- The loop of `loadManagedWindows` over the children of the Tabli folder, from index `i`
on, with the array `folderTabWindows` built so far. The function `makeFolderTabWindow` of
`src/js/tabWindow.js`, which is not among the sources, is a parameter. -/
def folderTabWindowsLoop (makeFolderTabWindow : BookmarkTreeNode → TabWindow) :
    List BookmarkTreeNode → List TabWindow → List TabWindow
  | [], folderTabWindows => folderTabWindows
  | windowFolder :: rest, folderTabWindows =>
    if titleStartsWithUnderscore windowFolder.title then
      folderTabWindowsLoop makeFolderTabWindow rest folderTabWindows
    else
      match windowFolder.children with
      | none => folderTabWindowsLoop makeFolderTabWindow rest folderTabWindows
      | some _ =>
        folderTabWindowsLoop makeFolderTabWindow rest
          (folderTabWindows ++ [makeFolderTabWindow windowFolder])

/-- Modelled from the spec: `TabManagerState.registerTabWindows`
(`src/js/tabManagerState.js` is not among the sources). Spec §4.2: "`registerTabWindows(list)`
/ `registerTabWindow(w)`: insert/replace by identity in the saved index (used during initial
bookmark load)": every window of the list is registered, in order. -/
def registerTabWindows (st : TabManagerState) (tabWindows : List TabWindow) : TabManagerState :=
  tabWindows.foldl registerTabWindow st

/-- The array `folderTabWindows` that `loadManagedWindows` passes to `registerTabWindows`;
`none` is the `TypeError` of reading `length` of an absent `tabManFolder.children`. -/
def folderTabWindows (makeFolderTabWindow : BookmarkTreeNode → TabWindow)
    (tabManFolder : BookmarkTreeNode) : Option (List TabWindow) :=
  match tabManFolder.children with
  | none => none
  | some children => some (folderTabWindowsLoop makeFolderTabWindow children [])

/-- The function `loadManagedWindows`. -/
def loadManagedWindows (makeFolderTabWindow : BookmarkTreeNode → TabWindow)
    (winStore : TabManagerState) (tabManFolder : BookmarkTreeNode) : Option TabManagerState :=
  match folderTabWindows makeFolderTabWindow tabManFolder with
  | none => none
  | some tabWindows => some (registerTabWindows winStore tabWindows)

/-- The folders a window folder is taken from, as the claim about `loadManagedWindows`
words it: the title does not begin with `_` and the `children` field is present. -/
def isWindowFolder (node : BookmarkTreeNode) : Bool :=
  !titleStartsWithUnderscore node.title && node.children.isSome

/-- A bookmark node with the given id and URL. -/
def bookmarkNode (id : BookmarkId) (url : Url) : BookmarkTreeNode :=
  BookmarkTreeNode.mk id url (some url) none

/-- A sample for `makeFolderTabWindow`: the saved window with the id of the folder and the
URLs of its bookmarks. -/
def sampleMakeFolderTabWindow (node : BookmarkTreeNode) : TabWindow :=
  savedWindow node.id (((node.children.getD []).map (fun c => c.url)).filterMap id)

/-- A Tabli folder with the children `_Archive`, a window folder "10" with two bookmarks, a
folder "11" read without children, and an empty window folder "12". -/
def sampleTabliFolder : BookmarkTreeNode :=
  BookmarkTreeNode.mk "1" "Tabli Saved Windows" none
    (some [BookmarkTreeNode.mk "2" "_Archive" none (some [bookmarkNode "21" "Z"]),
           BookmarkTreeNode.mk "10" "Work" none (some [bookmarkNode "101" "A", bookmarkNode "102" "B"]),
           BookmarkTreeNode.mk "11" "Broken" none none,
           BookmarkTreeNode.mk "12" "Empty" none (some [])])

/-- An empty store, as `initWinStore` constructs it before the load. -/
def emptyStore : TabManagerState :=
  { windowIdMap := [], bookmarkIdMap := [], folderId := some "1", archiveFolderId := some "2",
    currentWindowId := none, initializing := true }

/-! ## Actions (`src/js/actions.js`) -/

/-- What an action asks of its environment: a notice to the user, a log line, a call of the
browser, or a state updater passed to the callback `cb`. -/
inductive ActionStep where
  | alert (message : String) : ActionStep
  | log (message : String) : ActionStep
  | bookmarksCreate (parentId : Option BookmarkId) (title : String) (url : Option Url) : ActionStep
  | bookmarksGetSubTree (id : BookmarkId) : ActionStep
  | bookmarksMove (id : Option BookmarkId) (parentId : Option BookmarkId) : ActionStep
  | windowsRemove (windowId : Option WindowId) : ActionStep
  | windowsGet (windowId : Option WindowId) : ActionStep
  | submitUpdater (method : String) : ActionStep
  | tabsCreate (windowId : Option WindowId) (url : Url) : ActionStep
  | tabsRemove (tabIds : List TabId) : ActionStep
  deriving DecidableEq, Repr

/-- A step that is a browser create or remove call. -/
def ActionStep.isCreateOrRemove : ActionStep → Bool
  | ActionStep.bookmarksCreate _ _ _ => true
  | ActionStep.windowsRemove _ => true
  | ActionStep.tabsCreate _ _ => true
  | ActionStep.tabsRemove _ => true
  | _ => false

/-- A step that submits a state updater. -/
def ActionStep.isSubmitUpdater : ActionStep → Bool
  | ActionStep.submitUpdater _ => true
  | _ => false

/-- The function `closeWindow`: the steps it takes, in order, the browser completing the
call it receives. -/
def closeWindow (tabWindow : TabWindow) : List ActionStep :=
  if !tabWindow.isOpen then
    [ActionStep.log "closeWindow: request to close non-open window, ignoring..."]
  else
    [ActionStep.windowsRemove tabWindow.openWindowId,
     ActionStep.submitUpdater "handleTabWindowClosed"]

/-- The array `uniqTabItems` of `manageWindow`: the tab items grouped by URL, and the first
item of every group. No group of `groupBy` is empty, so no group is left out. -/
def uniqTabItems (tabWindow : TabWindow) : List TabItem :=
  (groupBy (fun ti => ti.url) tabWindow.tabItems).filterMap (fun e => e.2.head?)

/-- The bookmarks that the array `bookmarkActions` of `manageWindow` creates: for every
item of `uniqTabItems` the `tabMark` with the id of the new folder as parent. -/
def bookmarkActions (windowFolderNodeId : BookmarkId) (tabWindow : TabWindow) : List ActionStep :=
  (uniqTabItems tabWindow).map (fun tabItem =>
    ActionStep.bookmarksCreate (some windowFolderNodeId) tabItem.title (some tabItem.url))

/-- The function `manageWindow`: the steps it takes, in order, the browser completing every
call it receives and answering the creation of the folder with a node of id
`windowFolderNodeId`. The helper `utils.seqActions` (`src/js/utils.js` is not among the
sources) is taken to run the actions it is given one after the other, each once. -/
def manageWindow (tabliFolderId : Option BookmarkId) (tabWindow : TabWindow) (title : String)
    (windowFolderNodeId : BookmarkId) : List ActionStep :=
  (if !truthyStr tabliFolderId then
    [ActionStep.alert "Could not save bookmarks -- no tab manager folder"]
   else []) ++
  [ActionStep.bookmarksCreate tabliFolderId title none] ++
  bookmarkActions windowFolderNodeId tabWindow ++
  [ActionStep.bookmarksGetSubTree windowFolderNodeId,
   ActionStep.windowsGet tabWindow.openWindowId,
   ActionStep.submitUpdater "attachBookmarkFolder"]

/-- The function `unmanageWindow`: the steps it takes, in order, the browser completing the
call it receives. -/
def unmanageWindow (archiveFolderId : Option BookmarkId) (tabWindow : TabWindow) :
    List ActionStep :=
  if !truthyStr archiveFolderId then
    [ActionStep.alert "could not move managed window folder to archive -- no archive folder"]
  else
    [ActionStep.bookmarksMove tabWindow.savedFolderId archiveFolderId,
     ActionStep.submitUpdater "unmanageWindow"]

/-- The URLs of a list in the order of their first occurrence, each once. -/
def firstOccurrences : List Url → List Url
  | [] => []
  | u :: rest => u :: (firstOccurrences rest).filter (fun v => decide (v ≠ u))

/-- An open, unsaved tab item with the given URL and title. -/
def openTabItem (url : Url) (title : String) : TabItem :=
  { url := url, title := title,
    openState := some { openTabId := 0, openWindowId := 5, active := false }, savedState := none }

/-- An open, unsaved window with the tabs A, B, A again under another title, and C. -/
def sampleOpenWindow : TabWindow :=
  { savedFolderId := none, openWindowId := some 5, title := "w", windowType := "normal",
    tabItems := [openTabItem "A" "first A", openTabItem "B" "b", openTabItem "A" "second A",
                 openTabItem "C" "c"],
    snapshot := false, chromeSessionId := none }

/-! ## Stand-in for `JSON.parse` -/

/-- A stand-in for `JSON.parse` that knows the JSON texts of a table and takes every other
text for unparseable; it is used on texts on which it agrees with `JSON.parse`. -/
def parseTable (table : List (String × Json)) (text : String) : Option Json :=
  mapGet table text

/-! ### Quantities the statements about the session timestamp are phrased in -/

/-- The later of a timestamp and the `lastModified` of every session of a list. -/
def latestTimestamp (sessions : List WinSession) (t : Int) : Int :=
  sessions.foldl (fun t s => if s.lastModified > t then s.lastModified else t) t

/-- The sessions of `sampleSessions` as `chrome.sessions.getRecentlyClosed` returns them,
after a session that records a closed tab. -/
def sampleRawSessions : List Session :=
  { lastModified := 50, window := none } ::
    sampleSessions.map (fun s => { lastModified := s.lastModified, window := some s.window })

/-! ### Sample persisted data -/

/-- The JSON text of `sampleSnapshot`. -/
def sampleSnapshotText : String :=
  "\x7b\"10\":\x7b\"tabItems\":[\x7b\"title\":\"B\",\"url\":\"B\",\"open\":true\x7d,\x7b\"title\":\"X\",\"url\":\"X\",\"open\":true\x7d,\x7b\"title\":\"A\",\"url\":\"A\",\"open\":false\x7d]\x7d,\"11\":\x7b\"tabItems\":[\x7b\"title\":\"Y\",\"url\":\"Y\",\"open\":true\x7d]\x7d\x7d"

/-- A store with the closed saved windows "10" (A, B) and "12" (C). -/
def twoClosedStore : TabManagerState :=
  storeOf [("10", ["A", "B"]), ("12", ["C"])]

/-- A persisted snapshot whose entry for window "10" is an object without `tabItems`, next
to a well-formed entry for window "12". -/
def malformedSnapshot : Json :=
  Json.obj
    [("10", Json.obj []),
     ("12", Json.obj [("tabItems", Json.arr [jsonTabItem "X" true])])]

/-- The JSON text of `malformedSnapshot`. -/
def malformedSnapshotText : String :=
  "\x7b\"10\":\x7b\x7d,\"12\":\x7b\"tabItems\":[\x7b\"title\":\"X\",\"url\":\"X\",\"open\":true\x7d]\x7d\x7d"

/-- A persisted snapshot whose entry for window "10" lists no open item, next to an entry
for window "12" with the open item X. -/
def skippingSnapshot : Json :=
  Json.obj
    [("10", Json.obj [("tabItems", Json.arr [jsonTabItem "A" false])]),
     ("12", Json.obj [("tabItems", Json.arr [jsonTabItem "X" true])])]

/-- The JSON text of `skippingSnapshot`. -/
def skippingSnapshotText : String :=
  "\x7b\"10\":\x7b\"tabItems\":[\x7b\"title\":\"A\",\"url\":\"A\",\"open\":false\x7d]\x7d,\"12\":\x7b\"tabItems\":[\x7b\"title\":\"X\",\"url\":\"X\",\"open\":true\x7d]\x7d\x7d"

/-- The stand-in for `JSON.parse` on the sample texts. -/
def sampleJsonParse : String → Option Json :=
  parseTable [(sampleSnapshotText, sampleSnapshot), (malformedSnapshotText, malformedSnapshot),
    (skippingSnapshotText, skippingSnapshot), ("null", Json.null)]

/-- A persisted entry that the loop of `loadSnapState` skips: it is absent or falsy, or its
`tabItems` array holds no item whose `open` is truthy. -/
def skippedEntry (savedWindowState : Json) (k : BookmarkId) : Prop :=
  jsProp savedWindowState k = some none ∨
    ∃ entry, jsProp savedWindowState k = some (some entry) ∧
      (truthyJson (some entry) = false ∨
        ∃ items, jsProp entry "tabItems" = some (some (Json.arr items)) ∧ openJsonItems items = [])

/-! ## Reverting a window (`revertWindow` of `src/js/actions.js`) -/

/-- The items kept by `tabWindow.tabItems.filter((ti) => ti.open && !ti.saved)`. -/
def unsavedOpenItems (tabWindow : TabWindow) : List TabItem :=
  tabWindow.tabItems.filter (fun ti => ti.isOpen && !ti.saved)

/-- The items kept by `tabWindow.tabItems.filter((ti) => !ti.open && ti.saved)`. -/
def savedClosedItems (tabWindow : TabWindow) : List TabItem :=
  tabWindow.tabItems.filter (fun ti => !ti.isOpen && ti.saved)

/-- The array `unsavedOpenTabIds` of `revertWindow`: `ti.openState.openTabId` of the unsaved
open items. An item is open exactly when it has an `openState`, so the read never fails. -/
def unsavedOpenTabIds (tabWindow : TabWindow) : List TabId :=
  (unsavedOpenItems tabWindow).filterMap (fun ti => ti.openState.map (fun os => os.openTabId))

/-- The array `savedClosedUrls` of `revertWindow`: `ti.savedState.url` of the saved closed
items. An item is saved exactly when it has a `savedState`, so the read never fails. -/
def savedClosedUrls (tabWindow : TabWindow) : List Url :=
  (savedClosedItems tabWindow).filterMap (fun ti => ti.savedState.map (fun ss => ss.url))

/-- The function `revertWindow`: the steps it takes, in order, the browser completing every
call it receives. The saved closed URLs are opened first, one `chrome.tabs.create` each, then
one `chrome.tabs.remove` takes the unsaved open tabs, and `syncChromeWindowById` reads the
window and submits the updater. -/
def revertWindow (tabWindow : TabWindow) : List ActionStep :=
  (savedClosedUrls tabWindow).map (fun url => ActionStep.tabsCreate tabWindow.openWindowId url) ++
  [ActionStep.tabsRemove (unsavedOpenTabIds tabWindow),
   ActionStep.windowsGet tabWindow.openWindowId,
   ActionStep.submitUpdater "syncChromeWindow"]

/-! ### Quantities the statements about `revertWindow` are phrased in -/

/-- The tab ids that a step removes. -/
def ActionStep.removedTabs : ActionStep → List TabId
  | ActionStep.tabsRemove tabIds => tabIds
  | _ => []

/-- The URL that a step opens in a tab, with the window it opens it in. -/
def ActionStep.openedUrl : ActionStep → Option (Option WindowId × Url)
  | ActionStep.tabsCreate windowId url => some (windowId, url)
  | _ => none

/-- The tab ids that a list of steps removes, in order. -/
def removedTabIds (steps : List ActionStep) : List TabId :=
  (steps.map ActionStep.removedTabs).flatten

/-- The URLs that a list of steps opens in a tab, in order. -/
def reopenedUrls (steps : List ActionStep) : List Url :=
  (steps.filterMap ActionStep.openedUrl).map Prod.snd

/-- No two open items of the window have the same tab id. -/
def openTabIdsDistinct (tabWindow : TabWindow) : Prop :=
  ((tabWindow.tabItems.filterMap (fun ti => ti.openState)).map (fun os => os.openTabId)).Nodup

/-- A tab item with the given states. -/
def tabItemOf (url : Url) (openTabId : Option TabId) (bookmarkId : Option BookmarkId) : TabItem :=
  { url := url, title := url,
    openState := openTabId.map (fun i => { openTabId := i, openWindowId := 7, active := false }),
    savedState := bookmarkId.map (fun b => { bookmarkId := b, title := url, url := url }) }

/-- An open saved window with an unsaved open tab, a saved open tab, a saved closed tab, a
second unsaved open tab and a second saved closed tab. -/
def sampleRevertWindow : TabWindow :=
  { savedFolderId := some "10", openWindowId := some 7, title := "W", windowType := "normal",
    tabItems := [tabItemOf "A" (some 1) none, tabItemOf "B" (some 2) (some "b2"),
      tabItemOf "C" none (some "b3"), tabItemOf "D" (some 3) none, tabItemOf "E" none (some "b5")],
    snapshot := false, chromeSessionId := none }

/-! ## Lemmas on association-list maps -/

section MapLemmas

variable {κ ν : Type} [DecidableEq κ]

theorem mapGet_mapSet (m : IMap κ ν) (k k' : κ) (v : ν) :
    mapGet (mapSet m k v) k' = if k = k' then some v else mapGet m k' := by
  induction m with
  | nil => simp [mapSet, mapGet]
  | cons e rest ih =>
    obtain ⟨k0, v0⟩ := e
    by_cases h0 : k0 = k
    · subst h0
      by_cases h1 : k0 = k' <;> simp [mapSet, mapGet, h1]
    · by_cases h1 : k0 = k'
      · subst h1
        have : ¬ k = k0 := fun h => h0 h.symm
        simp [mapSet, mapGet, h0, this]
      · simp [mapSet, mapGet, h0, h1, ih]

theorem mem_mapKeys_mapSet (m : IMap κ ν) (k k' : κ) (v : ν) :
    k' ∈ mapKeys (mapSet m k v) ↔ k' = k ∨ k' ∈ mapKeys m := by
  induction m with
  | nil => simp [mapSet, mapKeys]
  | cons e rest ih =>
    obtain ⟨k0, v0⟩ := e
    by_cases h0 : k0 = k
    · subst h0
      simp [mapSet, mapKeys]
    · have ih' : k' ∈ List.map Prod.fst (mapSet rest k v) ↔ k' = k ∨ k' ∈ List.map Prod.fst rest := ih
      simp only [mapSet, mapKeys, h0, if_false, List.map_cons, List.mem_cons, ih']
      tauto

theorem nodup_mapKeys_mapSet (m : IMap κ ν) (k : κ) (v : ν) (h : (mapKeys m).Nodup) :
    (mapKeys (mapSet m k v)).Nodup := by
  induction m with
  | nil => simp [mapSet, mapKeys]
  | cons e rest ih =>
    obtain ⟨k0, v0⟩ := e
    have h' : k0 ∉ mapKeys rest ∧ (mapKeys rest).Nodup := by
      simpa [mapKeys] using h
    by_cases h0 : k0 = k
    · subst h0
      simpa [mapSet, mapKeys] using h
    · have hmem : k0 ∉ mapKeys (mapSet rest k v) := by
        rw [mem_mapKeys_mapSet]
        rintro (h1 | h1)
        · exact h0 h1
        · exact h'.1 h1
      have := ih h'.2
      simp only [mapSet, h0, if_false]
      simp only [mapKeys, List.map_cons, List.nodup_cons]
      exact ⟨hmem, this⟩

theorem mem_of_mapGet {m : IMap κ ν} {k : κ} {v : ν} (h : mapGet m k = some v) :
    (k, v) ∈ m := by
  induction m with
  | nil => simp [mapGet] at h
  | cons e rest ih =>
    obtain ⟨k0, v0⟩ := e
    by_cases h0 : k0 = k
    · subst h0
      simp [mapGet] at h
      simp [h]
    · simp [mapGet, h0] at h
      exact List.mem_cons_of_mem _ (ih h)

theorem mapGet_of_mem {m : IMap κ ν} {k : κ} {v : ν} (hnd : (mapKeys m).Nodup)
    (h : (k, v) ∈ m) : mapGet m k = some v := by
  induction m with
  | nil => simp at h
  | cons e rest ih =>
    obtain ⟨k0, v0⟩ := e
    have h' : k0 ∉ mapKeys rest ∧ (mapKeys rest).Nodup := by
      simpa [mapKeys] using hnd
    rcases List.mem_cons.mp h with h1 | h1
    · cases h1
      simp [mapGet]
    · have hk : k ∈ mapKeys rest := List.mem_map.mpr ⟨(k, v), h1, rfl⟩
      have h0 : ¬ k0 = k := fun h2 => h'.1 (h2 ▸ hk)
      simp [mapGet, h0, ih h'.2 h1]

theorem mapGet_eq_none_iff (m : IMap κ ν) (k : κ) :
    mapGet m k = none ↔ k ∉ mapKeys m := by
  induction m with
  | nil => simp [mapGet, mapKeys]
  | cons e rest ih =>
    obtain ⟨k0, v0⟩ := e
    have ih' : mapGet rest k = none ↔ k ∉ List.map Prod.fst rest := ih
    by_cases h0 : k0 = k
    · subst h0
      simp [mapGet, mapKeys]
    · have h1 : ¬ k = k0 := fun h => h0 h.symm
      simp [mapGet, mapKeys, h0, h1, ih']

theorem mem_mapKeys_iff_mapGet (m : IMap κ ν) (k : κ) :
    k ∈ mapKeys m ↔ ∃ v, mapGet m k = some v := by
  constructor
  · intro h
    cases hg : mapGet m k with
    | none => exact absurd h ((mapGet_eq_none_iff m k).mp hg)
    | some v => exact ⟨v, rfl⟩
  · rintro ⟨v, hv⟩
    by_contra hk
    rw [(mapGet_eq_none_iff m k).mpr hk] at hv
    cases hv

theorem mem_mapSet {m : IMap κ ν} {k : κ} {v : ν} {e : κ × ν} (h : e ∈ mapSet m k v) :
    e = (k, v) ∨ e ∈ m := by
  induction m with
  | nil => simpa [mapSet] using h
  | cons e0 rest ih =>
    obtain ⟨k0, v0⟩ := e0
    by_cases h0 : k0 = k
    · subst h0
      simp only [mapSet, if_true, List.mem_cons] at h
      rcases h with h | h
      · exact Or.inl h
      · exact Or.inr (List.mem_cons_of_mem _ h)
    · simp only [mapSet, h0, if_false, List.mem_cons] at h
      rcases h with h | h
      · exact Or.inr (by simp [h])
      · rcases ih h with h | h
        · exact Or.inl h
        · exact Or.inr (List.mem_cons_of_mem _ h)

/-- Invariant principle for maps built by a left fold of `mapSet` steps. -/
theorem foldl_invariant {α β : Type} (P : β → Prop) (f : β → α → β) (l : List α) (b : β)
    (h0 : P b) (hstep : ∀ b a, P b → P (f b a)) : P (l.foldl f b) := by
  induction l generalizing b with
  | nil => exact h0
  | cons a rest ih => exact ih (f b a) (hstep b a h0)

theorem nodup_mapKeys_mapFromEntries (es : List (κ × ν)) :
    (mapKeys (mapFromEntries es)).Nodup := by
  unfold mapFromEntries
  apply foldl_invariant (fun m : IMap κ ν => (mapKeys m).Nodup)
  · simp [mapKeys]
  · intro m e hm
    exact nodup_mapKeys_mapSet m e.1 e.2 hm

theorem mem_mapFromEntries {es : List (κ × ν)} {e : κ × ν} (h : e ∈ mapFromEntries es) :
    e ∈ es := by
  have key : ∀ (l : List (κ × ν)) (m : IMap κ ν),
      e ∈ l.foldl (fun m e => mapSet m e.1 e.2) m → e ∈ m ∨ e ∈ l := by
    intro l
    induction l with
    | nil => intro m hm; exact Or.inl hm
    | cons a rest ih =>
      intro m hm
      rcases ih _ hm with h1 | h1
      · rcases mem_mapSet h1 with h2 | h2
        · exact Or.inr (by simp [h2])
        · exact Or.inl h2
      · exact Or.inr (List.mem_cons_of_mem _ h1)
  rcases key es [] h with h1 | h1
  · simp at h1
  · exact h1

end MapLemmas

section MapLemmas2

variable {κ ν : Type} [DecidableEq κ]

theorem mapSet_of_not_mem (m : IMap κ ν) (k : κ) (v : ν) (h : k ∉ mapKeys m) :
    mapSet m k v = m ++ [(k, v)] := by
  induction m with
  | nil => simp [mapSet]
  | cons e rest ih =>
    obtain ⟨k0, v0⟩ := e
    have h' : ¬ k = k0 ∧ k ∉ mapKeys rest := by simpa [mapKeys] using h
    have h0 : ¬ k0 = k := fun h2 => h'.1 h2.symm
    simp [mapSet, h0, ih h'.2]

theorem mapFromEntries_of_nodup (es : List (κ × ν)) (h : (es.map Prod.fst).Nodup) :
    mapFromEntries es = es := by
  have key : ∀ (l : List (κ × ν)) (m : IMap κ ν), (l.map Prod.fst).Nodup →
      (∀ k ∈ l.map Prod.fst, k ∉ mapKeys m) →
      l.foldl (fun m e => mapSet m e.1 e.2) m = m ++ l := by
    intro l
    induction l with
    | nil => intro m _ _; simp
    | cons a rest ih =>
      intro m hnd hdisj
      have hnd' : a.1 ∉ rest.map Prod.fst ∧ (rest.map Prod.fst).Nodup := by
        simpa using hnd
      have ha : a.1 ∉ mapKeys m := hdisj a.1 (by simp)
      rw [List.foldl_cons, mapSet_of_not_mem m a.1 a.2 ha, ih _ hnd'.2]
      · simp
      · intro k hk hk2
        have : k ∈ mapKeys m ∨ k = a.1 := by
          simpa [mapKeys] using hk2
        rcases this with h1 | h1
        · exact hdisj k (List.mem_cons_of_mem _ hk) h1
        · exact hnd'.1 (h1 ▸ hk)
  have := key es [] h (by simp [mapKeys])
  simpa [mapFromEntries] using this

theorem groupStep_get {α : Type} (f : α → κ) (m : IMap κ (List α)) (a : α) (k : κ) :
    mapGet (groupStep f m a) k
    = if f a = k then some ((mapGet m k).getD [] ++ [a]) else mapGet m k := by
  unfold groupStep
  cases hg : mapGet m (f a) with
  | none =>
    simp only [mapGet_mapSet]
    by_cases h : f a = k
    · subst h; simp [hg]
    · simp [h]
  | some g =>
    simp only [mapGet_mapSet]
    by_cases h : f a = k
    · subst h; simp [hg]
    · simp [h]

theorem groupStep_keys {α : Type} (f : α → κ) (m : IMap κ (List α)) (a : α) (k : κ) :
    k ∈ mapKeys (groupStep f m a) ↔ k = f a ∨ k ∈ mapKeys m := by
  unfold groupStep
  cases hg : mapGet m (f a) <;> simp only [mem_mapKeys_mapSet]

theorem groupStep_nodup {α : Type} (f : α → κ) (m : IMap κ (List α)) (a : α)
    (h : (mapKeys m).Nodup) :
    (mapKeys (groupStep f m a)).Nodup := by
  unfold groupStep
  cases hg : mapGet m (f a) <;> exact nodup_mapKeys_mapSet _ _ _ h

theorem nodup_mapKeys_groupBy {α : Type} (f : α → κ) (l : List α) :
    (mapKeys (groupBy f l)).Nodup := by
  unfold groupBy
  apply foldl_invariant (fun m : IMap κ (List α) => (mapKeys m).Nodup)
  · simp [mapKeys]
  · intro m a hm
    exact groupStep_nodup f m a hm

theorem groupBy_fold_get {α : Type} (f : α → κ) (l : List α) (m : IMap κ (List α)) (k : κ) :
    (mapGet (l.foldl (groupStep f) m) k).getD []
    = (mapGet m k).getD [] ++ l.filter (fun a => decide (f a = k)) := by
  induction l generalizing m with
  | nil => simp
  | cons a rest ih =>
    rw [List.foldl_cons, ih, groupStep_get]
    by_cases h : f a = k
    · simp [h, List.filter_cons]
    · simp [h, List.filter_cons]

theorem groupBy_fold_keys {α : Type} (f : α → κ) (l : List α) (m : IMap κ (List α)) (k : κ) :
    k ∈ mapKeys (l.foldl (groupStep f) m)
    ↔ k ∈ mapKeys m ∨ ∃ a ∈ l, f a = k := by
  induction l generalizing m with
  | nil => simp
  | cons a rest ih =>
    rw [List.foldl_cons, ih, groupStep_keys]
    constructor
    · rintro ((h | h) | ⟨b, hb, hfb⟩)
      · exact Or.inr ⟨a, by simp, h.symm⟩
      · exact Or.inl h
      · exact Or.inr ⟨b, List.mem_cons_of_mem _ hb, hfb⟩
    · rintro (h | ⟨b, hb, hfb⟩)
      · exact Or.inl (Or.inr h)
      · rcases List.mem_cons.mp hb with h1 | h1
        · subst h1; exact Or.inl (Or.inl hfb.symm)
        · exact Or.inr ⟨b, h1, hfb⟩

/-- A group of `groupBy` is the list of all elements with its key, in order. -/
theorem mem_groupBy {α : Type} (f : α → κ) (l : List α) (k : κ) (g : List α)
    (h : (k, g) ∈ groupBy f l) :
    g = l.filter (fun a => decide (f a = k)) ∧ ∃ a ∈ l, f a = k := by
  have hget := mapGet_of_mem (nodup_mapKeys_groupBy f l) h
  have h1 := groupBy_fold_get f l [] k
  have h2 := (groupBy_fold_keys f l [] k).mp (List.mem_map.mpr ⟨(k, g), h, rfl⟩)
  unfold groupBy at hget
  rw [hget] at h1
  constructor
  · simpa [mapGet] using h1
  · simpa [mapKeys] using h2

/-- Every key that occurs has its group in `groupBy`. -/
theorem groupBy_mem {α : Type} (f : α → κ) (l : List α) (a : α) (ha : a ∈ l) :
    (f a, l.filter (fun b => decide (f b = f a))) ∈ groupBy f l := by
  have hk : f a ∈ mapKeys (groupBy f l) := by
    unfold groupBy
    exact (groupBy_fold_keys f l [] (f a)).mpr (Or.inr ⟨a, ha, rfl⟩)
  obtain ⟨g, hg⟩ := (mem_mapKeys_iff_mapGet _ _).mp hk
  have hmem := mem_of_mapGet hg
  have := (mem_groupBy f l (f a) g hmem).1
  rw [← this]
  exact hmem

end MapLemmas2

section CountLemmas

variable {κ : Type} [DecidableEq κ]

theorem getD_mapSet (m : IMap κ Nat) (k k' : κ) (v : Nat) :
    (mapGet (mapSet m k v) k').getD 0 = if k = k' then v else (mapGet m k').getD 0 := by
  rw [mapGet_mapSet]
  by_cases h : k = k' <;> simp [h]

theorem pos_mapSet (m : IMap κ Nat) (k : κ) (v : Nat) (hv : 0 < v)
    (h : ∀ e ∈ m, 0 < e.2) : ∀ e ∈ mapSet m k v, 0 < e.2 := by
  intro e he
  rcases mem_mapSet he with h1 | h1
  · rw [h1]; exact hv
  · exact h e h1

theorem mem_mapKeys_iff_pos (m : IMap κ Nat) (k : κ) (h : ∀ e ∈ m, 0 < e.2) :
    k ∈ mapKeys m ↔ 0 < (mapGet m k).getD 0 := by
  constructor
  · intro hk
    obtain ⟨v, hv⟩ := (mem_mapKeys_iff_mapGet m k).mp hk
    have := h (k, v) (mem_of_mapGet hv)
    simpa [hv] using this
  · intro hpos
    by_contra hk
    rw [(mapGet_eq_none_iff m k).mpr hk] at hpos
    simp at hpos

/-- One step of `mergeWith` with addition adds the value to the count of its key. -/
theorem mergeStep_getD (m : IMap κ Nat) (e : κ × Nat) (k : κ) :
    (mapGet (mergeStep (fun prev next => prev + next) m e) k).getD 0
    = (mapGet m k).getD 0 + if e.1 = k then e.2 else 0 := by
  unfold mergeStep
  cases hg : mapGet m e.1 with
  | none =>
    rw [getD_mapSet]
    by_cases h : e.1 = k
    · subst h; simp [hg]
    · simp [h]
  | some prev =>
    rw [getD_mapSet]
    by_cases h : e.1 = k
    · subst h; simp [hg]
    · simp [h]

theorem mergeStep_nodup (m : IMap κ Nat) (e : κ × Nat) (h : (mapKeys m).Nodup) :
    (mapKeys (mergeStep (fun prev next => prev + next) m e)).Nodup := by
  unfold mergeStep
  cases hg : mapGet m e.1 <;> exact nodup_mapKeys_mapSet _ _ _ h

theorem mergeStep_pos (m : IMap κ Nat) (e : κ × Nat) (he : 0 < e.2)
    (h : ∀ x ∈ m, 0 < x.2) :
    ∀ x ∈ (mergeStep (fun prev next => prev + next) m e), 0 < x.2 := by
  unfold mergeStep
  cases hg : mapGet m e.1 with
  | none => exact pos_mapSet m e.1 e.2 he h
  | some prev => exact pos_mapSet m e.1 (prev + e.2) (by omega) h

theorem mergeWith_getD (mA mB : IMap κ Nat) (k : κ) :
    (mapGet (mergeWith (fun prev next => prev + next) mA mB) k).getD 0
    = (mapGet mA k).getD 0 + (mB.map (fun e => if e.1 = k then e.2 else 0)).sum := by
  unfold mergeWith
  induction mB generalizing mA with
  | nil => simp
  | cons e rest ih =>
    rw [List.foldl_cons, ih, mergeStep_getD]
    simp [Nat.add_assoc]

theorem mergeWith_nodup (mA mB : IMap κ Nat) (h : (mapKeys mA).Nodup) :
    (mapKeys (mergeWith (fun prev next => prev + next) mA mB)).Nodup := by
  unfold mergeWith
  apply foldl_invariant (fun m : IMap κ Nat => (mapKeys m).Nodup)
  · exact h
  · intro m e hm
    exact mergeStep_nodup m e hm

theorem mergeWith_pos (mA mB : IMap κ Nat) (hA : ∀ x ∈ mA, 0 < x.2)
    (hB : ∀ x ∈ mB, 0 < x.2) :
    ∀ x ∈ mergeWith (fun prev next => prev + next) mA mB, 0 < x.2 := by
  unfold mergeWith
  induction mB generalizing mA with
  | nil => simpa using hA
  | cons e rest ih =>
    rw [List.foldl_cons]
    apply ih
    · exact mergeStep_pos mA e (hB e (by simp)) hA
    · intro x hx
      exact hB x (List.mem_cons_of_mem _ hx)

/-- Summing the values stored under one key of a map with distinct keys gives its count. -/
theorem sum_key_eq_getD (m : IMap κ Nat) (k : κ) (h : (mapKeys m).Nodup) :
    (m.map (fun e => if e.1 = k then e.2 else 0)).sum = (mapGet m k).getD 0 := by
  induction m with
  | nil => simp [mapGet]
  | cons e rest ih =>
    obtain ⟨k0, v0⟩ := e
    have h' : k0 ∉ mapKeys rest ∧ (mapKeys rest).Nodup := by
      simpa [mapKeys] using h
    by_cases h0 : k0 = k
    · subst h0
      have hnone : mapGet rest k0 = none := (mapGet_eq_none_iff rest k0).mpr h'.1
      have := ih h'.2
      rw [hnone] at this
      simp [mapGet, this]
    · simp [mapGet, h0, ih h'.2]

theorem countStep_getD (m : IMap κ Nat) (v k : κ) :
    (mapGet (countStep m v) k).getD 0
    = (mapGet m k).getD 0 + if v = k then 1 else 0 := by
  unfold countStep
  cases hg : mapGet m v with
  | none =>
    rw [getD_mapSet]
    by_cases h : v = k
    · subst h; simp [hg]
    · simp [h]
  | some c =>
    rw [getD_mapSet]
    by_cases h : v = k
    · subst h; simp [hg]
    · simp [h]

theorem countBy_fold_getD (s : List κ) (m : IMap κ Nat) (k : κ) :
    (mapGet (s.foldl countStep m) k).getD 0
    = (mapGet m k).getD 0 + s.count k := by
  induction s generalizing m with
  | nil => simp
  | cons v rest ih =>
    rw [List.foldl_cons, ih, countStep_getD]
    by_cases h : v = k
    · subst h; simp; omega
    · have : ¬ (v == k) = true := by simpa using h
      simp [h, List.count_cons, this]

theorem countBy_getD (s : List κ) (k : κ) :
    (mapGet (countBy s) k).getD 0 = s.count k := by
  have := countBy_fold_getD s [] k
  simpa [countBy, mapGet] using this

theorem countBy_nodup (s : List κ) : (mapKeys (countBy s)).Nodup := by
  unfold countBy
  apply foldl_invariant (fun m : IMap κ Nat => (mapKeys m).Nodup)
  · simp [mapKeys]
  · intro m v hm
    unfold countStep
    cases hg : mapGet m v <;> exact nodup_mapKeys_mapSet _ _ _ hm

theorem countBy_pos (s : List κ) : ∀ x ∈ countBy s, 0 < x.2 := by
  unfold countBy
  apply foldl_invariant (fun m : IMap κ Nat => ∀ x ∈ m, 0 < x.2)
  · simp
  · intro m v hm
    unfold countStep
    cases hg : mapGet m v with
    | none => exact pos_mapSet m v 1 (by omega) hm
    | some c => exact pos_mapSet m v (c + 1) (by omega) hm

end CountLemmas

section MatcherLemmas

theorem aggMerge_fold_getD (ss : List (List BookmarkId)) (acc : IMap BookmarkId Nat)
    (k : BookmarkId) :
    (mapGet ((ss.map countBy).foldl
      (fun mA mB => mergeWith (fun prev next => prev + next) mA mB) acc) k).getD 0
    = (mapGet acc k).getD 0 + (ss.map (fun s => s.count k)).sum := by
  induction ss generalizing acc with
  | nil => simp
  | cons s rest ih =>
    rw [List.map_cons, List.foldl_cons, ih, mergeWith_getD,
      sum_key_eq_getD _ _ (countBy_nodup s), countBy_getD]
    simp [Nat.add_assoc]

theorem aggMerge_fold_nodup (ss : List (List BookmarkId)) (acc : IMap BookmarkId Nat)
    (h : (mapKeys acc).Nodup) :
    (mapKeys ((ss.map countBy).foldl
      (fun mA mB => mergeWith (fun prev next => prev + next) mA mB) acc)).Nodup := by
  apply foldl_invariant (fun m : IMap BookmarkId Nat => (mapKeys m).Nodup)
  · exact h
  · intro m mB hm
    exact mergeWith_nodup m mB hm

theorem aggMerge_fold_pos (ss : List (List BookmarkId)) (acc : IMap BookmarkId Nat)
    (h : ∀ x ∈ acc, 0 < x.2) :
    ∀ x ∈ (ss.map countBy).foldl
      (fun mA mB => mergeWith (fun prev next => prev + next) mA mB) acc, 0 < x.2 := by
  induction ss generalizing acc with
  | nil => simpa using h
  | cons s rest ih =>
    rw [List.map_cons, List.foldl_cons]
    apply ih
    exact mergeWith_pos acc (countBy s) h (countBy_pos s)

theorem matchMap_nodup (urlIdMap : IMap Url (List BookmarkId)) (w : ChromeWindow) :
    (mapKeys (matchMap urlIdMap w)).Nodup := by
  unfold matchMap
  exact aggMerge_fold_nodup _ [] (by simp [mapKeys])

theorem matchMap_pos (urlIdMap : IMap Url (List BookmarkId)) (w : ChromeWindow) :
    ∀ x ∈ matchMap urlIdMap w, 0 < x.2 := by
  unfold matchMap
  exact aggMerge_fold_pos _ [] (by simp)

theorem sum_count_filterMap (l : List (Option (List BookmarkId))) (k : BookmarkId) :
    ((l.filterMap id).map (fun s => s.count k)).sum
    = (l.map (fun o => (o.getD []).count k)).sum := by
  induction l with
  | nil => simp
  | cons o rest ih =>
    cases o with
    | none => simpa using ih
    | some s => simp [List.filterMap_cons, ih]

/-- The count that `matchMap` holds for a bookmark id: the tabs of the window, each counted
as often as the id occurs in the set the index gives for the URL of the tab. -/
theorem matchMap_getD (urlIdMap : IMap Url (List BookmarkId)) (w : ChromeWindow)
    (k : BookmarkId) :
    (mapGet (matchMap urlIdMap w) k).getD 0
    = (w.tabs.map (fun t => ((mapGet urlIdMap t.url).getD []).count k)).sum := by
  unfold matchMap
  simp only []
  rw [aggMerge_fold_getD, sum_count_filterMap]
  simp [mapGet, List.map_map, Function.comp_def]

/-! ### The URL index -/

theorem mem_setAdd (s : List BookmarkId) (k b : BookmarkId) :
    b ∈ setAdd s k ↔ b ∈ s ∨ b = k := by
  unfold setAdd
  by_cases h : k ∈ s
  · simp only [h, if_true]
    constructor
    · exact Or.inl
    · rintro (h1 | h1)
      · exact h1
      · exact h1 ▸ h
  · simp [h]

theorem nodup_setAdd (s : List BookmarkId) (k : BookmarkId) (h : s.Nodup) :
    (setAdd s k).Nodup := by
  unfold setAdd
  by_cases hk : k ∈ s
  · simpa [hk] using h
  · simp only [hk, if_false]
    rw [List.nodup_append]
    refine ⟨h, by simp, ?_⟩
    intro a ha hb
    simp at hb
    exact hk (hb ▸ ha)

theorem index_inner_mem (b : BookmarkId) (tis : List TabItem)
    (idx : IMap Url (List BookmarkId)) (u : Url) (b' : BookmarkId) :
    b' ∈ (mapGet (tis.foldl (fun idx ti =>
      mapSet idx ti.url (setAdd ((mapGet idx ti.url).getD []) b)) idx) u).getD []
    ↔ b' ∈ (mapGet idx u).getD [] ∨ (b' = b ∧ ∃ ti ∈ tis, ti.url = u) := by
  induction tis generalizing idx with
  | nil => simp
  | cons ti rest ih =>
    rw [List.foldl_cons, ih, mapGet_mapSet]
    by_cases h : ti.url = u
    · subst h
      simp only [if_true, Option.getD_some, mem_setAdd, List.mem_cons, exists_eq_or_imp, true_or,
        and_true]
      tauto
    · simp only [h, if_false, List.mem_cons, exists_eq_or_imp, false_or]

theorem index_inner_nodup (b : BookmarkId) (tis : List TabItem)
    (idx : IMap Url (List BookmarkId)) (h : ∀ u, ((mapGet idx u).getD []).Nodup) :
    ∀ u, ((mapGet (tis.foldl (fun idx ti =>
      mapSet idx ti.url (setAdd ((mapGet idx ti.url).getD []) b)) idx) u).getD []).Nodup := by
  induction tis generalizing idx with
  | nil => simpa using h
  | cons ti rest ih =>
    rw [List.foldl_cons]
    apply ih
    intro u
    rw [mapGet_mapSet]
    by_cases hu : ti.url = u
    · simp only [hu, if_true, Option.getD_some]
      exact nodup_setAdd _ _ (h u)
    · simp only [hu, if_false]
      exact h u

theorem index_outer_mem (entries : IMap BookmarkId TabWindow)
    (idx : IMap Url (List BookmarkId)) (u : Url) (b' : BookmarkId) :
    b' ∈ (mapGet (entries.foldl (fun idx e =>
      e.2.tabItems.foldl (fun idx ti =>
        mapSet idx ti.url (setAdd ((mapGet idx ti.url).getD []) e.1)) idx) idx) u).getD []
    ↔ b' ∈ (mapGet idx u).getD [] ∨
      ∃ e ∈ entries, e.1 = b' ∧ ∃ ti ∈ e.2.tabItems, ti.url = u := by
  induction entries generalizing idx with
  | nil => simp
  | cons e rest ih =>
    rw [List.foldl_cons, ih, index_inner_mem]
    simp only [List.mem_cons, exists_eq_or_imp]
    constructor
    · rintro ((h | ⟨h1, h2⟩) | h)
      · exact Or.inl h
      · exact Or.inr (Or.inl ⟨h1.symm, h2⟩)
      · exact Or.inr (Or.inr h)
    · rintro (h | ⟨h1, h2⟩ | h)
      · exact Or.inl (Or.inl h)
      · exact Or.inl (Or.inr ⟨h1.symm, h2⟩)
      · exact Or.inr h

theorem index_outer_nodup (entries : IMap BookmarkId TabWindow)
    (idx : IMap Url (List BookmarkId)) (h : ∀ u, ((mapGet idx u).getD []).Nodup) :
    ∀ u, ((mapGet (entries.foldl (fun idx e =>
      e.2.tabItems.foldl (fun idx ti =>
        mapSet idx ti.url (setAdd ((mapGet idx ti.url).getD []) e.1)) idx) idx) u).getD []).Nodup := by
  induction entries generalizing idx with
  | nil => simpa using h
  | cons e rest ih =>
    rw [List.foldl_cons]
    apply ih
    exact index_inner_nodup e.1 e.2.tabItems idx h

/-- The index maps a URL to the ids of the saved windows that have a tab item with it. -/
theorem mem_getUrlBookmarkIdMap (bmStore : TabManagerState) (u : Url) (b : BookmarkId) :
    b ∈ (mapGet (getUrlBookmarkIdMap bmStore) u).getD []
    ↔ ∃ e ∈ bmStore.bookmarkIdMap, e.1 = b ∧ ∃ ti ∈ e.2.tabItems, ti.url = u := by
  unfold getUrlBookmarkIdMap
  rw [index_outer_mem]
  simp [mapGet]

theorem nodup_getUrlBookmarkIdMap (bmStore : TabManagerState) (u : Url) :
    ((mapGet (getUrlBookmarkIdMap bmStore) u).getD []).Nodup := by
  unfold getUrlBookmarkIdMap
  apply index_outer_nodup
  intro u
  simp [mapGet]

end MatcherLemmas

section BestMatchLemmas

variable {κ : Type}

/-- A best match is a key of the map whose count no entry exceeds and no other entry
reaches. -/
theorem bestMatch_some {m : IMap κ Nat} {k : κ} (h : bestMatch m = some k) :
    ∃ c, (k, c) ∈ m ∧ (∀ e ∈ m, e.2 ≤ c) ∧ (∀ e ∈ m, c ≤ e.2 → e = (k, c)) := by
  unfold bestMatch at h
  generalize hf : m.filter (fun e => m.all (fun e' => decide (e'.2 ≤ e.2))) = fl at h
  match fl, h with
  | [e], h =>
    simp only [Option.some.injEq] at h
    have he : e ∈ m.filter (fun e => m.all (fun e' => decide (e'.2 ≤ e.2))) := by
      rw [hf]; simp
    rw [List.mem_filter] at he
    have hmax : ∀ e' ∈ m, e'.2 ≤ e.2 := by
      have := he.2
      simpa [List.all_eq_true] using this
    refine ⟨e.2, ?_, hmax, ?_⟩
    · rw [← h]; exact he.1
    · intro e' he' hle
      have : e' ∈ m.filter (fun e => m.all (fun e' => decide (e'.2 ≤ e.2))) := by
        rw [List.mem_filter]
        refine ⟨he', ?_⟩
        simp only [List.all_eq_true, decide_eq_true_eq]
        intro x hx
        exact le_trans (hmax x hx) hle
      rw [hf] at this
      have h2 : e' = e := by simpa using this
      rw [h2, ← h]

theorem filter_eq_singleton {α : Type} (p : α → Bool) (l : List α) (a : α) (hnd : l.Nodup)
    (ha : a ∈ l) (hp : ∀ x ∈ l, p x = true ↔ x = a) : l.filter p = [a] := by
  induction l with
  | nil => simp at ha
  | cons x rest ih =>
    have hnd' : x ∉ rest ∧ rest.Nodup := by simpa using hnd
    by_cases hx : x = a
    · subst hx
      have hpx : p x = true := (hp x (by simp)).mpr rfl
      have hrest : rest.filter p = [] := by
        rw [List.filter_eq_nil_iff]
        intro y hy hpy
        have := (hp y (List.mem_cons_of_mem _ hy)).mp hpy
        exact hnd'.1 (this ▸ hy)
      simp [List.filter_cons, hpx, hrest]
    · have hpx : ¬ p x = true := fun h => hx ((hp x (by simp)).mp h)
      have ha' : a ∈ rest := by
        rcases List.mem_cons.mp ha with h | h
        · exact absurd h.symm hx
        · exact h
      have := ih hnd'.2 ha' (fun y hy => hp y (List.mem_cons_of_mem _ hy))
      simp [List.filter_cons, hpx, this]

theorem nodup_of_nodup_mapKeys {ν : Type} (m : IMap κ ν) (h : (mapKeys m).Nodup) : m.Nodup :=
  List.Nodup.of_map Prod.fst h

/-- A unique maximum is the best match. -/
theorem bestMatch_of_unique_max {m : IMap κ Nat} {k : κ} {c : Nat} (hnd : (mapKeys m).Nodup)
    (hk : (k, c) ∈ m) (hlt : ∀ e ∈ m, e ≠ (k, c) → e.2 < c) : bestMatch m = some k := by
  have hfilter : m.filter (fun e => m.all (fun e' => decide (e'.2 ≤ e.2))) = [(k, c)] := by
    apply filter_eq_singleton _ _ _ (nodup_of_nodup_mapKeys m hnd) hk
    intro x hx
    simp only [List.all_eq_true, decide_eq_true_eq]
    constructor
    · intro hmax
      by_contra hne
      have h1 := hlt x hx hne
      have h2 := hmax (k, c) hk
      simp only at h2
      omega
    · intro hxe e' he'
      rw [hxe]
      by_cases h : e' = (k, c)
      · rw [h]
      · exact le_of_lt (hlt e' he' h)
  unfold bestMatch
  rw [hfilter]

/-- Two entries at the maximum: no best match. -/
theorem bestMatch_of_tie {m : IMap κ Nat} {k1 k2 : κ} {c : Nat} (hne : k1 ≠ k2)
    (h1 : (k1, c) ∈ m) (h2 : (k2, c) ∈ m) (hmax : ∀ e ∈ m, e.2 ≤ c) : bestMatch m = none := by
  cases hb : bestMatch m with
  | none => rfl
  | some k =>
    obtain ⟨c', _, _, huniq⟩ := bestMatch_some hb
    have hc1 : c' ≤ c := by
      have := hmax (k, c') (by assumption)
      simpa using this
    have e1 := huniq (k1, c) h1 hc1
    have e2 := huniq (k2, c) h2 hc1
    have : k1 = k2 := by
      have a1 : k1 = k := congrArg Prod.fst e1
      have a2 : k2 = k := congrArg Prod.fst e2
      rw [a1, a2]
    exact absurd this hne

theorem bestMatch_nil : bestMatch ([] : IMap κ Nat) = none := rfl

end BestMatchLemmas

section ThreshLemmas

theorem threshFilter_some (bmStore : TabManagerState) (m : IMap BookmarkId Nat)
    (h : ∀ k ∈ mapKeys m, k ∈ mapKeys bmStore.bookmarkIdMap) :
    ∃ tm, threshFilter bmStore m = some tm := by
  induction m with
  | nil => exact ⟨[], rfl⟩
  | cons e rest ih =>
    obtain ⟨b, c⟩ := e
    have hb : b ∈ mapKeys bmStore.bookmarkIdMap := h b (by simp [mapKeys])
    obtain ⟨tw, htw⟩ := (mem_mapKeys_iff_mapGet _ _).mp hb
    obtain ⟨tm, htm⟩ := ih (fun k hk => h k (by
      simp only [mapKeys, List.map_cons, List.mem_cons]
      exact Or.inr hk))
    simp only [threshFilter, aboveMatchThreshold, htw, htm]
    exact ⟨_, rfl⟩

theorem mem_threshFilter (bmStore : TabManagerState) (m tm : IMap BookmarkId Nat)
    (h : threshFilter bmStore m = some tm) (e : BookmarkId × Nat) :
    e ∈ tm ↔ e ∈ m ∧ aboveMatchThreshold bmStore e.2 e.1 = some true := by
  induction m generalizing tm with
  | nil =>
    simp only [threshFilter, Option.some.injEq] at h
    subst h
    simp
  | cons e0 rest ih =>
    obtain ⟨b, c⟩ := e0
    simp only [threshFilter] at h
    cases ha : aboveMatchThreshold bmStore c b with
    | none => simp [ha] at h
    | some keep =>
      cases hr : threshFilter bmStore rest with
      | none => simp [ha, hr] at h
      | some rest' =>
        simp only [ha, hr, Option.some.injEq] at h
        have ih' := ih rest' hr
        subst h
        cases keep with
        | true =>
          simp only [if_true, List.mem_cons, ih']
          constructor
          · rintro (h1 | h1)
            · subst h1; exact ⟨Or.inl rfl, ha⟩
            · exact ⟨Or.inr h1.1, h1.2⟩
          · rintro ⟨h1 | h1, h2⟩
            · exact Or.inl h1
            · exact Or.inr ⟨h1, h2⟩
        | false =>
          simp only [Bool.false_eq_true, if_false, List.mem_cons, ih']
          constructor
          · rintro ⟨h1, h2⟩
            exact ⟨Or.inr h1, h2⟩
          · rintro ⟨h1 | h1, h2⟩
            · subst h1
              rw [ha] at h2
              cases h2
            · exact ⟨h1, h2⟩

theorem threshFilter_sublist (bmStore : TabManagerState) (m tm : IMap BookmarkId Nat)
    (h : threshFilter bmStore m = some tm) : List.Sublist tm m := by
  induction m generalizing tm with
  | nil =>
    simp only [threshFilter, Option.some.injEq] at h
    subst h
    exact List.Sublist.refl _
  | cons e0 rest ih =>
    obtain ⟨b, c⟩ := e0
    simp only [threshFilter] at h
    cases ha : aboveMatchThreshold bmStore c b with
    | none => simp [ha] at h
    | some keep =>
      cases hr : threshFilter bmStore rest with
      | none => simp [ha, hr] at h
      | some rest' =>
        simp only [ha, hr, Option.some.injEq] at h
        subst h
        cases keep with
        | true => simpa using ih rest' hr
        | false =>
          simp only [Bool.false_eq_true, if_false]
          exact List.Sublist.cons _ (ih rest' hr)

theorem threshFilter_nodup (bmStore : TabManagerState) (m tm : IMap BookmarkId Nat)
    (h : threshFilter bmStore m = some tm) (hnd : (mapKeys m).Nodup) : (mapKeys tm).Nodup :=
  List.Nodup.sublist (List.Sublist.map Prod.fst (threshFilter_sublist bmStore m tm h)) hnd

end ThreshLemmas

section CandidateLemmas

theorem sum_map_ite_eq_length_filter {α : Type} (p : α → Bool) (l : List α) :
    (l.map (fun x => if p x = true then 1 else 0)).sum = (l.filter p).length := by
  induction l with
  | nil => simp
  | cons x rest ih =>
    by_cases h : p x = true
    · simp [List.filter_cons, h, ih]; omega
    · simp [List.filter_cons, h, ih]

theorem count_index_eq (bmStore : TabManagerState) (hst : storeKeysDistinct bmStore)
    (b : BookmarkId) (tw : TabWindow) (hb : mapGet bmStore.bookmarkIdMap b = some tw) (u : Url) :
    ((mapGet (getUrlBookmarkIdMap bmStore) u).getD []).count b
    = if tw.tabItems.any (fun ti => decide (ti.url = u)) = true then 1 else 0 := by
  have hmem := mem_getUrlBookmarkIdMap bmStore u b
  have hnd := nodup_getUrlBookmarkIdMap bmStore u
  by_cases h : tw.tabItems.any (fun ti => decide (ti.url = u)) = true
  · rw [if_pos h]
    apply List.count_eq_one_of_mem hnd
    rw [hmem]
    refine ⟨(b, tw), mem_of_mapGet hb, rfl, ?_⟩
    simpa [List.any_eq_true] using h
  · rw [if_neg h]
    apply List.count_eq_zero_of_not_mem
    rw [hmem]
    rintro ⟨e, he, he1, hti⟩
    apply h
    have : mapGet bmStore.bookmarkIdMap e.1 = some e.2 := mapGet_of_mem hst he
    rw [he1, hb] at this
    have htw : tw = e.2 := by simpa using this
    rw [htw]
    simpa [List.any_eq_true] using hti

/-- With the index of the store, the count `matchMap` holds for a saved window is the number
of tabs of the live window whose URL is saved in it. -/
theorem matchMap_store_getD (bmStore : TabManagerState) (hst : storeKeysDistinct bmStore)
    (w : ChromeWindow) (b : BookmarkId) (tw : TabWindow)
    (hb : mapGet bmStore.bookmarkIdMap b = some tw) :
    (mapGet (matchMap (getUrlBookmarkIdMap bmStore) w) b).getD 0 = urlMatchCount w tw := by
  rw [matchMap_getD]
  unfold urlMatchCount
  rw [← sum_map_ite_eq_length_filter]
  congr 1
  apply List.map_congr_left
  intro t _
  exact count_index_eq bmStore hst b tw hb t.url

theorem exists_pos_of_sum_pos {α : Type} (f : α → Nat) (l : List α)
    (h : 0 < (l.map f).sum) : ∃ x ∈ l, 0 < f x := by
  induction l with
  | nil => simp at h
  | cons x rest ih =>
    by_cases hx : 0 < f x
    · exact ⟨x, by simp, hx⟩
    · have : 0 < (rest.map f).sum := by
        simp only [List.map_cons, List.sum_cons] at h
        omega
      obtain ⟨y, hy, hfy⟩ := ih this
      exact ⟨y, List.mem_cons_of_mem _ hy, hfy⟩

theorem matchMap_keys_in_store (bmStore : TabManagerState) (w : ChromeWindow) (b : BookmarkId)
    (h : b ∈ mapKeys (matchMap (getUrlBookmarkIdMap bmStore) w)) :
    b ∈ mapKeys bmStore.bookmarkIdMap := by
  have hpos := (mem_mapKeys_iff_pos _ b (matchMap_pos _ w)).mp h
  rw [matchMap_getD] at hpos
  obtain ⟨t, _, ht⟩ := exists_pos_of_sum_pos _ _ hpos
  have hmem : b ∈ (mapGet (getUrlBookmarkIdMap bmStore) t.url).getD [] :=
    List.count_pos_iff.mp ht
  obtain ⟨e, he, he1, _⟩ := (mem_getUrlBookmarkIdMap bmStore t.url b).mp hmem
  exact List.mem_map.mpr ⟨e, he, he1⟩

/-- With the index of its own store, `getMatchInfo` raises no exception. -/
theorem getMatchInfo_some (bmStore : TabManagerState) (w : ChromeWindow) :
    ∃ tm, threshFilter bmStore (matchMap (getUrlBookmarkIdMap bmStore) w) = some tm ∧
      getMatchInfo bmStore (getUrlBookmarkIdMap bmStore) w
      = some { windowId := w.id, matches_ := matchMap (getUrlBookmarkIdMap bmStore) w,
               bestMatch := bestMatch tm, tabCount := w.tabs.length } := by
  obtain ⟨tm, htm⟩ := threshFilter_some bmStore (matchMap (getUrlBookmarkIdMap bmStore) w)
    (fun k hk => matchMap_keys_in_store bmStore w k hk)
  refine ⟨tm, htm, ?_⟩
  simp only [getMatchInfo, htm]

theorem allMatchInfo_some (bmStore : TabManagerState) (windowList : List ChromeWindow) :
    ∃ mis, allMatchInfo bmStore (getUrlBookmarkIdMap bmStore) windowList = some mis := by
  induction windowList with
  | nil => exact ⟨[], rfl⟩
  | cons w rest ih =>
    obtain ⟨tm, _, hmi⟩ := getMatchInfo_some bmStore w
    obtain ⟨mis, hmis⟩ := ih
    simp only [allMatchInfo, hmi, hmis]
    exact ⟨_, rfl⟩

theorem mem_allMatchInfo (bmStore : TabManagerState) (urlIdMap : IMap Url (List BookmarkId))
    (windowList : List ChromeWindow) (mis : List MatchInfo)
    (h : allMatchInfo bmStore urlIdMap windowList = some mis) (mi : MatchInfo) :
    mi ∈ mis ↔ ∃ w ∈ windowList, getMatchInfo bmStore urlIdMap w = some mi := by
  induction windowList generalizing mis with
  | nil =>
    simp only [allMatchInfo, Option.some.injEq] at h
    subst h
    simp
  | cons w rest ih =>
    simp only [allMatchInfo] at h
    cases hg : getMatchInfo bmStore urlIdMap w with
    | none => simp [hg] at h
    | some mi0 =>
      cases hr : allMatchInfo bmStore urlIdMap rest with
      | none => simp [hg, hr] at h
      | some mis0 =>
        simp only [hg, hr, Option.some.injEq] at h
        subst h
        simp only [List.mem_cons, ih mis0 hr, exists_eq_or_imp, hg, Option.some.injEq]
        constructor
        · rintro (h1 | h1)
          · exact Or.inl h1.symm
          · exact Or.inr h1
        · rintro (h1 | h1)
          · exact Or.inl h1.symm
          · exact Or.inr h1

theorem getMatchInfo_windowId (bmStore : TabManagerState) (urlIdMap : IMap Url (List BookmarkId))
    (w : ChromeWindow) (mi : MatchInfo) (h : getMatchInfo bmStore urlIdMap w = some mi) :
    mi.windowId = w.id := by
  unfold getMatchInfo at h
  simp only [] at h
  cases ht : threshFilter bmStore (matchMap urlIdMap w) with
  | none => simp [ht] at h
  | some tm =>
    simp only [ht, Option.some.injEq] at h
    rw [← h]

theorem allMatchInfo_windowIds (bmStore : TabManagerState) (urlIdMap : IMap Url (List BookmarkId))
    (windowList : List ChromeWindow) (mis : List MatchInfo)
    (h : allMatchInfo bmStore urlIdMap windowList = some mis) :
    mis.map (fun mi => mi.windowId) = windowList.map (fun w => w.id) := by
  induction windowList generalizing mis with
  | nil =>
    simp only [allMatchInfo, Option.some.injEq] at h
    subst h
    rfl
  | cons w rest ih =>
    simp only [allMatchInfo] at h
    cases hg : getMatchInfo bmStore urlIdMap w with
    | none => simp [hg] at h
    | some mi0 =>
      cases hr : allMatchInfo bmStore urlIdMap rest with
      | none => simp [hg, hr] at h
      | some mis0 =>
        simp only [hg, hr, Option.some.injEq] at h
        subst h
        simp [ih mis0 hr, getMatchInfo_windowId bmStore urlIdMap w mi0 hg]

/-- The entries of the thresholded match map are the candidates of the window. -/
theorem mem_threshMap_iff (bmStore : TabManagerState) (hst : storeKeysDistinct bmStore)
    (w : ChromeWindow) (tm : IMap BookmarkId Nat)
    (htm : threshFilter bmStore (matchMap (getUrlBookmarkIdMap bmStore) w) = some tm)
    (b : BookmarkId) (c : Nat) :
    (b, c) ∈ tm ↔ isCandidate bmStore w b c := by
  rw [mem_threshFilter bmStore _ tm htm]
  constructor
  · rintro ⟨hmem, habove⟩
    simp only [aboveMatchThreshold] at habove
    cases hb : mapGet bmStore.bookmarkIdMap b with
    | none => simp [hb] at habove
    | some tw =>
      simp only [hb, Option.some.injEq] at habove
      have hget := mapGet_of_mem (matchMap_nodup _ w) hmem
      have hcount := matchMap_store_getD bmStore hst w b tw hb
      rw [hget] at hcount
      simp only [Option.getD_some] at hcount
      have hpos := matchMap_pos _ w (b, c) hmem
      exact ⟨tw, hb, hcount.symm, hpos, habove⟩
  · rintro ⟨tw, hb, hcount, hpos, hratio⟩
    have hget := matchMap_store_getD bmStore hst w b tw hb
    rw [hcount] at hget
    have hkey : b ∈ mapKeys (matchMap (getUrlBookmarkIdMap bmStore) w) := by
      rw [mem_mapKeys_iff_pos _ b (matchMap_pos _ w), hget]
      exact hpos
    obtain ⟨v, hv⟩ := (mem_mapKeys_iff_mapGet _ _).mp hkey
    rw [hv] at hget
    simp only [Option.getD_some] at hget
    subst hget
    refine ⟨mem_of_mapGet hv, ?_⟩
    simp only [aboveMatchThreshold, hb, hratio]

end CandidateLemmas

section PairingLemmas

theorem mem_bestBMMatchesOf (mis : List MatchInfo) (b : BookmarkId) (wid : WindowId) :
    (b, wid) ∈ bestBMMatchesOf mis ↔
      ∃ g, (b, g) ∈ bmMatches mis ∧ wid ≠ 0 ∧
        bestMatch (mapFromEntries (g.map (fun mi =>
          (mi.windowId, (mapGet mi.matches_ (mi.bestMatch.getD "")).getD 0)))) = some wid := by
  unfold bestBMMatchesOf bmMatchMaps
  simp only [List.mem_filterMap, List.mem_map]
  constructor
  · rintro ⟨e, ⟨e0, he0, rfl⟩, hsome⟩
    simp only at hsome
    cases hb : bestMatch (mapFromEntries (e0.2.map (fun mi =>
        (mi.windowId, (mapGet mi.matches_ (mi.bestMatch.getD "")).getD 0)))) with
    | none => simp [hb] at hsome
    | some w0 =>
      simp only [hb] at hsome
      by_cases hw : truthyInt (some w0) = true
      · simp only [hw, if_true, Option.some.injEq, Prod.mk.injEq] at hsome
        obtain ⟨h1, h2⟩ := hsome
        subst h1 h2
        refine ⟨e0.2, he0, ?_, hb⟩
        simpa [truthyInt] using hw
      · simp [hw] at hsome
  · rintro ⟨g, hg, hne, hb⟩
    refine ⟨(b, _), ⟨(b, g), hg, rfl⟩, ?_⟩
    simp only [hb]
    have : truthyInt (some wid) = true := by simpa [truthyInt] using hne
    simp [this]

theorem nodup_mapKeys_bestBMMatchesOf (mis : List MatchInfo) :
    (mapKeys (bestBMMatchesOf mis)).Nodup := by
  have hsub : ∀ (l : IMap BookmarkId (IMap WindowId Nat)),
      List.Sublist (mapKeys (l.filterMap (fun e =>
        match bestMatch e.2 with
        | some wid => if truthyInt (some wid) then some (e.1, wid) else none
        | none => none))) (mapKeys l) := by
    intro l
    induction l with
    | nil => simp [mapKeys]
    | cons e rest ih =>
      simp only [List.filterMap_cons]
      cases hb : bestMatch e.2 with
      | none =>
        simp only [mapKeys, List.map_cons]
        exact List.Sublist.cons _ ih
      | some w0 =>
        by_cases hw : truthyInt (some w0) = true
        · simp only [hw, if_true, mapKeys, List.map_cons]
          exact List.Sublist.cons₂ _ ih
        · simp only [hw, if_false, mapKeys, List.map_cons]
          exact List.Sublist.cons _ ih
  have hkeys : mapKeys (bmMatchMaps mis) = mapKeys (bmMatches mis) := by
    unfold bmMatchMaps mapKeys
    simp [List.map_map, Function.comp_def]
  have hnd : (mapKeys (bmMatchMaps mis)).Nodup := by
    rw [hkeys]
    exact nodup_mapKeys_groupBy _ mis
  exact List.Nodup.sublist (hsub (bmMatchMaps mis)) hnd

theorem mem_bmMatches_iff (mis : List MatchInfo) (b : BookmarkId) (g : List MatchInfo) :
    (b, g) ∈ bmMatches mis ↔
      g = mis.filter (fun mi => decide (mi.bestMatch.getD "" = b)) ∧ g ≠ [] := by
  unfold bmMatches
  constructor
  · intro h
    obtain ⟨h1, a, ha, hfa⟩ := mem_groupBy _ mis b g h
    refine ⟨h1, ?_⟩
    rw [h1]
    intro hnil
    have : a ∈ mis.filter (fun mi => decide (mi.bestMatch.getD "" = b)) := by
      rw [List.mem_filter]
      exact ⟨ha, by simpa using hfa⟩
    rw [hnil] at this
    simp at this
  · rintro ⟨h1, h2⟩
    rw [h1] at h2
    obtain ⟨a, ha⟩ := List.exists_mem_of_ne_nil _ h2
    rw [List.mem_filter] at ha
    have hfa : a.bestMatch.getD "" = b := by simpa using ha.2
    have := groupBy_mem (fun mi : MatchInfo => mi.bestMatch.getD "") mis a ha.1
    beta_reduce at this
    rw [hfa] at this
    rw [h1]
    exact this

theorem truthyStr_and_key (o : Option String) (b : BookmarkId) (hb : b ≠ "") :
    (truthyStr o = true ∧ o.getD "" = b) ↔ o = some b := by
  cases o with
  | none =>
    simp only [truthyStr, Bool.false_eq_true, false_and, false_iff]
    intro h; cases h
  | some s =>
    simp only [truthyStr, Option.getD_some, Option.some.injEq]
    constructor
    · rintro ⟨_, h⟩; exact h
    · intro h
      subst h
      exact ⟨by simpa using hb, rfl⟩

/-- The entries of `bmMatchMaps` under a non-empty bookmark id, read off the window list. -/
theorem entries_eq_pickerEntries (bmStore : TabManagerState) (windowList : List ChromeWindow)
    (mis : List MatchInfo)
    (h : allMatchInfo bmStore (getUrlBookmarkIdMap bmStore) windowList = some mis)
    (b : BookmarkId) (hb : b ≠ "") :
    (((mis.filter (fun mi => truthyStr mi.bestMatch)).filter
        (fun mi => decide (mi.bestMatch.getD "" = b))).map (fun mi =>
          (mi.windowId, (mapGet mi.matches_ (mi.bestMatch.getD "")).getD 0)))
    = pickerEntries bmStore windowList b := by
  induction windowList generalizing mis with
  | nil =>
    simp only [allMatchInfo, Option.some.injEq] at h
    subst h
    simp [pickerEntries]
  | cons w rest ih =>
    obtain ⟨tm, htm, hmi⟩ := getMatchInfo_some bmStore w
    simp only [allMatchInfo, hmi] at h
    cases hr : allMatchInfo bmStore (getUrlBookmarkIdMap bmStore) rest with
    | none => simp [hr] at h
    | some mis0 =>
      simp only [hr, Option.some.injEq] at h
      subst h
      have ih' := ih mis0 hr
      have hbo : bestMatchOf bmStore w = bestMatch tm := by
        simp [bestMatchOf, hmi]
      unfold pickerEntries at ih' ⊢
      simp only [matchCountOf] at ih' ⊢
      by_cases hpick : bestMatch tm = some b
      · have ht : truthyStr (some b) = true := by
          simpa [truthyStr] using hb
        simp only [List.filter_cons, ht, if_true, hpick, Option.getD_some, decide_True,
          List.map_cons, hbo, ih']
      · have hnot : ¬ (truthyStr (bestMatch tm) = true ∧ (bestMatch tm).getD "" = b) := by
          rw [truthyStr_and_key _ b hb]; exact hpick
        by_cases ht : truthyStr (bestMatch tm) = true
        · have hk : ¬ (bestMatch tm).getD "" = b := fun hk => hnot ⟨ht, hk⟩
          simp only [List.filter_cons, ht, if_true, hk, decide_False, Bool.false_eq_true,
            if_false, hbo, hpick, ih']
        · simp only [List.filter_cons, ht, if_false, hbo, hpick, decide_False,
            Bool.false_eq_true, ih']

/-- The pairs attached by `reattachWindows`: a saved window with a non-empty id is paired with
the non-zero best match among the live windows that picked it. -/
theorem attaches_iff (bmStore : TabManagerState) (windowList : List ChromeWindow)
    (b : BookmarkId) (wid : WindowId) :
    attaches bmStore windowList b wid ↔
      b ≠ "" ∧ wid ≠ 0 ∧
        bestMatch (mapFromEntries (pickerEntries bmStore windowList b)) = some wid := by
  obtain ⟨all, hall⟩ := allMatchInfo_some bmStore windowList
  unfold attaches bestBMMatches windowMatchInfo
  simp only [hall, Option.map_some', Option.some.injEq, exists_eq_left']
  rw [mem_bestBMMatchesOf]
  constructor
  · rintro ⟨g, hg, hwid, hbest⟩
    obtain ⟨hgeq, hgne⟩ := (mem_bmMatches_iff _ b g).mp hg
    have hbne : b ≠ "" := by
      rw [hgeq] at hgne
      obtain ⟨a, ha⟩ := List.exists_mem_of_ne_nil _ hgne
      simp only [List.mem_filter, decide_eq_true_eq] at ha
      obtain ⟨⟨_, ht⟩, hk⟩ := ha
      intro hbe
      cases hbm : a.bestMatch with
      | none => simp [hbm, truthyStr] at ht
      | some s =>
        rw [hbm] at ht hk
        simp only [Option.getD_some] at hk
        simp only [truthyStr, decide_eq_true_eq] at ht
        exact ht (hk.trans hbe)
    refine ⟨hbne, hwid, ?_⟩
    rw [← entries_eq_pickerEntries bmStore windowList all hall b hbne, ← hgeq]
    exact hbest
  · rintro ⟨hbne, hwid, hbest⟩
    rw [← entries_eq_pickerEntries bmStore windowList all hall b hbne] at hbest
    refine ⟨_, (mem_bmMatches_iff _ b _).mpr ⟨rfl, ?_⟩, hwid, hbest⟩
    intro hnil
    rw [hnil] at hbest
    simp [mapFromEntries, bestMatch] at hbest

end PairingLemmas

section RatioLemmas

/-- The threshold test is the exact comparison of the quotient with `0.4`. -/
theorem ratioAtLeastThreshold_iff (m n : Nat) (hn : 0 < n) :
    ratioAtLeastThreshold m n = true ↔ (0.4 : ℚ) ≤ (m : ℚ) / (n : ℚ) := by
  have hn' : (0 : ℚ) < (n : ℚ) := by exact_mod_cast hn
  have hne : n ≠ 0 := by omega
  unfold ratioAtLeastThreshold MATCH_THRESHOLD_NUM MATCH_THRESHOLD_DEN
  simp only [hne, if_false, decide_eq_true_eq]
  rw [le_div_iff₀ hn']
  constructor
  · intro h
    have h' : (2 : ℚ) * (n : ℚ) ≤ 5 * (m : ℚ) := by exact_mod_cast h
    norm_num
    linarith
  · intro h
    have h' : (2 : ℚ) * (n : ℚ) ≤ 5 * (m : ℚ) := by
      norm_num at h
      linarith
    exact_mod_cast h'

theorem isCandidate_ratio {bmStore : TabManagerState} {w : ChromeWindow} {b : BookmarkId}
    {c : Nat} (h : isCandidate bmStore w b c) :
    ∃ tw, mapGet bmStore.bookmarkIdMap b = some tw ∧ urlMatchCount w tw = c ∧
      0 < tw.tabItems.length ∧
      (0.4 : ℚ) ≤ (urlMatchCount w tw : ℚ) / (tw.tabItems.length : ℚ) := by
  obtain ⟨tw, hb, hc, hpos, hr⟩ := h
  have hlen : 0 < tw.tabItems.length := by
    by_contra hlen
    have h0 : tw.tabItems = [] := by
      cases hti : tw.tabItems with
      | nil => rfl
      | cons a l => simp [hti] at hlen
    have : urlMatchCount w tw = 0 := by
      simp [urlMatchCount, h0]
    omega
  refine ⟨tw, hb, hc, hlen, ?_⟩
  rw [hc]
  exact (ratioAtLeastThreshold_iff c _ hlen).mp hr

end RatioLemmas

section PickLemmas

theorem mem_pickerEntries (bmStore : TabManagerState) (windowList : List ChromeWindow)
    (b : BookmarkId) (e : WindowId × Nat) :
    e ∈ pickerEntries bmStore windowList b ↔
      ∃ w ∈ windowList, bestMatchOf bmStore w = some b ∧ e = (w.id, matchCountOf bmStore w b) := by
  unfold pickerEntries
  simp only [List.mem_map, List.mem_filter, decide_eq_true_eq]
  constructor
  · rintro ⟨w, ⟨hw, hp⟩, rfl⟩
    exact ⟨w, hw, hp, rfl⟩
  · rintro ⟨w, hw, hp, rfl⟩
    exact ⟨w, ⟨hw, hp⟩, rfl⟩

theorem nodup_pickerEntries (bmStore : TabManagerState) (windowList : List ChromeWindow)
    (b : BookmarkId) (hws : windowIdsDistinct windowList) :
    ((pickerEntries bmStore windowList b).map Prod.fst).Nodup := by
  unfold pickerEntries
  rw [List.map_map]
  have hsub : List.Sublist
      ((windowList.filter (fun w => decide (bestMatchOf bmStore w = some b))).map (fun w => w.id))
      (windowList.map (fun w => w.id)) :=
    List.Sublist.map _ (List.filter_sublist _)
  exact List.Nodup.sublist hsub hws

theorem mapFromEntries_pickerEntries (bmStore : TabManagerState)
    (windowList : List ChromeWindow) (b : BookmarkId) (hws : windowIdsDistinct windowList) :
    mapFromEntries (pickerEntries bmStore windowList b) = pickerEntries bmStore windowList b :=
  mapFromEntries_of_nodup _ (nodup_pickerEntries bmStore windowList b hws)

theorem eq_of_mem_of_id_eq {windowList : List ChromeWindow} (hws : windowIdsDistinct windowList)
    {w1 w2 : ChromeWindow} (h1 : w1 ∈ windowList) (h2 : w2 ∈ windowList) (hid : w1.id = w2.id) :
    w1 = w2 :=
  List.inj_on_of_nodup_map hws h1 h2 hid

theorem matchCountOf_eq (bmStore : TabManagerState) (hst : storeKeysDistinct bmStore)
    (w : ChromeWindow) (b : BookmarkId) (tw : TabWindow)
    (hb : mapGet bmStore.bookmarkIdMap b = some tw) :
    matchCountOf bmStore w b = urlMatchCount w tw :=
  matchMap_store_getD bmStore hst w b tw hb

/-- The best match of a live window is its candidate with the strictly highest count. -/
theorem bestMatchOf_iff (bmStore : TabManagerState) (hst : storeKeysDistinct bmStore)
    (w : ChromeWindow) (b : BookmarkId) :
    bestMatchOf bmStore w = some b ↔
      ∃ c, isCandidate bmStore w b c ∧
        ∀ b' c', isCandidate bmStore w b' c' → b' ≠ b → c' < c := by
  obtain ⟨tm, htm, hmi⟩ := getMatchInfo_some bmStore w
  have hbo : bestMatchOf bmStore w = bestMatch tm := by simp [bestMatchOf, hmi]
  have hnd : (mapKeys tm).Nodup := threshFilter_nodup bmStore _ tm htm (matchMap_nodup _ w)
  rw [hbo]
  constructor
  · intro h
    obtain ⟨c, hmem, hmax, huniq⟩ := bestMatch_some h
    refine ⟨c, (mem_threshMap_iff bmStore hst w tm htm b c).mp hmem, ?_⟩
    intro b' c' hcand hne
    have hmem' := (mem_threshMap_iff bmStore hst w tm htm b' c').mpr hcand
    have hle := hmax (b', c') hmem'
    simp only at hle
    by_contra hlt
    have hge : c ≤ c' := by omega
    have := huniq (b', c') hmem' hge
    exact hne (congrArg Prod.fst this)
  · rintro ⟨c, hcand, hlt⟩
    have hmem := (mem_threshMap_iff bmStore hst w tm htm b c).mpr hcand
    apply bestMatch_of_unique_max hnd hmem
    intro e he hne
    obtain ⟨b', c'⟩ := e
    have hcand' := (mem_threshMap_iff bmStore hst w tm htm b' c').mp he
    by_cases hb' : b' = b
    · subst hb'
      have h1 := mapGet_of_mem hnd he
      have h2 := mapGet_of_mem hnd hmem
      rw [h1] at h2
      simp only [Option.some.injEq] at h2
      subst h2
      exact absurd rfl hne
    · exact hlt b' c' hcand' hb'

end PickLemmas

section SoundLemmas

/-- The pairs attached by `reattachWindows` come from a candidate: a live window in the
list with the paired id, and the saved window stored under the paired bookmark id, with a
match ratio of at least `0.4`. -/
theorem attaches_sound (bmStore : TabManagerState) (windowList : List ChromeWindow)
    (hst : storeKeysDistinct bmStore) (b : BookmarkId) (wid : WindowId)
    (h : attaches bmStore windowList b wid) :
    ∃ w ∈ windowList, ∃ tw, w.id = wid ∧ mapGet bmStore.bookmarkIdMap b = some tw ∧
      0 < tw.tabItems.length ∧
      (0.4 : ℚ) ≤ (urlMatchCount w tw : ℚ) / (tw.tabItems.length : ℚ) := by
  obtain ⟨_, _, hbest⟩ := (attaches_iff bmStore windowList b wid).mp h
  obtain ⟨c, hmem, _, _⟩ := bestMatch_some hbest
  obtain ⟨w, hw, hpick, he⟩ :=
    (mem_pickerEntries bmStore windowList b (wid, c)).mp (mem_mapFromEntries hmem)
  obtain ⟨c', hcand, _⟩ := (bestMatchOf_iff bmStore hst w b).mp hpick
  obtain ⟨tw, hb, _, hlen, hratio⟩ := isCandidate_ratio hcand
  exact ⟨w, hw, tw, (congrArg Prod.fst he).symm, hb, hlen, hratio⟩

end SoundLemmas

section CompleteLemmas

/-- The pair of a saved window and a live window is attached when the saved window is the
strictly best candidate of the live window and the live window has strictly the highest
count among the live windows that picked the saved window. -/
theorem attaches_of_unique_best (bmStore : TabManagerState) (windowList : List ChromeWindow)
    (hst : storeKeysDistinct bmStore) (hws : windowIdsDistinct windowList)
    (b : BookmarkId) (tw : TabWindow) (w : ChromeWindow)
    (hb : mapGet bmStore.bookmarkIdMap b = some tw) (hw : w ∈ windowList)
    (hbne : b ≠ "") (hwne : w.id ≠ 0)
    (hpos : 0 < urlMatchCount w tw)
    (hratio : ratioAtLeastThreshold (urlMatchCount w tw) tw.tabItems.length = true)
    (hsaved : ∀ b' tw', b' ≠ b → mapGet bmStore.bookmarkIdMap b' = some tw' →
      urlMatchCount w tw' < urlMatchCount w tw)
    (hlive : ∀ w' ∈ windowList, w' ≠ w → bestMatchOf bmStore w' = some b →
      urlMatchCount w' tw < urlMatchCount w tw) :
    attaches bmStore windowList b w.id := by
  have hcand : isCandidate bmStore w b (urlMatchCount w tw) := ⟨tw, hb, rfl, hpos, hratio⟩
  have hpick : bestMatchOf bmStore w = some b := by
    rw [bestMatchOf_iff bmStore hst w b]
    refine ⟨_, hcand, ?_⟩
    rintro b' c' ⟨tw', hb', hc', _, _⟩ hne
    rw [← hc']
    exact hsaved b' tw' hne hb'
  rw [attaches_iff]
  refine ⟨hbne, hwne, ?_⟩
  rw [mapFromEntries_pickerEntries bmStore windowList b hws]
  apply bestMatch_of_unique_max (nodup_pickerEntries bmStore windowList b hws)
    (c := urlMatchCount w tw)
  · exact (mem_pickerEntries bmStore windowList b _).mpr
      ⟨w, hw, hpick, by rw [matchCountOf_eq bmStore hst w b tw hb]⟩
  · intro e he hne
    obtain ⟨w', hw', hp', rfl⟩ := (mem_pickerEntries bmStore windowList b e).mp he
    have hww : w' ≠ w := by
      intro h
      apply hne
      rw [h, matchCountOf_eq bmStore hst w b tw hb]
    simp only [matchCountOf_eq bmStore hst w' b tw hb]
    exact hlive w' hw' hww hp'

end CompleteLemmas

section WinMapLemmas

/-- With distinct window ids, `chromeWinMap` maps the id of a live window to that window. -/
theorem chromeWinMap_get (windowList : List ChromeWindow) (hws : windowIdsDistinct windowList)
    (w : ChromeWindow) (hw : w ∈ windowList) :
    mapGet (chromeWinMap windowList) w.id = some w := by
  have hkeys : ((windowList.map (fun w => (w.id, w))).map Prod.fst).Nodup := by
    simpa [List.map_map, Function.comp_def] using hws
  unfold chromeWinMap
  rw [mapFromEntries_of_nodup _ hkeys]
  exact mapGet_of_mem hkeys (List.mem_map.mpr ⟨w, hw, rfl⟩)

end WinMapLemmas

section SessionLemmas

theorem mapSet_mapSet_same {κ ν : Type} [DecidableEq κ] (m : IMap κ ν) (k : κ) (v1 v2 : ν) :
    mapSet (mapSet m k v1) k v2 = mapSet m k v2 := by
  induction m with
  | nil => simp [mapSet]
  | cons e rest ih =>
    obtain ⟨k0, v0⟩ := e
    by_cases h0 : k0 = k
    · simp [mapSet, h0]
    · simp [mapSet, h0, ih]

theorem mapSet_append_cons {κ ν : Type} [DecidableEq κ] (done rest : IMap κ ν) (k : κ)
    (v0 v : ν) (h : k ∉ mapKeys done) :
    mapSet (done ++ (k, v0) :: rest) k v = done ++ (k, v) :: rest := by
  induction done with
  | nil => simp [mapSet]
  | cons e tl ih =>
    obtain ⟨k1, v1⟩ := e
    have h' : ¬ k = k1 ∧ k ∉ mapKeys tl := by simpa [mapKeys] using h
    have h1 : ¬ k1 = k := fun hh => h'.1 hh.symm
    simp [mapSet, h1, ih h'.2]

theorem registerTabWindow_twice (st : TabManagerState) (w1 w2 : TabWindow)
    (h : w1.savedFolderId = w2.savedFolderId) :
    registerTabWindow (registerTabWindow st w1) w2 = registerTabWindow st w2 := by
  unfold registerTabWindow
  cases h2 : w2.savedFolderId with
  | none => simp [h, h2]
  | some k => simp [h, h2, mapSet_mapSet_same]

theorem getLast?_cons_of_ne_nil {α : Type} (a : α) (l : List α) (h : l ≠ []) :
    (a :: l).getLast? = l.getLast? := by
  cases l with
  | nil => exact absurd rfl h
  | cons b tl => simp [List.getLast?_cons_cons]

/-- The inner loop of `attachSessions` registers the window tagged with its last matching
session, or leaves the store as it is. -/
theorem attachSessions_inner (tabWindow : TabWindow) (sessions : List WinSession)
    (acc : TabManagerState × Int) :
    (sessions.foldl (attachSessionStep tabWindow) acc).1 =
      match lastMatchingSession tabWindow sessions with
      | some s => registerTabWindow acc.1 { tabWindow with chromeSessionId := s.window.sessionId }
      | none => acc.1 := by
  induction sessions generalizing acc with
  | nil => simp [lastMatchingSession]
  | cons s rest ih =>
    rw [List.foldl_cons, ih]
    unfold lastMatchingSession
    by_cases hm : matchSnapshot tabWindow s = true
    · simp only [List.filter_cons, hm, if_true]
      by_cases hnil : rest.filter (fun s => matchSnapshot tabWindow s) = []
      · simp only [hnil, List.getLast?_nil, List.getLast?_singleton]
        simp [attachSessionStep, hm]
      · rw [getLast?_cons_of_ne_nil _ _ hnil]
        cases hl : (rest.filter (fun s => matchSnapshot tabWindow s)).getLast? with
        | none => exact absurd (List.getLast?_eq_none_iff.mp hl) hnil
        | some s' =>
          simp only [attachSessionStep, hm, if_true]
          exact registerTabWindow_twice _ _ _ rfl
    · have hm' : matchSnapshot tabWindow s = false := by simpa using hm
      simp only [List.filter_cons, hm', Bool.false_eq_true, if_false, attachSessionStep]

theorem tagWithSession_savedFolderId (tabWindow : TabWindow) (sessions : List WinSession) :
    (tagWithSession tabWindow sessions).savedFolderId = tabWindow.savedFolderId := by
  unfold tagWithSession
  cases lastMatchingSession tabWindow sessions <;> rfl

/-- The inner loop, for a window stored under its own folder id `k`, leaves the store with
the tagged window under `k` when a session matches, and unchanged otherwise. -/
theorem attachSessions_inner_map (tabWindow : TabWindow) (k : BookmarkId)
    (hk : tabWindow.savedFolderId = some k) (sessions : List WinSession)
    (acc : TabManagerState × Int) :
    (sessions.foldl (attachSessionStep tabWindow) acc).1 =
      if (lastMatchingSession tabWindow sessions).isSome then
        { acc.1 with bookmarkIdMap := mapSet acc.1.bookmarkIdMap k (tagWithSession tabWindow sessions) }
      else acc.1 := by
  rw [attachSessions_inner]
  unfold tagWithSession
  cases hl : lastMatchingSession tabWindow sessions with
  | none => simp
  | some s => simp [registerTabWindow, hk]

theorem attachSessions_outer (sessions : List WinSession) (todo : IMap BookmarkId TabWindow)
    (done : IMap BookmarkId TabWindow) (st : TabManagerState) (ts : Int)
    (hnd : (mapKeys (done ++ todo)).Nodup)
    (hid : ∀ e ∈ todo, e.2.savedFolderId = some e.1) :
    ((todo.map Prod.snd).foldl
      (fun acc tabWindow => sessions.foldl (attachSessionStep tabWindow) acc)
      ({ st with bookmarkIdMap := done ++ todo }, ts)).1
    = { st with bookmarkIdMap :=
          done ++ todo.map (fun e => (e.1, tagWithSession e.2 sessions)) } := by
  induction todo generalizing done ts with
  | nil => simp
  | cons e rest ih =>
    obtain ⟨k, tw⟩ := e
    have hk : tw.savedFolderId = some k := hid (k, tw) (by simp)
    have hknot : k ∉ mapKeys done := by
      intro hmem
      have : (mapKeys done ++ k :: mapKeys rest).Nodup := by
        simpa [mapKeys] using hnd
      rw [List.nodup_append] at this
      exact this.2.2 hmem (by simp)
    rw [List.map_cons, List.foldl_cons]
    have hstep := attachSessions_inner_map tw k hk sessions
      ({ st with bookmarkIdMap := done ++ (k, tw) :: rest }, ts)
    have hnd' : ∀ v : TabWindow, (mapKeys ((done ++ [(k, v)]) ++ rest)).Nodup := by
      intro v
      simpa [mapKeys] using hnd
    have hid' : ∀ e ∈ rest, e.2.savedFolderId = some e.1 :=
      fun e he => hid e (List.mem_cons_of_mem _ he)
    by_cases hsome : (lastMatchingSession tw sessions).isSome = true
    · simp only [hsome, if_true, mapSet_append_cons done rest k tw _ hknot] at hstep
      have hacc : sessions.foldl (attachSessionStep tw)
            ({ st with bookmarkIdMap := done ++ (k, tw) :: rest }, ts)
          = ({ st with bookmarkIdMap := (done ++ [(k, tagWithSession tw sessions)]) ++ rest },
              (sessions.foldl (attachSessionStep tw)
                ({ st with bookmarkIdMap := done ++ (k, tw) :: rest }, ts)).2) := by
        apply Prod.ext
        · simpa using hstep
        · rfl
      rw [hacc, ih _ _ (hnd' _) hid']
      simp
    · simp only [hsome, if_false] at hstep
      have htag : tagWithSession tw sessions = tw := by
        unfold tagWithSession
        cases hl : lastMatchingSession tw sessions with
        | none => rfl
        | some s => simp [hl] at hsome
      have hacc : sessions.foldl (attachSessionStep tw)
            ({ st with bookmarkIdMap := done ++ (k, tw) :: rest }, ts)
          = ({ st with bookmarkIdMap := (done ++ [(k, tw)]) ++ rest },
              (sessions.foldl (attachSessionStep tw)
                ({ st with bookmarkIdMap := done ++ (k, tw) :: rest }, ts)).2) := by
        apply Prod.ext
        · simpa using hstep
        · rfl
      rw [hacc, ih _ _ (hnd' _) hid']
      simp [htag]

/-- The store `attachSessions` returns: every saved window tagged with its last matching
session. -/
theorem attachSessions_store (st : TabManagerState) (sessions : List WinSession) (ts : Int)
    (hwf : savedIndexConsistent st) :
    (attachSessions st sessions ts).1 =
      { st with bookmarkIdMap :=
          st.bookmarkIdMap.map (fun e => (e.1, tagWithSession e.2 sessions)) } := by
  unfold attachSessions
  have := attachSessions_outer sessions st.bookmarkIdMap [] st ts
    (by simpa using hwf.1) hwf.2
  simpa using this

end SessionLemmas

section SnapshotLemmas

theorem mapGet_map_values {κ ν μ : Type} [DecidableEq κ] (m : IMap κ ν) (f : κ → ν → μ) (k : κ) :
    mapGet (m.map (fun e => (e.1, f e.1 e.2))) k = (mapGet m k).map (f k) := by
  induction m with
  | nil => simp [mapGet]
  | cons e rest ih =>
    obtain ⟨k0, v0⟩ := e
    by_cases h0 : k0 = k
    · subst h0; simp [mapGet]
    · simp [mapGet, h0, ih]

/-- What the loop over the closed window ids has stored under an id when it ends. -/
theorem savedOpenTabsLoop_get (ops : TabWindowOps) (savedWindowState : Json)
    (ids : List BookmarkId) (acc m : IMap BookmarkId (List TabItem))
    (h : savedOpenTabsLoop ops savedWindowState ids acc = some m) (k : BookmarkId) :
    mapGet m k =
      match (if k ∈ ids then snapEntry ops savedWindowState k else some none) with
      | some (some tiList) => some tiList
      | _ => mapGet acc k := by
  induction ids generalizing acc with
  | nil =>
    simp only [savedOpenTabsLoop, Option.some.injEq] at h
    subst h
    simp
  | cons bmId rest ih =>
    simp only [savedOpenTabsLoop] at h
    cases he : snapEntry ops savedWindowState bmId with
    | none => simp [he] at h
    | some entry =>
      cases entry with
      | none =>
        simp only [he] at h
        rw [ih acc h]
        by_cases hk : k ∈ rest
        · simp [hk]
        · by_cases hkb : k = bmId
          · subst hkb
            simp [hk, he]
          · simp [hk, hkb]
      | some tiList =>
        simp only [he] at h
        rw [ih _ h]
        by_cases hkb : k = bmId
        · subst hkb
          by_cases hk : k ∈ rest
          · simp [hk, he]
          · simp [hk, he, mapGet_mapSet]
        · have hkb' : ¬ bmId = k := fun hh => hkb hh.symm
          have hmem : (k ∈ bmId :: rest) ↔ k ∈ rest := by simp [hkb]
          simp only [mapGet_mapSet, hkb', if_false, hmem]

theorem savedOpenTabsLoop_entry_some (ops : TabWindowOps) (savedWindowState : Json)
    (ids : List BookmarkId) (acc m : IMap BookmarkId (List TabItem))
    (h : savedOpenTabsLoop ops savedWindowState ids acc = some m) :
    ∀ k ∈ ids, snapEntry ops savedWindowState k ≠ none := by
  induction ids generalizing acc with
  | nil => simp
  | cons bmId rest ih =>
    simp only [savedOpenTabsLoop] at h
    cases he : snapEntry ops savedWindowState bmId with
    | none => simp [he] at h
    | some entry =>
      intro k hk
      rcases List.mem_cons.mp hk with hkb | hkr
      · rw [hkb, he]; simp
      · cases entry with
        | none =>
          simp only [he] at h
          exact ih acc h k hkr
        | some tiList =>
          simp only [he] at h
          exact ih _ h k hkr

theorem savedOpenTabsLoop_some (ops : TabWindowOps) (savedWindowState : Json)
    (ids : List BookmarkId) (acc : IMap BookmarkId (List TabItem))
    (h : ∀ k ∈ ids, snapEntry ops savedWindowState k ≠ none) :
    ∃ m, savedOpenTabsLoop ops savedWindowState ids acc = some m := by
  induction ids generalizing acc with
  | nil => exact ⟨acc, rfl⟩
  | cons bmId rest ih =>
    have hrest : ∀ k ∈ rest, snapEntry ops savedWindowState k ≠ none :=
      fun k hk => h k (List.mem_cons_of_mem _ hk)
    cases he : snapEntry ops savedWindowState bmId with
    | none => exact absurd he (h bmId (by simp))
    | some entry =>
      cases entry with
      | none =>
        simp only [savedOpenTabsLoop, he]
        exact ih acc hrest
      | some tiList =>
        simp only [savedOpenTabsLoop, he]
        exact ih _ hrest

/-- The entry of `savedOpenTabsMap` under an id: the entry the loop body computes for it,
provided the id is that of a closed saved window. -/
theorem savedOpenTabsMap_get (ops : TabWindowOps) (bmStore : TabManagerState)
    (savedWindowState : Json) (m : IMap BookmarkId (List TabItem))
    (h : savedOpenTabsMap ops bmStore savedWindowState = some m) (k : BookmarkId)
    (tiList : List TabItem) :
    mapGet m k = some tiList ↔
      k ∈ closedWindowIds bmStore ∧ snapEntry ops savedWindowState k = some (some tiList) := by
  unfold savedOpenTabsMap at h
  rw [savedOpenTabsLoop_get ops savedWindowState _ [] m h k]
  by_cases hk : k ∈ closedWindowIds bmStore
  · simp only [hk, if_true, true_and]
    cases he : snapEntry ops savedWindowState k with
    | none => simp [mapGet]
    | some entry =>
      cases entry with
      | none => simp [mapGet]
      | some tl => simp
  · simp [hk, mapGet]

theorem mem_closedWindowIds (bmStore : TabManagerState) (k : BookmarkId) :
    k ∈ closedWindowIds bmStore ↔ ∃ tw, (k, tw) ∈ bmStore.bookmarkIdMap ∧ tw.isOpen = false := by
  unfold closedWindowIds mapKeys
  simp only [List.mem_map, List.mem_filter, Bool.not_eq_true', Prod.exists]
  constructor
  · rintro ⟨a, tw, ⟨hmem, hopen⟩, rfl⟩
    exact ⟨tw, hmem, hopen⟩
  · rintro ⟨tw, hmem, hopen⟩
    exact ⟨k, tw, ⟨hmem, hopen⟩, rfl⟩

theorem filterOpenJson_eq (items l : List Json) (h : filterOpenJson items = some l) :
    l = openJsonItems items := by
  induction items generalizing l with
  | nil =>
    simp only [filterOpenJson, Option.some.injEq] at h
    subst h
    rfl
  | cons it rest ih =>
    simp only [filterOpenJson] at h
    cases hp : jsProp it "open" with
    | none => simp [hp] at h
    | some isOpen =>
      cases hr : filterOpenJson rest with
      | none => simp [hp, hr] at h
      | some rest' =>
        simp only [hp, hr, Option.some.injEq] at h
        subst h
        have := ih rest' hr
        rw [this]
        simp [openJsonItems, List.filter_cons, hp]

theorem filterOpenJson_some (items : List Json) (h : ∀ it ∈ items, jsProp it "open" ≠ none) :
    ∃ l, filterOpenJson items = some l := by
  induction items with
  | nil => exact ⟨[], rfl⟩
  | cons it rest ih =>
    obtain ⟨l, hl⟩ := ih (fun x hx => h x (List.mem_cons_of_mem _ hx))
    cases hp : jsProp it "open" with
    | none => exact absurd hp (h it (by simp))
    | some isOpen =>
      simp only [filterOpenJson, hp, hl]
      exact ⟨_, rfl⟩

theorem objField_mem (fields : List (String × Json)) (name : String) (v : Json)
    (h : objField fields name = some v) : ∃ k, (k, v) ∈ fields := by
  induction fields with
  | nil => simp [objField] at h
  | cons e rest ih =>
    obtain ⟨k0, v0⟩ := e
    simp only [objField] at h
    cases hr : objField rest name with
    | some v' =>
      simp only [hr, Option.some.injEq] at h
      subst h
      obtain ⟨k, hk⟩ := ih hr
      exact ⟨k, List.mem_cons_of_mem _ hk⟩
    | none =>
      simp only [hr] at h
      by_cases hk : k0 = name
      · simp only [hk, if_true, Option.some.injEq] at h
        subst h
        exact ⟨k0, by simp⟩
      · simp [hk] at h

theorem arrayIndex_tabItems : arrayIndex "tabItems" = none := by decide

/-- Only a JSON object has a `tabItems` property. -/
theorem truthy_of_tabItems (v items : Json) (h : jsProp v "tabItems" = some (some items)) :
    truthyJson (some v) = true := by
  cases v with
  | null => simp [jsProp] at h
  | bool b => simp [jsProp] at h
  | num n => simp [jsProp] at h
  | str s => simp [jsProp, arrayIndex_tabItems] at h
  | arr xs => simp [jsProp, arrayIndex_tabItems] at h
  | obj fields => rfl

theorem snapEntry_of_tabItems (ops : TabWindowOps) (savedWindowState : Json) (k : BookmarkId)
    (entry : Json) (items : List Json)
    (hentry : jsProp savedWindowState k = some (some entry))
    (hitems : jsProp entry "tabItems" = some (some (Json.arr items)))
    (hsome : snapEntry ops savedWindowState k ≠ none) :
    snapEntry ops savedWindowState k =
      some (if (openJsonItems items).length > 0
        then some ((openJsonItems items).map ops.tabItemFromJS) else none) := by
  have htruthy := truthy_of_tabItems entry _ hitems
  unfold snapEntry at hsome ⊢
  simp only [hentry, htruthy, if_true, hitems] at hsome ⊢
  cases hf : filterOpenJson items with
  | none => simp [hf] at hsome
  | some l =>
    have hl := filterOpenJson_eq items l hf
    subst hl
    by_cases hlen : (openJsonItems items).length > 0
    · simp [hlen]
    · simp [hlen]

theorem snapEntry_some_of_wellFormed (ops : TabWindowOps) (savedWindowState : Json)
    (hwf : wellFormedSnapshot savedWindowState) (k : BookmarkId) :
    snapEntry ops savedWindowState k ≠ none := by
  obtain ⟨fields, rfl, hfields⟩ := hwf
  have hjs : jsProp (Json.obj fields) k = some (objField fields k) := rfl
  unfold snapEntry
  rw [hjs]
  cases hv : objField fields k with
  | none => simp
  | some v =>
    obtain ⟨k', hk'⟩ := objField_mem fields k v hv
    rcases hfields (k', v) hk' with hfalsy | ⟨items, hitems, hnonnull⟩
    · simp only at hfalsy
      simp [hfalsy]
    · simp only at hitems
      have htruthy := truthy_of_tabItems v _ hitems
      obtain ⟨l, hl⟩ := filterOpenJson_some items hnonnull
      simp only [htruthy, if_true, hitems, hl]
      by_cases hlen : l.length > 0
      · simp [hlen]
      · simp [hlen]

/-- The snapshot merge completes for a well-formed persisted snapshot. -/
theorem mergeSnapState_some (ops : TabWindowOps) (bmStore : TabManagerState)
    (savedWindowState : Json) (hwf : wellFormedSnapshot savedWindowState) :
    ∃ nextStore, mergeSnapState ops bmStore savedWindowState = some nextStore := by
  obtain ⟨m, hm⟩ := savedOpenTabsLoop_some ops savedWindowState (closedWindowIds bmStore) []
    (fun k _ => snapEntry_some_of_wellFormed ops savedWindowState hwf k)
  unfold mergeSnapState savedOpenTabsMap
  simp only [hm]
  exact ⟨_, rfl⟩

/-- The saved window that the snapshot merge stores under a bookmark id. -/
theorem mergeSnapState_get (ops : TabWindowOps) (bmStore nextStore : TabManagerState)
    (savedWindowState : Json)
    (h : mergeSnapState ops bmStore savedWindowState = some nextStore) :
    ∃ m, savedOpenTabsMap ops bmStore savedWindowState = some m ∧
      nextStore = { bmStore with bookmarkIdMap :=
        bmStore.bookmarkIdMap.map (fun e => (e.1, updTabWindow ops m e.2 e.1)) } := by
  unfold mergeSnapState at h
  cases hm : savedOpenTabsMap ops bmStore savedWindowState with
  | none => simp [hm] at h
  | some m =>
    simp only [hm, Option.some.injEq] at h
    exact ⟨m, rfl, h.symm⟩

end SnapshotLemmas

section IdempotenceLemmas

theorem updTabWindow_isOpen (ops : TabWindowOps) (m : IMap BookmarkId (List TabItem))
    (tw : TabWindow) (k : BookmarkId) : (updTabWindow ops m tw k).isOpen = tw.isOpen := by
  unfold updTabWindow
  cases mapGet m k <;> rfl

theorem closedWindowIds_upd (ops : TabWindowOps) (m : IMap BookmarkId (List TabItem))
    (bmStore : TabManagerState) :
    closedWindowIds
      ({ bmStore with
          bookmarkIdMap := bmStore.bookmarkIdMap.map (fun e => (e.1, updTabWindow ops m e.2 e.1)) } :
        TabManagerState)
    = closedWindowIds bmStore := by
  unfold closedWindowIds mapKeys
  simp only [List.filter_map, List.map_map]
  congr 1
  apply List.filter_congr
  intro e _
  simp [Function.comp_def, updTabWindow_isOpen]

/-- With the spec-modelled `mergeSavedOpenTabs` and `resetSavedItem`: the saved items of a
merge, reset, are the baseline the merge started from. -/
theorem base_of_merge (base snap : List TabItem)
    (hbase : ∀ si ∈ base, si.saved = true ∧ si.openState = none)
    (hsnap : ∀ oi ∈ snap, oi.saved = false) :
    ((mergeSavedOpenTabs base snap).filter (fun ti => ti.saved)).map resetSavedItem = base := by
  unfold mergeSavedOpenTabs
  rw [List.filter_append]
  have h2 : (snap.filter (fun oi => !base.any (fun si => decide (si.url = oi.url)))).filter
      (fun ti => ti.saved) = [] := by
    rw [List.filter_eq_nil_iff]
    intro oi hoi
    have := hsnap oi (List.mem_filter.mp hoi).1
    simp [this]
  rw [h2, List.append_nil, List.filter_eq_self.mpr, List.map_map]
  · have : ∀ si ∈ base, (resetSavedItem ∘ (fun si : TabItem =>
        match snap.find? (fun oi => decide (oi.url = si.url)) with
        | some oi => { si with openState := oi.openState }
        | none => si)) si = id si := by
      intro si hsi
      have hnone := (hbase si hsi).2
      simp only [Function.comp, id]
      cases snap.find? (fun oi => decide (oi.url = si.url)) with
      | none =>
        simp only [resetSavedItem]
        cases si
        simp only at hnone
        simp [hnone]
      | some oi =>
        simp only [resetSavedItem]
        cases si
        simp only at hnone
        simp [hnone]
    rw [List.map_congr_left this, List.map_id]
  · intro ti hti
    obtain ⟨si, hsi, rfl⟩ := List.mem_map.mp hti
    have hsaved := (hbase si hsi).1
    cases snap.find? (fun oi => decide (oi.url = si.url)) with
    | none => exact hsaved
    | some oi => exact hsaved

theorem baseSavedItems_spec (tw : TabWindow) :
    ∀ si ∈ baseSavedItems specOps tw, si.saved = true ∧ si.openState = none := by
  intro si hsi
  unfold baseSavedItems at hsi
  obtain ⟨ti, hti, rfl⟩ := List.mem_map.mp hsi
  have := (List.mem_filter.mp hti).2
  exact ⟨this, rfl⟩

theorem snapEntry_spec_not_saved (savedWindowState : Json) (k : BookmarkId)
    (tiList : List TabItem) (h : snapEntry specOps savedWindowState k = some (some tiList)) :
    ∀ oi ∈ tiList, oi.saved = false := by
  unfold snapEntry at h
  cases hj : jsProp savedWindowState k with
  | none => simp [hj] at h
  | some savedState =>
    cases savedState with
    | none => simp [hj] at h
    | some v =>
      simp only [hj] at h
      by_cases ht : truthyJson (some v) = true
      · simp only [ht, if_true] at h
        split at h
        · rename_i tabItems _
          cases hf : filterOpenJson tabItems with
          | none => simp [hf] at h
          | some l =>
            simp only [hf] at h
            by_cases hlen : l.length > 0
            · simp only [hlen, if_true, Option.some.injEq] at h
              subst h
              intro oi hoi
              obtain ⟨js, _, rfl⟩ := List.mem_map.mp hoi
              rfl
            · simp [hlen] at h
        · simp at h
      · simp [ht] at h

theorem updTabWindow_idem (m : IMap BookmarkId (List TabItem)) (tw : TabWindow) (k : BookmarkId)
    (hm : ∀ tiList, mapGet m k = some tiList → ∀ oi ∈ tiList, oi.saved = false) :
    updTabWindow specOps m (updTabWindow specOps m tw k) k = updTabWindow specOps m tw k := by
  unfold updTabWindow
  cases hmk : mapGet m k with
  | none => simp [hmk]
  | some snap =>
    simp only [hmk]
    have := base_of_merge (baseSavedItems specOps tw) snap (baseSavedItems_spec tw) (hm snap hmk)
    unfold baseSavedItems at this
    simp only [specOps] at this ⊢
    rw [this]

end IdempotenceLemmas

section TimestampLemmas

theorem latestTimestamp_ge (sessions : List WinSession) (t : Int) :
    t ≤ latestTimestamp sessions t := by
  unfold latestTimestamp
  induction sessions generalizing t with
  | nil => simp
  | cons s rest ih =>
    rw [List.foldl_cons]
    by_cases h : s.lastModified > t
    · simp only [h, if_true]
      exact le_trans (le_of_lt h) (ih _)
    · simp only [h, if_false]
      exact ih _

theorem latestTimestamp_ge_mem (sessions : List WinSession) (t : Int) :
    ∀ s ∈ sessions, s.lastModified ≤ latestTimestamp sessions t := by
  induction sessions generalizing t with
  | nil => simp
  | cons s0 rest ih =>
    intro s hs
    have hstep : latestTimestamp (s0 :: rest) t
        = latestTimestamp rest (if s0.lastModified > t then s0.lastModified else t) := rfl
    rw [hstep]
    rcases List.mem_cons.mp hs with h | h
    · subst h
      by_cases hgt : s.lastModified > t
      · simp only [hgt, if_true]
        exact latestTimestamp_ge rest _
      · simp only [hgt, if_false]
        exact le_trans (not_lt.mp hgt) (latestTimestamp_ge rest _)
    · exact ih _ s h

theorem latestTimestamp_of_ge (sessions : List WinSession) (t : Int)
    (h : ∀ s ∈ sessions, s.lastModified ≤ t) : latestTimestamp sessions t = t := by
  induction sessions with
  | nil => rfl
  | cons s0 rest ih =>
    have hstep : latestTimestamp (s0 :: rest) t
        = latestTimestamp rest (if s0.lastModified > t then s0.lastModified else t) := rfl
    have h0 : ¬ s0.lastModified > t := not_lt.mpr (h s0 (by simp))
    rw [hstep]
    simp only [h0, if_false]
    exact ih (fun s hs => h s (List.mem_cons_of_mem _ hs))

theorem latestTimestamp_idem (sessions : List WinSession) (t : Int) :
    latestTimestamp sessions (latestTimestamp sessions t) = latestTimestamp sessions t :=
  latestTimestamp_of_ge sessions _ (latestTimestamp_ge_mem sessions t)

/-- The inner loop of `attachSessions` moves the timestamp to the latest of the sessions,
whatever the saved window. -/
theorem attachSessions_inner_ts (tabWindow : TabWindow) (sessions : List WinSession)
    (acc : TabManagerState × Int) :
    (sessions.foldl (attachSessionStep tabWindow) acc).2 = latestTimestamp sessions acc.2 := by
  unfold latestTimestamp
  induction sessions generalizing acc with
  | nil => rfl
  | cons s rest ih =>
    rw [List.foldl_cons, List.foldl_cons, ih]
    rfl

theorem attachSessions_outer_ts (sessions : List WinSession) (tabWindows : List TabWindow)
    (acc : TabManagerState × Int) :
    (tabWindows.foldl
      (fun acc tabWindow => sessions.foldl (attachSessionStep tabWindow) acc) acc).2
    = if tabWindows = [] then acc.2 else latestTimestamp sessions acc.2 := by
  induction tabWindows generalizing acc with
  | nil => simp
  | cons tw rest ih =>
    rw [List.foldl_cons, ih, attachSessions_inner_ts]
    by_cases hrest : rest = []
    · simp [hrest]
    · simp [hrest, latestTimestamp_idem]

/-- The timestamp `attachSessions` leaves: unchanged for a store without saved windows,
else the latest of the old timestamp and the sessions. -/
theorem attachSessions_ts (st : TabManagerState) (sessions : List WinSession) (ts : Int) :
    (attachSessions st sessions ts).2
    = if st.bookmarkIdMap = [] then ts else latestTimestamp sessions ts := by
  unfold attachSessions
  rw [attachSessions_outer_ts]
  simp

theorem attachSessions_nil (st : TabManagerState) (ts : Int) :
    attachSessions st [] ts = (st, ts) := by
  unfold attachSessions
  generalize st.bookmarkIdMap.map Prod.snd = tws
  generalize (st, ts) = acc
  induction tws generalizing acc with
  | nil => rfl
  | cons tw rest ih => simp [ih]

theorem attachSessions_no_windows (st : TabManagerState) (sessions : List WinSession) (ts : Int)
    (h : st.bookmarkIdMap = []) : attachSessions st sessions ts = (st, ts) := by
  unfold attachSessions
  rw [h]
  rfl

end TimestampLemmas

section LoadLemmas

theorem loadSnapState_no_items (ops : TabWindowOps) (jsonParse : String → Option Json)
    (bmStore : TabManagerState) (sessions : List Session) (ts : Int) :
    loadSnapState ops jsonParse bmStore none sessions ts
    = { delivered := [bmStore], threw := true, lastSessionTimestamp := ts } := rfl

theorem loadSnapState_falsy (ops : TabWindowOps) (jsonParse : String → Option Json)
    (bmStore : TabManagerState) (v : Option String) (sessions : List Session) (ts : Int)
    (hv : truthyStr v = false) :
    loadSnapState ops jsonParse bmStore (some v) sessions ts
    = { delivered := [bmStore], threw := false, lastSessionTimestamp := ts } := by
  simp [loadSnapState, hv]

theorem loadSnapState_unparseable (ops : TabWindowOps) (jsonParse : String → Option Json)
    (bmStore : TabManagerState) (v : Option String) (sessions : List Session) (ts : Int)
    (hv : truthyStr v = true) (hparse : jsonParse (v.getD "") = none) :
    loadSnapState ops jsonParse bmStore (some v) sessions ts
    = { delivered := [], threw := true, lastSessionTimestamp := ts } := by
  simp [loadSnapState, hv, hparse]

theorem loadSnapState_merge_throws (ops : TabWindowOps) (jsonParse : String → Option Json)
    (bmStore : TabManagerState) (v : Option String) (sessions : List Session) (ts : Int)
    (savedWindowState : Json)
    (hv : truthyStr v = true) (hparse : jsonParse (v.getD "") = some savedWindowState)
    (hmerge : mergeSnapState ops bmStore savedWindowState = none) :
    loadSnapState ops jsonParse bmStore (some v) sessions ts
    = { delivered := [], threw := true, lastSessionTimestamp := ts } := by
  simp [loadSnapState, hv, hparse, hmerge]

theorem loadSnapState_merged (ops : TabWindowOps) (jsonParse : String → Option Json)
    (bmStore nextStore : TabManagerState) (v : Option String) (sessions : List Session)
    (ts : Int) (savedWindowState : Json)
    (hv : truthyStr v = true) (hparse : jsonParse (v.getD "") = some savedWindowState)
    (hmerge : mergeSnapState ops bmStore savedWindowState = some nextStore) :
    loadSnapState ops jsonParse bmStore (some v) sessions ts
    = { delivered := [(attachSessions nextStore (windowSessions sessions) ts).1], threw := false,
        lastSessionTimestamp := (attachSessions nextStore (windowSessions sessions) ts).2 } := by
  simp [loadSnapState, hv, hparse, hmerge]

end LoadLemmas

section FirstOccurrenceLemmas

theorem mapKeys_mapSet_of_mem {κ ν : Type} [DecidableEq κ] (m : IMap κ ν) (k : κ) (v : ν)
    (h : k ∈ mapKeys m) : mapKeys (mapSet m k v) = mapKeys m := by
  induction m with
  | nil => simp [mapKeys] at h
  | cons e rest ih =>
    obtain ⟨k0, v0⟩ := e
    by_cases h0 : k0 = k
    · subst h0
      simp [mapSet, mapKeys]
    · have hrest : k ∈ mapKeys rest := by
        have : k = k0 ∨ k ∈ mapKeys rest := by simpa [mapKeys] using h
        rcases this with h1 | h1
        · exact absurd h1.symm h0
        · exact h1
      have := ih hrest
      simp only [mapKeys] at this ⊢
      simp [mapSet, h0, this]

theorem groupStep_mapKeys {α : Type} (f : α → Url) (m : IMap Url (List α)) (a : α) :
    mapKeys (groupStep f m a)
    = if f a ∈ mapKeys m then mapKeys m else mapKeys m ++ [f a] := by
  unfold groupStep
  by_cases h : f a ∈ mapKeys m
  · rw [if_pos h]
    cases hg : mapGet m (f a) <;> exact mapKeys_mapSet_of_mem _ _ _ h
  · rw [if_neg h]
    cases hg : mapGet m (f a) with
    | none => rw [mapSet_of_not_mem _ _ _ h]; simp [mapKeys]
    | some g => exact absurd ((mem_mapKeys_iff_mapGet m (f a)).mpr ⟨g, hg⟩) h

theorem mem_firstOccurrences (l : List Url) (u : Url) : u ∈ firstOccurrences l ↔ u ∈ l := by
  induction l with
  | nil => simp [firstOccurrences]
  | cons a rest ih =>
    simp only [firstOccurrences, List.mem_cons, List.mem_filter, ih, ne_eq, decide_not,
      Bool.not_eq_true', decide_eq_false_iff_not]
    constructor
    · rintro (h | ⟨h, _⟩)
      · exact Or.inl h
      · exact Or.inr h
    · intro h
      by_cases hu : u = a
      · exact Or.inl hu
      · rcases h with h | h
        · exact absurd h hu
        · exact Or.inr ⟨h, hu⟩

theorem nodup_firstOccurrences (l : List Url) : (firstOccurrences l).Nodup := by
  induction l with
  | nil => simp [firstOccurrences]
  | cons a rest ih =>
    simp only [firstOccurrences, List.nodup_cons, List.mem_filter, ne_eq, decide_not,
      Bool.not_eq_true', decide_eq_false_iff_not, not_true_eq_false, and_false,
      not_false_eq_true, true_and]
    exact List.Nodup.filter _ ih

/-- The keys of `groupBy`, in iteration order, are the keys of the elements in the order of
their first occurrence. -/
theorem groupBy_fold_mapKeys {α : Type} (f : α → Url) (l : List α) (m : IMap Url (List α)) :
    mapKeys (l.foldl (groupStep f) m)
    = mapKeys m ++ (firstOccurrences (l.map f)).filter (fun u => decide (u ∉ mapKeys m)) := by
  induction l generalizing m with
  | nil => simp [firstOccurrences]
  | cons a rest ih =>
    rw [List.foldl_cons, ih, groupStep_mapKeys]
    simp only [List.map_cons, firstOccurrences]
    by_cases h : f a ∈ mapKeys m
    · simp only [h, if_true, List.filter_cons, not_true_eq_false, decide_False,
        Bool.false_eq_true, if_false, List.filter_filter]
      congr 1
      apply List.filter_congr
      intro u _
      by_cases hu : u ∈ mapKeys m
      · simp [hu]
      · have hne : u ≠ f a := fun hh => hu (hh ▸ h)
        simp [hu, hne]
    · simp only [h, if_false, List.filter_cons, not_false_eq_true, decide_True, if_true,
        List.filter_filter, List.append_assoc, List.singleton_append]
      congr 2
      apply List.filter_congr
      intro u _
      by_cases hu : u ∈ mapKeys m
      · simp [hu]
      · by_cases hne : u = f a
        · simp [hne]
        · simp [hu, hne]

theorem groupBy_mapKeys {α : Type} (f : α → Url) (l : List α) :
    mapKeys (groupBy f l) = firstOccurrences (l.map f) := by
  unfold groupBy
  rw [groupBy_fold_mapKeys]
  simp [mapKeys]

/-- The groups of `groupBy`, in iteration order. -/
theorem groupBy_eq {α : Type} (f : α → Url) (l : List α) :
    groupBy f l
    = (firstOccurrences (l.map f)).map (fun u => (u, l.filter (fun a => decide (f a = u)))) := by
  rw [← groupBy_mapKeys f l]
  unfold mapKeys
  rw [List.map_map]
  have : ∀ e ∈ groupBy f l,
      ((fun u => (u, l.filter (fun a => decide (f a = u)))) ∘ Prod.fst) e = id e := by
    intro e he
    obtain ⟨k, g⟩ := e
    have := (mem_groupBy f l k g he).1
    simp [this]
  rw [List.map_congr_left this, List.map_id]

theorem firstOccurrences_cons (u : Url) (rest : List Url) :
    firstOccurrences (u :: rest) = u :: (firstOccurrences rest).filter (fun v => decide (v ≠ u)) :=
  rfl

theorem firstOccurrences_filter (l : List Url) (a : Url) :
    (firstOccurrences l).filter (fun v => decide (v ≠ a))
    = firstOccurrences (l.filter (fun v => decide (v ≠ a))) := by
  induction l with
  | nil => rfl
  | cons x rest ih =>
    rw [firstOccurrences_cons, List.filter_cons, List.filter_cons]
    by_cases hx : x = a
    · have hd : decide (x ≠ a) = false := by simp [hx]
      rw [hd]
      simp only [Bool.false_eq_true, if_false]
      rw [hx, List.filter_filter]
      simp only [Bool.and_self]
      rw [← hx] at ih ⊢
      exact ih
    · have hd : decide (x ≠ a) = true := by simp [hx]
      rw [hd]
      simp only [if_true]
      rw [firstOccurrences_cons, ← ih, List.filter_filter, List.filter_filter]
      congr 1
      apply List.filter_congr
      intro v _
      exact Bool.and_comm _ _

/-- A URL that occurred earlier in the list adds nothing to the first occurrences. -/
theorem firstOccurrences_remove_later (us vs : List Url) (u : Url) (h : u ∈ us) :
    firstOccurrences (us ++ u :: vs) = firstOccurrences (us ++ vs) := by
  induction us with
  | nil => simp at h
  | cons a rest ih =>
    rw [List.cons_append, List.cons_append, firstOccurrences_cons, firstOccurrences_cons]
    congr 1
    by_cases hrest : u ∈ rest
    · rw [ih hrest]
    · have hua : u = a := by
        rcases List.mem_cons.mp h with h1 | h1
        · exact h1
        · exact absurd h1 hrest
      rw [firstOccurrences_filter, firstOccurrences_filter, hua]
      congr 1
      simp [List.filter_append, List.filter_cons]

end FirstOccurrenceLemmas

section ReattachLemmas

/-- The store `reattachWindows` passes on, once the pairing is known. -/
theorem reattachWindows_eq
    (attachChromeWindow : TabManagerState → Option TabWindow → Option ChromeWindow → TabManagerState)
    (bmStore : TabManagerState) (windowList : List ChromeWindow)
    (best : IMap BookmarkId WindowId) (h : bestBMMatches bmStore windowList = some best) :
    reattachWindows attachChromeWindow bmStore windowList
      = some (best.foldl (attacher attachChromeWindow (chromeWinMap windowList)) bmStore) := by
  unfold reattachWindows
  rw [h]

/-- The pairing is always computed, and no bookmark id occurs in it twice. -/
theorem bestBMMatches_some_nodup (bmStore : TabManagerState) (windowList : List ChromeWindow) :
    ∃ best, bestBMMatches bmStore windowList = some best ∧ (mapKeys best).Nodup := by
  obtain ⟨all, hall⟩ := allMatchInfo_some bmStore windowList
  refine ⟨bestBMMatchesOf (all.filter (fun mi => truthyStr mi.bestMatch)), ?_,
    nodup_mapKeys_bestBMMatchesOf _⟩
  simp [bestBMMatches, windowMatchInfo, hall]

/-- A pair of the pairing is attached by the reduction of `reattachWindows`. -/
theorem reattachAttaches_of_attaches (bmStore : TabManagerState) (windowList : List ChromeWindow)
    (hws : windowIdsDistinct windowList) (b : BookmarkId) (w : ChromeWindow)
    (hw : w ∈ windowList) (h : attaches bmStore windowList b w.id) :
    reattachAttaches bmStore windowList b w := by
  obtain ⟨best, hbest, hmem⟩ := h
  obtain ⟨pre, post, hsplit⟩ := List.append_of_mem hmem
  subst hsplit
  refine ⟨pre, post, hbest, fun attachChromeWindow => ?_⟩
  rw [reattachWindows_eq attachChromeWindow bmStore windowList _ hbest, List.foldl_append,
    List.foldl_cons]
  have hstep : ∀ st : TabManagerState,
      attacher attachChromeWindow (chromeWinMap windowList) st (b, w.id)
        = attachChromeWindow st (mapGet st.bookmarkIdMap b) (some w) := by
    intro st
    unfold attacher
    simp only [chromeWinMap_get windowList hws w hw]
  rw [hstep]

theorem attaches_of_reattachAttaches (bmStore : TabManagerState) (windowList : List ChromeWindow)
    (b : BookmarkId) (w : ChromeWindow) (h : reattachAttaches bmStore windowList b w) :
    attaches bmStore windowList b w.id := by
  obtain ⟨pre, post, hbest, _⟩ := h
  exact ⟨_, hbest, by simp⟩

theorem eq_nil_or_singleton {α : Type} (l : List α) (a : α) (hall : ∀ x ∈ l, x = a)
    (hnd : l.Nodup) : l = [] ∨ l = [a] := by
  cases l with
  | nil => exact Or.inl rfl
  | cons x rest =>
    right
    have hx : x = a := hall x (by simp)
    cases rest with
    | nil => rw [hx]
    | cons y rest' =>
      exfalso
      have hy : y = a := hall y (by simp)
      rw [List.nodup_cons] at hnd
      exact hnd.1 (by rw [hx, hy]; simp)

/-- With one saved window and one live window the pairing is empty or the one pair. -/
theorem bestBMMatches_single (bmStore : TabManagerState) (b : BookmarkId) (tw : TabWindow)
    (w : ChromeWindow) (hstore : bmStore.bookmarkIdMap = [(b, tw)]) :
    bestBMMatches bmStore [w] = some [] ∨ bestBMMatches bmStore [w] = some [(b, w.id)] := by
  have hst : storeKeysDistinct bmStore := by
    simp [storeKeysDistinct, hstore, mapKeys]
  obtain ⟨best, hbest, hnd⟩ := bestBMMatches_some_nodup bmStore [w]
  have hall : ∀ x ∈ best, x = (b, w.id) := by
    rintro ⟨b', wid⟩ hx
    obtain ⟨w', hw', tw', hid, hb', _, _⟩ :=
      attaches_sound bmStore [w] hst b' wid ⟨best, hbest, hx⟩
    have hww : w' = w := by simpa using hw'
    have hbb : b' = b := by
      have hmem := mem_of_mapGet hb'
      rw [hstore] at hmem
      simp only [List.mem_singleton, Prod.mk.injEq] at hmem
      exact hmem.1
    rw [hbb, ← hid, hww]
  rcases eq_nil_or_singleton best (b, w.id) hall (nodup_of_nodup_mapKeys best hnd) with h | h
  · left; rw [hbest, h]
  · right; rw [hbest, h]

/-- A method that flips `initializing` returns no store unchanged. -/
theorem flipInitializing_ne (st : TabManagerState) (tw : Option TabWindow)
    (cw : Option ChromeWindow) : flipInitializing st tw cw ≠ st := by
  intro h
  have hi := congrArg TabManagerState.initializing h
  unfold flipInitializing at hi
  cases hb : st.initializing <;> rw [hb] at hi <;> simp at hi

end ReattachLemmas

/-! ## The claims about the window matcher -/

/-- C1: every pair (bookmark id `b`, live window id `wid`) that `reattachWindows` attaches
belongs to a live window `w` with that id and a saved window `tw` stored under `b` with
`matchCount(w, b) / tabCount(b) >= 0.4`, the match count being the number of tabs of `w`
whose URL is bookmarked in `tw` and the tab count the number of tab items of `tw`. The test
is inclusive and exact: it holds exactly when the quotient is at least `0.4`, 2 of 5 passes,
and a pair whose quotient is below `0.4` is never attached, whatever the other candidates.
When the window ids are distinct, `w` is the window that the attacher looks up under `wid`. -/
theorem C1_attached_pairs_meet_threshold (bmStore : TabManagerState)
    (windowList : List ChromeWindow) (hst : storeKeysDistinct bmStore) :
    (∀ b wid, attaches bmStore windowList b wid →
      ∃ w ∈ windowList, ∃ tw, w.id = wid ∧ mapGet bmStore.bookmarkIdMap b = some tw ∧
        0 < tw.tabItems.length ∧
        (0.4 : ℚ) ≤ (urlMatchCount w tw : ℚ) / (tw.tabItems.length : ℚ)) ∧
    (∀ m n : Nat, 0 < n →
      (ratioAtLeastThreshold m n = true ↔ (0.4 : ℚ) ≤ (m : ℚ) / (n : ℚ))) ∧
    ratioAtLeastThreshold 2 5 = true ∧
    (windowIdsDistinct windowList → ∀ w ∈ windowList, ∀ b tw,
      mapGet bmStore.bookmarkIdMap b = some tw →
      (urlMatchCount w tw : ℚ) / (tw.tabItems.length : ℚ) < (0.4 : ℚ) →
      ¬ attaches bmStore windowList b w.id) ∧
    (windowIdsDistinct windowList → ∀ b wid, attaches bmStore windowList b wid →
      ∃ w tw, mapGet (chromeWinMap windowList) wid = some w ∧
        mapGet bmStore.bookmarkIdMap b = some tw ∧
        (0.4 : ℚ) ≤ (urlMatchCount w tw : ℚ) / (tw.tabItems.length : ℚ)) := by
  have sound := attaches_sound bmStore windowList hst
  refine ⟨sound, ratioAtLeastThreshold_iff, by decide, ?_, ?_⟩
  · intro hws w hw b tw hb hlow hatt
    obtain ⟨w', hw', tw', hid, hb', _, hratio⟩ := sound b w.id hatt
    have hww : w' = w := eq_of_mem_of_id_eq hws hw' hw hid
    have htw : tw' = tw := by
      rw [hb] at hb'
      exact (Option.some.inj hb').symm
    subst hww htw
    exact absurd hratio (not_le.mpr hlow)
  · intro hws b wid hatt
    obtain ⟨w, hw, tw, hid, hb, _, hratio⟩ := sound b wid hatt
    exact ⟨w, tw, hid ▸ chromeWinMap_get windowList hws w hw, hb, hratio⟩

/-- Witness for C1: saved window "10" with five URLs against a live window with two of
them, the boundary ratio 2/5. -/
theorem C1_attached_pairs_meet_threshold_witness :
    storeKeysDistinct (storeOf [("10", ["A", "B", "C", "D", "E"])]) ∧
    attaches (storeOf [("10", ["A", "B", "C", "D", "E"])]) [liveWindow 1 ["A", "B"]] "10" 1 ∧
    ¬ attaches (storeOf [("10", ["A", "B", "C", "D", "E"])]) [liveWindow 1 ["A"]] "10" 1 ∧
    ∃ w ∈ [liveWindow 1 ["A", "B"]], ∃ tw, w.id = 1 ∧
      mapGet (storeOf [("10", ["A", "B", "C", "D", "E"])]).bookmarkIdMap "10" = some tw ∧
      0 < tw.tabItems.length ∧
      (0.4 : ℚ) ≤ (urlMatchCount w tw : ℚ) / (tw.tabItems.length : ℚ) := by
  have hst : storeKeysDistinct (storeOf [("10", ["A", "B", "C", "D", "E"])]) := by decide
  have hatt : attaches (storeOf [("10", ["A", "B", "C", "D", "E"])])
      [liveWindow 1 ["A", "B"]] "10" 1 := ⟨[("10", 1)], by decide, by decide⟩
  have hnot : ¬ attaches (storeOf [("10", ["A", "B", "C", "D", "E"])])
      [liveWindow 1 ["A"]] "10" 1 := by
    rintro ⟨best, hbest, hmem⟩
    have : bestBMMatches (storeOf [("10", ["A", "B", "C", "D", "E"])]) [liveWindow 1 ["A"]]
        = some [] := by decide
    rw [this] at hbest
    cases hbest
    simp at hmem
  exact ⟨hst, hatt, hnot,
    (C1_attached_pairs_meet_threshold _ [liveWindow 1 ["A", "B"]] hst).1 "10" 1 hatt⟩

/-- C2: a non-unique maximum is declined in both directions, for two or more tied
candidates. If a live window has two distinct above-threshold saved candidates with the same
match count and no candidate with a higher one, it is attached to no saved window; if two
distinct live windows whose best match is saved window `b` have the same match count for `b`
and no live window that picked `b` has a higher one, `b` is attached to no live window. -/
theorem C2_non_unique_maximum_declined (bmStore : TabManagerState)
    (windowList : List ChromeWindow) (hst : storeKeysDistinct bmStore)
    (hws : windowIdsDistinct windowList) :
    (∀ w ∈ windowList, ∀ b1 b2 c, b1 ≠ b2 →
      isCandidate bmStore w b1 c → isCandidate bmStore w b2 c →
      (∀ b' c', isCandidate bmStore w b' c' → c' ≤ c) →
      bestMatchOf bmStore w = none ∧ ∀ b, ¬ attaches bmStore windowList b w.id) ∧
    (∀ b tw, mapGet bmStore.bookmarkIdMap b = some tw →
      ∀ w1 ∈ windowList, ∀ w2 ∈ windowList, w1 ≠ w2 →
      bestMatchOf bmStore w1 = some b → bestMatchOf bmStore w2 = some b →
      urlMatchCount w1 tw = urlMatchCount w2 tw →
      (∀ w ∈ windowList, bestMatchOf bmStore w = some b →
        urlMatchCount w tw ≤ urlMatchCount w1 tw) →
      ∀ wid, ¬ attaches bmStore windowList b wid) := by
  constructor
  · intro w hw b1 b2 c hne h1 h2 hmax
    have hnone : bestMatchOf bmStore w = none := by
      cases hbo : bestMatchOf bmStore w with
      | none => rfl
      | some b =>
        exfalso
        obtain ⟨c0, hcand, hlt⟩ := (bestMatchOf_iff bmStore hst w b).mp hbo
        have hc0 : c0 ≤ c := hmax b c0 hcand
        by_cases hb1 : b1 = b
        · have hb2 : b2 ≠ b := fun h => hne (hb1.trans h.symm)
          have := hlt b2 c h2 hb2
          omega
        · have := hlt b1 c h1 hb1
          omega
    refine ⟨hnone, ?_⟩
    intro b hatt
    obtain ⟨_, _, hbest⟩ := (attaches_iff bmStore windowList b w.id).mp hatt
    obtain ⟨c0, hmem, _, _⟩ := bestMatch_some hbest
    obtain ⟨w', hw', hpick, he⟩ :=
      (mem_pickerEntries bmStore windowList b (w.id, c0)).mp (mem_mapFromEntries hmem)
    have hww : w' = w := eq_of_mem_of_id_eq hws hw' hw (congrArg Prod.fst he).symm
    rw [hww, hnone] at hpick
    cases hpick
  · intro b tw hb w1 hw1 w2 hw2 hne hp1 hp2 heq hmax wid hatt
    obtain ⟨_, _, hbest⟩ := (attaches_iff bmStore windowList b wid).mp hatt
    rw [mapFromEntries_pickerEntries bmStore windowList b hws] at hbest
    have hid : w1.id ≠ w2.id := fun h => hne (eq_of_mem_of_id_eq hws hw1 hw2 h)
    have hm1 : (w1.id, urlMatchCount w1 tw) ∈ pickerEntries bmStore windowList b :=
      (mem_pickerEntries bmStore windowList b _).mpr
        ⟨w1, hw1, hp1, by rw [matchCountOf_eq bmStore hst w1 b tw hb]⟩
    have hm2 : (w2.id, urlMatchCount w1 tw) ∈ pickerEntries bmStore windowList b :=
      (mem_pickerEntries bmStore windowList b _).mpr
        ⟨w2, hw2, hp2, by rw [matchCountOf_eq bmStore hst w2 b tw hb, heq]⟩
    have hle : ∀ e ∈ pickerEntries bmStore windowList b, e.2 ≤ urlMatchCount w1 tw := by
      intro e he
      obtain ⟨w, hw, hp, rfl⟩ := (mem_pickerEntries bmStore windowList b e).mp he
      simp only [matchCountOf_eq bmStore hst w b tw hb]
      exact hmax w hw hp
    rw [bestMatch_of_tie hid hm1 hm2 hle] at hbest
    cases hbest

/-- Witness for C2: live window 1 matches saved windows "10" and "11" two tabs each, and
live windows 2 and 3 both match saved window "12" alone with one tab each. -/
theorem C2_non_unique_maximum_declined_witness :
    bestMatchOf (storeOf [("10", ["A", "B"]), ("11", ["A", "B"]), ("12", ["C"])])
      (liveWindow 1 ["A", "B"]) = none ∧
    (∀ b, ¬ attaches (storeOf [("10", ["A", "B"]), ("11", ["A", "B"]), ("12", ["C"])])
      [liveWindow 1 ["A", "B"], liveWindow 2 ["C"], liveWindow 3 ["C"]] b 1) ∧
    (∀ wid, ¬ attaches (storeOf [("10", ["A", "B"]), ("11", ["A", "B"]), ("12", ["C"])])
      [liveWindow 1 ["A", "B"], liveWindow 2 ["C"], liveWindow 3 ["C"]] "12" wid) := by
  have main := C2_non_unique_maximum_declined
    (storeOf [("10", ["A", "B"]), ("11", ["A", "B"]), ("12", ["C"])])
    [liveWindow 1 ["A", "B"], liveWindow 2 ["C"], liveWindow 3 ["C"]] (by decide) (by decide)
  have h1 := main.1 (liveWindow 1 ["A", "B"]) (by decide) "10" "11" 2 (by decide)
    ⟨savedWindow "10" ["A", "B"], by decide, by decide, by decide, by decide⟩
    ⟨savedWindow "11" ["A", "B"], by decide, by decide, by decide, by decide⟩
    (by
      rintro b' c' ⟨tw, hb, hc, _, _⟩
      rw [← hc]
      have : (urlMatchCount (liveWindow 1 ["A", "B"]) tw) ≤ (liveWindow 1 ["A", "B"]).tabs.length := by
        unfold urlMatchCount
        exact List.length_filter_le _ _
      exact this)
  have h2 := main.2 "12" (savedWindow "12" ["C"]) (by decide)
    (liveWindow 2 ["C"]) (by decide) (liveWindow 3 ["C"]) (by decide) (by decide)
    (by decide) (by decide) (by decide)
    (by
      intro w hw _
      have : (urlMatchCount w (savedWindow "12" ["C"])) ≤ 1 := by
        simp only [List.mem_cons, List.mem_singleton, List.not_mem_nil, or_false] at hw
        rcases hw with rfl | rfl | rfl <;> decide
      exact this)
  exact ⟨h1.1, h1.2, h2⟩

/-- C3: for live windows with pairwise distinct ids, `reattachWindows` computes its pairing
`bestBMMatches` without an exception and the pairing is one-to-one: no bookmark id is paired
with two live window ids and no live window id with two bookmark ids. -/
theorem C3_pairing_one_to_one (bmStore : TabManagerState) (windowList : List ChromeWindow)
    (hws : windowIdsDistinct windowList) :
    ∃ best, bestBMMatches bmStore windowList = some best ∧
      (∀ b w1 w2, (b, w1) ∈ best → (b, w2) ∈ best → w1 = w2) ∧
      (∀ b1 b2 w, (b1, w) ∈ best → (b2, w) ∈ best → b1 = b2) ∧
      (mapKeys best).Nodup ∧ (best.map Prod.snd).Nodup := by
  obtain ⟨all, hall⟩ := allMatchInfo_some bmStore windowList
  have hbest : bestBMMatches bmStore windowList
      = some (bestBMMatchesOf (all.filter (fun mi => truthyStr mi.bestMatch))) := by
    simp [bestBMMatches, windowMatchInfo, hall]
  have hkeys := nodup_mapKeys_bestBMMatchesOf (all.filter (fun mi => truthyStr mi.bestMatch))
  have hfun : ∀ b w1 w2,
      (b, w1) ∈ bestBMMatchesOf (all.filter (fun mi => truthyStr mi.bestMatch)) →
      (b, w2) ∈ bestBMMatchesOf (all.filter (fun mi => truthyStr mi.bestMatch)) → w1 = w2 := by
    intro b w1 w2 h1 h2
    have e1 := mapGet_of_mem hkeys h1
    have e2 := mapGet_of_mem hkeys h2
    rw [e1] at e2
    exact Option.some.inj e2
  have hinj : ∀ b1 b2 w,
      (b1, w) ∈ bestBMMatchesOf (all.filter (fun mi => truthyStr mi.bestMatch)) →
      (b2, w) ∈ bestBMMatchesOf (all.filter (fun mi => truthyStr mi.bestMatch)) → b1 = b2 := by
    intro b1 b2 w h1 h2
    have a1 : attaches bmStore windowList b1 w := ⟨_, hbest, h1⟩
    have a2 : attaches bmStore windowList b2 w := ⟨_, hbest, h2⟩
    obtain ⟨_, _, hb1⟩ := (attaches_iff bmStore windowList b1 w).mp a1
    obtain ⟨_, _, hb2⟩ := (attaches_iff bmStore windowList b2 w).mp a2
    obtain ⟨c1, hm1, _, _⟩ := bestMatch_some hb1
    obtain ⟨c2, hm2, _, _⟩ := bestMatch_some hb2
    obtain ⟨v1, hv1, hp1, he1⟩ :=
      (mem_pickerEntries bmStore windowList b1 (w, c1)).mp (mem_mapFromEntries hm1)
    obtain ⟨v2, hv2, hp2, he2⟩ :=
      (mem_pickerEntries bmStore windowList b2 (w, c2)).mp (mem_mapFromEntries hm2)
    have hid : v1.id = v2.id :=
      (congrArg Prod.fst he1).symm.trans (congrArg Prod.fst he2)
    have hvv : v1 = v2 := eq_of_mem_of_id_eq hws hv1 hv2 hid
    rw [hvv, hp2] at hp1
    exact (Option.some.inj hp1).symm
  refine ⟨_, hbest, hfun, hinj, hkeys, ?_⟩
  apply List.Nodup.map_on _ (nodup_of_nodup_mapKeys _ hkeys)
  intro x hx y hy hxy
  obtain ⟨bx, wx⟩ := x
  obtain ⟨b_y, wy⟩ := y
  simp only at hxy
  subst hxy
  rw [hinj bx b_y wx hx hy]

/-- Witness for C3: three live windows and two saved windows; the pairing is computed and
is one-to-one. -/
theorem C3_pairing_one_to_one_witness :
    windowIdsDistinct [liveWindow 1 ["A", "B", "C"], liveWindow 2 ["A", "B"], liveWindow 3 ["D"]] ∧
    bestBMMatches (storeOf [("10", ["A", "B"]), ("11", ["A", "B", "C"])])
      [liveWindow 1 ["A", "B", "C"], liveWindow 2 ["A", "B"], liveWindow 3 ["D"]]
      = some [("11", 1)] ∧
    ∃ best, bestBMMatches (storeOf [("10", ["A", "B"]), ("11", ["A", "B", "C"])])
        [liveWindow 1 ["A", "B", "C"], liveWindow 2 ["A", "B"], liveWindow 3 ["D"]] = some best ∧
      (∀ b w1 w2, (b, w1) ∈ best → (b, w2) ∈ best → w1 = w2) ∧
      (∀ b1 b2 w, (b1, w) ∈ best → (b2, w) ∈ best → b1 = b2) ∧
      (mapKeys best).Nodup ∧ (best.map Prod.snd).Nodup :=
  ⟨by decide, by decide,
    C3_pairing_one_to_one (storeOf [("10", ["A", "B"]), ("11", ["A", "B", "C"])])
      [liveWindow 1 ["A", "B", "C"], liveWindow 2 ["A", "B"], liveWindow 3 ["D"]] (by decide)⟩

/-- C4, as the code has it: for a saved window `tw` stored under a non-empty bookmark id `b`
and a live window `w` with a non-zero id whose tab URL sets are identical, every tab of `w`
counts as a match, and `reattachWindows` attaches `b` to `w` whenever the number of tabs of
`w` is at least `0.4` times the number of tab items of `tw`, no other saved window has a
match count with `w` greater than or equal to that of `tw`, and no other live window that
picks `b` as its best match has a match count for `b` greater than or equal to that of `w`:
the pair is in the pairing, and the store that `reattachWindows` passes on is built, whatever
the method `attachChromeWindow` does, by applying that method to the saved window under `b`
and to `w`. -/
theorem C4_identical_url_sets_attach (bmStore : TabManagerState)
    (windowList : List ChromeWindow)
    (hst : storeKeysDistinct bmStore) (hws : windowIdsDistinct windowList)
    (b : BookmarkId) (tw : TabWindow) (w : ChromeWindow)
    (hb : mapGet bmStore.bookmarkIdMap b = some tw) (hw : w ∈ windowList)
    (hurls : ∀ u, (∃ ti ∈ tw.tabItems, ti.url = u) ↔ (∃ t ∈ w.tabs, t.url = u))
    (hbne : b ≠ "") (hwne : w.id ≠ 0)
    (hratio : (0.4 : ℚ) ≤ (w.tabs.length : ℚ) / (tw.tabItems.length : ℚ))
    (hsaved : ∀ b' tw', b' ≠ b → mapGet bmStore.bookmarkIdMap b' = some tw' →
      urlMatchCount w tw' < urlMatchCount w tw)
    (hlive : ∀ w' ∈ windowList, w' ≠ w → bestMatchOf bmStore w' = some b →
      urlMatchCount w' tw < urlMatchCount w tw) :
    urlMatchCount w tw = w.tabs.length ∧ attaches bmStore windowList b w.id ∧
    reattachAttaches bmStore windowList b w := by
  have hcount : urlMatchCount w tw = w.tabs.length := by
    unfold urlMatchCount
    congr 1
    rw [List.filter_eq_self]
    intro t ht
    obtain ⟨ti, hti, hu⟩ := (hurls t.url).mpr ⟨t, ht, rfl⟩
    simp only [List.any_eq_true, decide_eq_true_eq]
    exact ⟨ti, hti, hu⟩
  have hlen : 0 < tw.tabItems.length := by
    by_contra h
    have h0 : tw.tabItems.length = 0 := by omega
    rw [h0] at hratio
    norm_num at hratio
  have hr : ratioAtLeastThreshold (urlMatchCount w tw) tw.tabItems.length = true := by
    rw [ratioAtLeastThreshold_iff _ _ hlen, hcount]
    exact hratio
  have hpos : 0 < urlMatchCount w tw := by
    by_contra h
    have h0 : w.tabs.length = 0 := by omega
    rw [h0] at hratio
    norm_num at hratio
  have hatt : attaches bmStore windowList b w.id :=
    attaches_of_unique_best bmStore windowList hst hws b tw w hb hw hbne hwne hpos hr hsaved hlive
  exact ⟨hcount, hatt, reattachAttaches_of_attaches bmStore windowList hws b w hw hatt⟩

/-- Witness for C4: saved window "10" and live window 1 with the URL set {A, B}, next to a
saved window "11" that shares one URL and a live window 2 that shares none. The pairing is
the one pair of "10" and window 1, and the store passed on is the one `attachChromeWindow`
returns for saved window "10" and live window 1. -/
theorem C4_identical_url_sets_attach_witness :
    urlMatchCount (liveWindow 1 ["A", "B"]) (savedWindow "10" ["A", "B"])
      = (liveWindow 1 ["A", "B"]).tabs.length ∧
    attaches (storeOf [("10", ["A", "B"]), ("11", ["A", "C"])])
      [liveWindow 1 ["A", "B"], liveWindow 2 ["D"]] "10" (liveWindow 1 ["A", "B"]).id ∧
    reattachAttaches (storeOf [("10", ["A", "B"]), ("11", ["A", "C"])])
      [liveWindow 1 ["A", "B"], liveWindow 2 ["D"]] "10" (liveWindow 1 ["A", "B"]) :=
  C4_identical_url_sets_attach (storeOf [("10", ["A", "B"]), ("11", ["A", "C"])])
    [liveWindow 1 ["A", "B"], liveWindow 2 ["D"]] (by decide) (by decide)
    "10" (savedWindow "10" ["A", "B"]) (liveWindow 1 ["A", "B"]) (by decide) (by decide)
    (by
      intro u
      simp [savedWindow, liveWindow, savedTabItem])
    (by decide) (by decide)
    (by simp [savedWindow, liveWindow]; norm_num)
    (by
      intro b' tw' hne hb'
      have h11 : b' = "11" ∧ tw' = savedWindow "11" ["A", "C"] := by
        simp only [storeOf, List.map_cons, List.map_nil, mapGet] at hb'
        by_cases h10 : "10" = b'
        · exact absurd h10.symm hne
        · simp only [h10, if_false] at hb'
          by_cases h11 : "11" = b'
          · subst h11
            simp only [if_true, Option.some.injEq] at hb'
            exact ⟨rfl, hb'.symm⟩
          · simp [h11] at hb'
      rw [h11.2]
      decide)
    (by
      intro w' hw' hne _
      simp only [List.mem_cons, List.mem_singleton, List.not_mem_nil, or_false] at hw'
      rcases hw' with rfl | rfl
      · exact absurd rfl hne
      · decide)

/-- Counterexample to C4 as stated: saved window "10" holds three bookmarks of the URL `A`
and live window 1 has one tab with the URL `A`. The URL sets are identical, no other saved
window has a match count with the live window, no other live window picks "10", the
bookmark id is non-empty and the window id non-zero; the match ratio is 1/3 and nothing is
attached: the store passed on is the input store, whatever `attachChromeWindow` does. -/
theorem C4_counterexample :
    (∀ u, (∃ ti ∈ (savedWindow "10" ["A", "A", "A"]).tabItems, ti.url = u) ↔
      (∃ t ∈ (liveWindow 1 ["A"]).tabs, t.url = u)) ∧
    mapGet (storeOf [("10", ["A", "A", "A"])]).bookmarkIdMap "10"
      = some (savedWindow "10" ["A", "A", "A"]) ∧
    (∀ b' tw', b' ≠ "10" → mapGet (storeOf [("10", ["A", "A", "A"])]).bookmarkIdMap b' = some tw' →
      urlMatchCount (liveWindow 1 ["A"]) tw'
        < urlMatchCount (liveWindow 1 ["A"]) (savedWindow "10" ["A", "A", "A"])) ∧
    (∀ w' ∈ [liveWindow 1 ["A"]], w' ≠ liveWindow 1 ["A"] →
      bestMatchOf (storeOf [("10", ["A", "A", "A"])]) w' = some "10" →
      urlMatchCount w' (savedWindow "10" ["A", "A", "A"])
        < urlMatchCount (liveWindow 1 ["A"]) (savedWindow "10" ["A", "A", "A"])) ∧
    ("10" : BookmarkId) ≠ "" ∧ (liveWindow 1 ["A"]).id ≠ 0 ∧
    urlMatchCount (liveWindow 1 ["A"]) (savedWindow "10" ["A", "A", "A"]) = 1 ∧
    (savedWindow "10" ["A", "A", "A"]).tabItems.length = 3 ∧
    bestBMMatches (storeOf [("10", ["A", "A", "A"])]) [liveWindow 1 ["A"]] = some [] ∧
    ¬ attaches (storeOf [("10", ["A", "A", "A"])]) [liveWindow 1 ["A"]] "10"
      (liveWindow 1 ["A"]).id ∧
    reattachAttachesNothing (storeOf [("10", ["A", "A", "A"])]) [liveWindow 1 ["A"]] ∧
    ¬ reattachAttaches (storeOf [("10", ["A", "A", "A"])]) [liveWindow 1 ["A"]] "10"
      (liveWindow 1 ["A"]) := by
  have hbest : bestBMMatches (storeOf [("10", ["A", "A", "A"])]) [liveWindow 1 ["A"]]
      = some [] := by decide
  refine ⟨?_, by decide, ?_, ?_, by decide, by decide, by decide, by decide, hbest, ?_, ?_, ?_⟩
  · intro u
    simp [savedWindow, liveWindow, savedTabItem]
  · intro b' tw' hne hb'
    have hne' : ¬ "10" = b' := fun h => hne h.symm
    simp [storeOf, mapGet, hne'] at hb'
  · intro w' hw' hne _
    exact absurd (by simpa using hw') hne
  · rintro ⟨best, hb, hmem⟩
    rw [hbest] at hb
    cases hb
    simp at hmem
  · intro attachChromeWindow
    rw [reattachWindows_eq attachChromeWindow _ _ _ hbest]
    rfl
  · rintro ⟨pre, post, hb, _⟩
    rw [hbest] at hb
    have hlen := congrArg (fun o => (o.getD []).length) hb
    simp at hlen
    omega

/-- C5: with exactly one saved window `tw`, stored under a non-empty bookmark id `b`, and
exactly one live window `w`, with a non-zero id, `reattachWindows` attaches `b` to `w` if and
only if the number of tabs of `w` whose URL occurs among the saved tabs of `tw`, divided by
the number of tab items of `tw`, is at least `0.4`. When it is, the store that
`reattachWindows` passes on is the one the method `attachChromeWindow` returns for the input
store, `tw` and `w`, whatever that method does; when it is not, the store passed on is the
input store. Saved [A,B,C] against live [A,B,C,D] attaches, saved [A,B] against live [A,X]
attaches, saved [A,B,C,D,E] against live [A] does not. -/
theorem C5_single_saved_single_live (bmStore : TabManagerState) (b : BookmarkId)
    (tw : TabWindow) (w : ChromeWindow) (hstore : bmStore.bookmarkIdMap = [(b, tw)])
    (hbne : b ≠ "") (hwne : w.id ≠ 0) :
    (reattachAttachesOnly bmStore [w] tw w ↔
      (0.4 : ℚ) ≤ (urlMatchCount w tw : ℚ) / (tw.tabItems.length : ℚ)) ∧
    (reattachAttachesNothing bmStore [w] ↔
      ¬ (0.4 : ℚ) ≤ (urlMatchCount w tw : ℚ) / (tw.tabItems.length : ℚ)) ∧
    (reattachAttaches bmStore [w] b w ↔
      (0.4 : ℚ) ≤ (urlMatchCount w tw : ℚ) / (tw.tabItems.length : ℚ)) ∧
    (attaches bmStore [w] b w.id ↔
      (0.4 : ℚ) ≤ (urlMatchCount w tw : ℚ) / (tw.tabItems.length : ℚ)) ∧
    reattachAttachesOnly (storeOf [("10", ["A", "B", "C"])]) [liveWindow 1 ["A", "B", "C", "D"]]
      (savedWindow "10" ["A", "B", "C"]) (liveWindow 1 ["A", "B", "C", "D"]) ∧
    reattachAttachesOnly (storeOf [("10", ["A", "B"])]) [liveWindow 1 ["A", "X"]]
      (savedWindow "10" ["A", "B"]) (liveWindow 1 ["A", "X"]) ∧
    reattachAttachesNothing (storeOf [("10", ["A", "B", "C", "D", "E"])]) [liveWindow 1 ["A"]] := by
  have hst : storeKeysDistinct bmStore := by
    simp [storeKeysDistinct, hstore, mapKeys]
  have hws : windowIdsDistinct [w] := by
    simp [windowIdsDistinct]
  have hb : mapGet bmStore.bookmarkIdMap b = some tw := by
    simp [hstore, mapGet]
  have hiff : attaches bmStore [w] b w.id ↔
      (0.4 : ℚ) ≤ (urlMatchCount w tw : ℚ) / (tw.tabItems.length : ℚ) := by
    constructor
    · intro hatt
      obtain ⟨w', hw', tw', _, hb', _, hratio⟩ := attaches_sound bmStore [w] hst b w.id hatt
      have hww : w' = w := by simpa using hw'
      have htw : tw' = tw := by
        rw [hb] at hb'
        exact (Option.some.inj hb').symm
      rw [hww, htw] at hratio
      exact hratio
    · intro hratio
      have hlen : 0 < tw.tabItems.length := by
        by_contra h
        have h0 : tw.tabItems.length = 0 := by omega
        rw [h0] at hratio
        norm_num at hratio
      have hpos : 0 < urlMatchCount w tw := by
        by_contra h
        have h0 : urlMatchCount w tw = 0 := by omega
        rw [h0] at hratio
        norm_num at hratio
      apply attaches_of_unique_best bmStore [w] hst hws b tw w hb (by simp) hbne hwne hpos
        ((ratioAtLeastThreshold_iff _ _ hlen).mpr hratio)
      · intro b' tw' hne hb'
        have hne' : ¬ b = b' := fun h => hne h.symm
        simp [hstore, mapGet, hne'] at hb'
      · intro w' hw' hne _
        exact absurd (by simpa using hw') hne
  -- the pairing is the one pair when the ratio passes, and empty when it does not
  have hpair : (0.4 : ℚ) ≤ (urlMatchCount w tw : ℚ) / (tw.tabItems.length : ℚ) →
      bestBMMatches bmStore [w] = some [(b, w.id)] := by
    intro hratio
    obtain ⟨best, hbest, hmem⟩ := hiff.mpr hratio
    rcases bestBMMatches_single bmStore b tw w hstore with h | h
    · rw [h] at hbest
      cases hbest
      simp at hmem
    · exact h
  have hnone : ¬ (0.4 : ℚ) ≤ (urlMatchCount w tw : ℚ) / (tw.tabItems.length : ℚ) →
      bestBMMatches bmStore [w] = some [] := by
    intro hratio
    rcases bestBMMatches_single bmStore b tw w hstore with h | h
    · exact h
    · exact absurd (hiff.mp ⟨_, h, by simp⟩) hratio
  have honly : (0.4 : ℚ) ≤ (urlMatchCount w tw : ℚ) / (tw.tabItems.length : ℚ) →
      reattachAttachesOnly bmStore [w] tw w := by
    intro hratio attachChromeWindow
    rw [reattachWindows_eq attachChromeWindow bmStore [w] _ (hpair hratio)]
    simp only [List.foldl_cons, List.foldl_nil, attacher, hb,
      chromeWinMap_get [w] hws w (by simp)]
  have hnothing : ¬ (0.4 : ℚ) ≤ (urlMatchCount w tw : ℚ) / (tw.tabItems.length : ℚ) →
      reattachAttachesNothing bmStore [w] := by
    intro hratio attachChromeWindow
    rw [reattachWindows_eq attachChromeWindow bmStore [w] _ (hnone hratio)]
    rfl
  have hex3 : bestBMMatches (storeOf [("10", ["A", "B", "C", "D", "E"])]) [liveWindow 1 ["A"]]
      = some [] := by decide
  refine ⟨⟨?_, honly⟩, ⟨?_, hnothing⟩, ⟨?_, ?_⟩, hiff, ?_, ?_, ?_⟩
  · intro h
    by_contra hratio
    have h1 := h flipInitializing
    rw [hnothing hratio flipInitializing] at h1
    exact flipInitializing_ne bmStore _ _ (Option.some.inj h1).symm
  · intro h hratio
    have h1 := h flipInitializing
    rw [honly hratio flipInitializing] at h1
    exact flipInitializing_ne bmStore _ _ (Option.some.inj h1)
  · intro h
    exact hiff.mp (attaches_of_reattachAttaches bmStore [w] b w h)
  · intro hratio
    exact reattachAttaches_of_attaches bmStore [w] hws b w (by simp) (hiff.mpr hratio)
  · intro attachChromeWindow
    rw [reattachWindows_eq attachChromeWindow _ _ [("10", 1)] (by decide)]
    rfl
  · intro attachChromeWindow
    rw [reattachWindows_eq attachChromeWindow _ _ [("10", 1)] (by decide)]
    rfl
  · intro attachChromeWindow
    rw [reattachWindows_eq attachChromeWindow _ _ [] hex3]
    rfl

/-- Witness for C5: saved [A,B,C] under "10" against live window 1 with [A,B,C,D]; the ratio
is 3/3 and the store passed on is the one `attachChromeWindow` returns for the two. -/
theorem C5_single_saved_single_live_witness :
    (storeOf [("10", ["A", "B", "C"])]).bookmarkIdMap = [("10", savedWindow "10" ["A", "B", "C"])] ∧
    (reattachAttachesOnly (storeOf [("10", ["A", "B", "C"])]) [liveWindow 1 ["A", "B", "C", "D"]]
        (savedWindow "10" ["A", "B", "C"]) (liveWindow 1 ["A", "B", "C", "D"]) ↔
      (0.4 : ℚ) ≤ (urlMatchCount (liveWindow 1 ["A", "B", "C", "D"])
          (savedWindow "10" ["A", "B", "C"]) : ℚ)
        / ((savedWindow "10" ["A", "B", "C"]).tabItems.length : ℚ)) ∧
    urlMatchCount (liveWindow 1 ["A", "B", "C", "D"]) (savedWindow "10" ["A", "B", "C"]) = 3 ∧
    (savedWindow "10" ["A", "B", "C"]).tabItems.length = 3 :=
  ⟨by decide,
    (C5_single_saved_single_live (storeOf [("10", ["A", "B", "C"])]) "10"
      (savedWindow "10" ["A", "B", "C"]) (liveWindow 1 ["A", "B", "C", "D"])
      (by decide) (by decide) (by decide)).1,
    by decide, by decide⟩

/-! ## The claims about session recovery -/

/-- C6: `matchSnapshot(tabWindow, session)` returns true if and only if the URLs of the open
tab items of the window, in tab order, and the URLs of `session.window.tabs` are lists of
the same length with the same element at every position. Tab items that are not open are
ignored: the result depends on the open tab items only. -/
theorem C6_matchSnapshot_exact_sequence (tabWindow : TabWindow) (session : WinSession) :
    (matchSnapshot tabWindow session = true ↔
      ((tabWindow.tabItems.filter (fun ti => ti.isOpen)).map (fun ti => ti.url)).length
        = (session.window.tabs.map (fun t => t.url)).length ∧
      ∀ i : Nat, ((tabWindow.tabItems.filter (fun ti => ti.isOpen)).map (fun ti => ti.url))[i]?
        = (session.window.tabs.map (fun t => t.url))[i]?) ∧
    (matchSnapshot tabWindow session = true ↔
      (tabWindow.tabItems.filter (fun ti => ti.isOpen)).map (fun ti => ti.url)
        = session.window.tabs.map (fun t => t.url)) ∧
    (∀ other : TabWindow,
      other.tabItems.filter (fun ti => ti.isOpen) = tabWindow.tabItems.filter (fun ti => ti.isOpen) →
      matchSnapshot other session = matchSnapshot tabWindow session) := by
  have heq : matchSnapshot tabWindow session = true ↔
      (tabWindow.tabItems.filter (fun ti => ti.isOpen)).map (fun ti => ti.url)
        = session.window.tabs.map (fun t => t.url) := by
    unfold matchSnapshot snapUrls sessionUrls
    by_cases h : (tabWindow.tabItems.filter (fun ti => ti.isOpen)).map (fun ti => ti.url)
        = session.window.tabs.map (fun t => t.url)
    · simp [h]
    · simp [h]
  refine ⟨?_, heq, ?_⟩
  · rw [heq]
    constructor
    · intro h
      rw [h]
      exact ⟨rfl, fun _ => rfl⟩
    · rintro ⟨_, h⟩
      exact List.ext_getElem? h
  · intro other hother
    unfold matchSnapshot snapUrls
    rw [hother]

/-- C7: for a store whose saved index is consistent and any session list, the store that
`attachSessions` returns holds the same saved windows under the same bookmark ids; a saved
window that `matchSnapshot` matches with a session `s` and with no later session of the
list is the window of the input store with `chromeSessionId` set to the session id of `s`
and nothing else changed; a saved window matched by no session is as it was. -/
theorem C7_attachSessions_tags_last_match (st : TabManagerState) (sessions : List WinSession)
    (ts : Int) (hwf : savedIndexConsistent st) :
    mapKeys (attachSessions st sessions ts).1.bookmarkIdMap = mapKeys st.bookmarkIdMap ∧
    (∀ k tw, (k, tw) ∈ st.bookmarkIdMap →
      (∀ pre s post, sessions = pre ++ s :: post → matchSnapshot tw s = true →
        (∀ s' ∈ post, matchSnapshot tw s' = false) →
        mapGet (attachSessions st sessions ts).1.bookmarkIdMap k
          = some { tw with chromeSessionId := s.window.sessionId }) ∧
      ((∀ s ∈ sessions, matchSnapshot tw s = false) →
        mapGet (attachSessions st sessions ts).1.bookmarkIdMap k = some tw)) := by
  rw [attachSessions_store st sessions ts hwf]
  have hkeys : mapKeys (st.bookmarkIdMap.map (fun e => (e.1, tagWithSession e.2 sessions)))
      = mapKeys st.bookmarkIdMap := by
    simp [mapKeys, List.map_map, Function.comp_def]
  refine ⟨hkeys, ?_⟩
  intro k tw hmem
  have hget : mapGet (st.bookmarkIdMap.map (fun e => (e.1, tagWithSession e.2 sessions))) k
      = some (tagWithSession tw sessions) := by
    apply mapGet_of_mem
    · rw [hkeys]; exact hwf.1
    · exact List.mem_map.mpr ⟨(k, tw), hmem, rfl⟩
  constructor
  · intro pre s post hsplit hs hpost
    have hlast : lastMatchingSession tw sessions = some s := by
      unfold lastMatchingSession
      have hfp : post.filter (fun s => matchSnapshot tw s) = [] := by
        rw [List.filter_eq_nil_iff]
        intro s' hs'
        simp [hpost s' hs']
      rw [hsplit, List.filter_append, List.filter_cons, hs, if_pos rfl, hfp]
      simp
    rw [hget]
    simp only [tagWithSession, hlast]
  · intro hnone
    have hlast : lastMatchingSession tw sessions = none := by
      unfold lastMatchingSession
      have hf : sessions.filter (fun s => matchSnapshot tw s) = [] := by
        rw [List.filter_eq_nil_iff]
        intro s' hs'
        simp [hnone s' hs']
      rw [hf]
      rfl
    rw [hget]
    simp only [tagWithSession, hlast]

/-- Witness for C7: saved window "10" was open with the tabs A and B; of three sessions the
first and the last have exactly these URLs, and the window is tagged with the id of the
last one, while saved window "11" matches no session and stays as it was. -/
theorem C7_attachSessions_tags_last_match_witness :
    savedIndexConsistent sampleSessionStore ∧
    (attachSessions sampleSessionStore sampleSessions (-1)).1.bookmarkIdMap
      = [("10", { openSavedWindow "10" 5 ["A", "B"] with chromeSessionId := some "s3" }),
         ("11", savedWindow "11" ["C"])] ∧
    mapKeys (attachSessions sampleSessionStore sampleSessions (-1)).1.bookmarkIdMap
      = mapKeys sampleSessionStore.bookmarkIdMap :=
  ⟨by decide, by decide,
    (C7_attachSessions_tags_last_match sampleSessionStore sampleSessions (-1) (by decide)).1⟩

/-! ## The claims about the snapshot merge -/

/-- C8: whatever functions of `tabWindow.js` and whatever parsed `savedWindowState` the
snapshot merge of `loadSnapState` runs with, in the store it produces every saved window
that has no entry in `savedWindowState`, and every saved window that is open, is the window
of the input store, tab items and snapshot flag included. The merge produces a store
whenever `savedWindowState` is an object of well-formed entries. -/
theorem C8_snapshot_merge_frame (ops : TabWindowOps) (bmStore : TabManagerState)
    (savedWindowState : Json) (hst : storeKeysDistinct bmStore) :
    (∀ nextStore, mergeSnapState ops bmStore savedWindowState = some nextStore →
      ∀ k tw, (k, tw) ∈ bmStore.bookmarkIdMap →
        (jsProp savedWindowState k = some none ∨ tw.isOpen = true) →
        mapGet nextStore.bookmarkIdMap k = some tw) ∧
    (wellFormedSnapshot savedWindowState →
      ∃ nextStore, mergeSnapState ops bmStore savedWindowState = some nextStore) := by
  refine ⟨?_, mergeSnapState_some ops bmStore savedWindowState⟩
  intro nextStore hmerge k tw hmem hcase
  obtain ⟨m, hm, rfl⟩ := mergeSnapState_get ops bmStore nextStore savedWindowState hmerge
  have hget : mapGet bmStore.bookmarkIdMap k = some tw := mapGet_of_mem hst hmem
  have hnone : mapGet m k = none := by
    cases hmk : mapGet m k with
    | none => rfl
    | some tiList =>
      exfalso
      obtain ⟨hclosed, hentry⟩ :=
        (savedOpenTabsMap_get ops bmStore savedWindowState m hm k tiList).mp hmk
      rcases hcase with hno | hopen
      · simp [snapEntry, hno] at hentry
      · obtain ⟨tw', hmem', hclosed'⟩ := (mem_closedWindowIds bmStore k).mp hclosed
        have hget' := mapGet_of_mem hst hmem'
        rw [hget] at hget'
        have : tw = tw' := Option.some.inj hget'
        rw [← this, hopen] at hclosed'
        cases hclosed'
  show mapGet (bmStore.bookmarkIdMap.map (fun e => (e.1, updTabWindow ops m e.2 e.1))) k = some tw
  rw [mapGet_map_values bmStore.bookmarkIdMap (fun k v => updTabWindow ops m v k) k, hget]
  simp [updTabWindow, hnone]

/-- Witness for C8: the sample store and snapshot; window "11" is open and has an entry,
and is left as it was, and so would a window without an entry. -/
theorem C8_snapshot_merge_frame_witness :
    storeKeysDistinct sampleSnapStore ∧
    (∃ nextStore, mergeSnapState specOps sampleSnapStore sampleSnapshot = some nextStore ∧
      mapGet nextStore.bookmarkIdMap "11"
        = some { savedWindow "11" ["C"] with openWindowId := some 7 }) := by
  have hst : storeKeysDistinct sampleSnapStore := by decide
  obtain ⟨nextStore, hnext⟩ : ∃ nextStore,
      mergeSnapState specOps sampleSnapStore sampleSnapshot = some nextStore := by
    cases h : mergeSnapState specOps sampleSnapStore sampleSnapshot with
    | none => exact absurd h (by decide)
    | some st => exact ⟨st, rfl⟩
  exact ⟨hst, nextStore, hnext,
    (C8_snapshot_merge_frame specOps sampleSnapStore sampleSnapshot hst).1 nextStore hnext
      "11" _ (by decide) (Or.inr (by decide))⟩

/-- C9: the snapshot merge is idempotent. With `resetSavedItem`, `tabItemFromJS` and
`mergeSavedOpenTabs` as the specification describes them, for every store and every parsed
`savedWindowState`, a merge of the same snapshot into the store that a first merge produced
completes and gives that store again, so every saved window has the same tab item list after
two merges as after one. -/
theorem C9_snapshot_merge_idempotent (bmStore : TabManagerState) (savedWindowState : Json) :
    (∀ once, mergeSnapState specOps bmStore savedWindowState = some once →
      mergeSnapState specOps once savedWindowState = some once ∧
      ∀ twice, mergeSnapState specOps once savedWindowState = some twice →
        twice.bookmarkIdMap.map (fun e => (e.1, e.2.tabItems))
          = once.bookmarkIdMap.map (fun e => (e.1, e.2.tabItems))) ∧
    (wellFormedSnapshot savedWindowState →
      ∃ once, mergeSnapState specOps bmStore savedWindowState = some once) := by
  refine ⟨?_, mergeSnapState_some specOps bmStore savedWindowState⟩
  intro once honce
  have hidem : mergeSnapState specOps once savedWindowState = some once := by
    obtain ⟨m, hm, rfl⟩ := mergeSnapState_get specOps bmStore once savedWindowState honce
    have hm' : savedOpenTabsMap specOps
        { bmStore with bookmarkIdMap :=
          bmStore.bookmarkIdMap.map (fun e => (e.1, updTabWindow specOps m e.2 e.1)) }
        savedWindowState = some m := by
      unfold savedOpenTabsMap at hm ⊢
      rw [closedWindowIds_upd]
      exact hm
    unfold mergeSnapState
    simp only [hm', List.map_map, Option.some.injEq]
    congr 1
    apply List.map_congr_left
    intro e _
    simp only [Function.comp]
    congr 1
    apply updTabWindow_idem
    intro tiList hget
    exact snapEntry_spec_not_saved savedWindowState e.1 tiList
      ((savedOpenTabsMap_get specOps bmStore savedWindowState m hm e.1 tiList).mp hget).2
  refine ⟨hidem, ?_⟩
  intro twice htwice
  rw [hidem] at htwice
  rw [← Option.some.inj htwice]

/-- Witness for C9: the sample snapshot merged once and twice into the sample store. -/
theorem C9_snapshot_merge_idempotent_witness :
    ∃ once, mergeSnapState specOps sampleSnapStore sampleSnapshot = some once ∧
      mergeSnapState specOps once sampleSnapshot = some once ∧
      once.bookmarkIdMap.map (fun e => (e.1, e.2.tabItems.map (fun ti => (ti.url, ti.isOpen, ti.saved))))
        = [("10", [("A", false, true), ("B", true, true), ("X", true, false)]),
           ("11", [("C", false, true)])] := by
  obtain ⟨once, honce⟩ : ∃ once,
      mergeSnapState specOps sampleSnapStore sampleSnapshot = some once := by
    cases h : mergeSnapState specOps sampleSnapStore sampleSnapshot with
    | none => exact absurd h (by decide)
    | some st => exact ⟨st, rfl⟩
  refine ⟨once, honce,
    ((C9_snapshot_merge_idempotent sampleSnapStore sampleSnapshot).1 once honce).1, ?_⟩
  have hval : (mergeSnapState specOps sampleSnapStore sampleSnapshot).map
      (fun st => st.bookmarkIdMap.map
        (fun e => (e.1, e.2.tabItems.map (fun ti => (ti.url, ti.isOpen, ti.saved)))))
      = some [("10", [("A", false, true), ("B", true, true), ("X", true, false)]),
           ("11", [("C", false, true)])] := by decide
  rw [honce] at hval
  exact Option.some.inj hval

/-- C10, as the code has it: for a persisted snapshot that is an object of well-formed
entries, whatever functions of `tabWindow.js` the snapshot merge runs with, the merge
completes, and for a saved window `tw` that is closed and whose persisted entry has a
`tabItems` array with at least one item whose `open` is truthy, the store the merge produces
holds, under the same bookmark id, `tw` with `snapshot` set to true and its tab items
replaced by `mergeSavedOpenTabs(base, snap)`: `base` is the saved tab items of `tw`, each
passed through `resetSavedItem`, and `snap` is the persisted items with a truthy `open`, in
persisted order, each passed through `tabItemFromJS`. Persisted items whose `open` is not
truthy do not enter. -/
theorem C10_snapshot_merge_closed_window (ops : TabWindowOps) (bmStore : TabManagerState)
    (savedWindowState : Json) (hst : storeKeysDistinct bmStore)
    (hwf : wellFormedSnapshot savedWindowState)
    (k : BookmarkId) (tw : TabWindow) (entry : Json) (items : List Json)
    (hmem : (k, tw) ∈ bmStore.bookmarkIdMap) (hclosed : tw.isOpen = false)
    (hentry : jsProp savedWindowState k = some (some entry))
    (hitems : jsProp entry "tabItems" = some (some (Json.arr items)))
    (hopen : ∃ it ∈ items, truthyJson ((jsProp it "open").bind id) = true) :
    ∃ nextStore, mergeSnapState ops bmStore savedWindowState = some nextStore ∧
      mapGet nextStore.bookmarkIdMap k =
        some { tw with
          tabItems := ops.mergeSavedOpenTabs
            ((tw.tabItems.filter (fun ti => ti.saved)).map ops.resetSavedItem)
            ((items.filter (fun it => truthyJson ((jsProp it "open").bind id))).map
              ops.tabItemFromJS),
          snapshot := true } := by
  obtain ⟨nextStore, hmerge⟩ := mergeSnapState_some ops bmStore savedWindowState hwf
  refine ⟨nextStore, hmerge, ?_⟩
  obtain ⟨m, hm, rfl⟩ := mergeSnapState_get ops bmStore nextStore savedWindowState hmerge
  have hget : mapGet bmStore.bookmarkIdMap k = some tw := mapGet_of_mem hst hmem
  have hid : k ∈ closedWindowIds bmStore := (mem_closedWindowIds bmStore k).mpr ⟨tw, hmem, hclosed⟩
  have hsome : snapEntry ops savedWindowState k ≠ none := by
    unfold savedOpenTabsMap at hm
    exact savedOpenTabsLoop_entry_some ops savedWindowState _ [] m hm k hid
  have hlen : (openJsonItems items).length > 0 := by
    obtain ⟨it, hit, htruthy⟩ := hopen
    apply List.length_pos_of_mem (a := it)
    unfold openJsonItems
    rw [List.mem_filter]
    exact ⟨hit, htruthy⟩
  have hse := snapEntry_of_tabItems ops savedWindowState k entry items hentry hitems hsome
  simp only [hlen, if_true] at hse
  have hmk : mapGet m k = some ((openJsonItems items).map ops.tabItemFromJS) :=
    (savedOpenTabsMap_get ops bmStore savedWindowState m hm k _).mpr ⟨hid, hse⟩
  show mapGet (bmStore.bookmarkIdMap.map (fun e => (e.1, updTabWindow ops m e.2 e.1))) k = _
  rw [mapGet_map_values bmStore.bookmarkIdMap (fun k v => updTabWindow ops m v k) k, hget]
  simp [updTabWindow, hmk, openJsonItems]

/-- Witness for C10: saved window "10" of the sample store, closed, with saved URLs A and B;
its persisted entry lists B and X as open and A as not open. The merge gives A (saved), B
(saved and open) and X (open), and sets the snapshot flag. -/
theorem C10_snapshot_merge_closed_window_witness :
    storeKeysDistinct sampleSnapStore ∧ wellFormedSnapshot sampleSnapshot ∧
    (∃ nextStore, mergeSnapState specOps sampleSnapStore sampleSnapshot = some nextStore ∧
      mapGet nextStore.bookmarkIdMap "10" =
        some { savedWindow "10" ["A", "B"] with
          tabItems := specOps.mergeSavedOpenTabs
            (((savedWindow "10" ["A", "B"]).tabItems.filter (fun ti => ti.saved)).map
              specOps.resetSavedItem)
            (([jsonTabItem "B" true, jsonTabItem "X" true, jsonTabItem "A" false].filter
              (fun it => truthyJson ((jsProp it "open").bind id))).map specOps.tabItemFromJS),
          snapshot := true }) ∧
    (specOps.mergeSavedOpenTabs
        (((savedWindow "10" ["A", "B"]).tabItems.filter (fun ti => ti.saved)).map
          specOps.resetSavedItem)
        (([jsonTabItem "B" true, jsonTabItem "X" true, jsonTabItem "A" false].filter
          (fun it => truthyJson ((jsProp it "open").bind id))).map specOps.tabItemFromJS)).map
      (fun ti => (ti.url, ti.isOpen, ti.saved))
      = [("A", false, true), ("B", true, true), ("X", true, false)] := by
  have hst : storeKeysDistinct sampleSnapStore := by decide
  have hwf : wellFormedSnapshot sampleSnapshot := by
    refine ⟨_, rfl, ?_⟩
    intro e he
    simp only [List.mem_cons, List.mem_singleton, List.not_mem_nil, or_false] at he
    rcases he with rfl | rfl
    · right
      refine ⟨_, rfl, ?_⟩
      intro it hit
      simp only [List.mem_cons, List.mem_singleton, List.not_mem_nil, or_false] at hit
      rcases hit with rfl | rfl | rfl <;> simp [jsonTabItem, jsProp]
    · right
      refine ⟨_, rfl, ?_⟩
      intro it hit
      simp only [List.mem_singleton] at hit
      subst hit
      simp [jsonTabItem, jsProp]
  exact ⟨hst, hwf,
    C10_snapshot_merge_closed_window specOps sampleSnapStore sampleSnapshot hst hwf
      "10" (savedWindow "10" ["A", "B"])
      (Json.obj [("tabItems", Json.arr [jsonTabItem "B" true, jsonTabItem "X" true,
        jsonTabItem "A" false])])
      [jsonTabItem "B" true, jsonTabItem "X" true, jsonTabItem "A" false]
      (by decide) (by decide) (by rfl) (by rfl)
      ⟨jsonTabItem "B" true, by simp, by rfl⟩, by decide⟩

/-- Counterexample to C10 as stated: saved window "12" of the store with the closed windows
"10" and "12" is closed, and its persisted entry has a `tabItems` array with the open item
X; the entry of window "10" is an object without a `tabItems` array. Whatever functions of
`tabWindow.js` the merge runs with, it ends in an exception: no store is produced, so
window "12" receives neither the snapshot flag nor the merged tab items, and `loadSnapState`
does not call the callback. -/
theorem C10_counterexample :
    storeKeysDistinct twoClosedStore ∧
    ("12", savedWindow "12" ["C"]) ∈ twoClosedStore.bookmarkIdMap ∧
    (savedWindow "12" ["C"]).isOpen = false ∧
    jsProp malformedSnapshot "12"
      = some (some (Json.obj [("tabItems", Json.arr [jsonTabItem "X" true])])) ∧
    jsProp (Json.obj [("tabItems", Json.arr [jsonTabItem "X" true])]) "tabItems"
      = some (some (Json.arr [jsonTabItem "X" true])) ∧
    (∃ it ∈ [jsonTabItem "X" true], truthyJson ((jsProp it "open").bind id) = true) ∧
    (∀ ops : TabWindowOps, mergeSnapState ops twoClosedStore malformedSnapshot = none) ∧
    (∀ (ops : TabWindowOps) (sessions : List Session) (ts : Int),
      (loadSnapState ops sampleJsonParse twoClosedStore (some (some malformedSnapshotText))
        sessions ts).delivered = []) := by
  have hmerge : ∀ ops : TabWindowOps,
      mergeSnapState ops twoClosedStore malformedSnapshot = none := by
    intro ops
    rfl
  have hparse : sampleJsonParse malformedSnapshotText = some malformedSnapshot := by
    have hne : ¬ sampleSnapshotText = malformedSnapshotText := by decide
    simp [sampleJsonParse, parseTable, mapGet, hne]
  refine ⟨by decide, by decide, by decide, by rfl, by rfl,
    ⟨jsonTabItem "X" true, by simp, by rfl⟩, hmerge, ?_⟩
  intro ops sessions ts
  rw [loadSnapState_merge_throws ops sampleJsonParse twoClosedStore
    (some malformedSnapshotText) sessions ts malformedSnapshot (by decide) hparse (hmerge ops)]

/-! ## The claims about the event handlers -/

/-- C11: whatever the methods of the store do, for every store state and every tab-created,
tab-attached, tab-updated, tab-activated, tab-removed, tab-detached or window-removed event
whose window id `getTabWindowByChromeId` does not find, and every tab-replaced event whose
removed tab id `getTabWindowByChromeTabId` does not find, the updater that the listener
submits returns exactly the input state and raises nothing. A listener submits an updater
for every such event except a tab removed because its window is closing; for a stale
reference the window-removed listener starts no timer and the tab-replaced listener does not
ask for the added tab. -/
theorem C11_stale_reference_is_noop (m : StoreMethods) (state : TabManagerState)
    (ev : BrowserEvent) (hstale : staleReference m state ev) :
    (∀ updater, submittedUpdater m ev = some updater → updater state = some state) ∧
    ((∃ updater, submittedUpdater m ev = some updater) ∨
      ∃ tabId windowId, ev = BrowserEvent.tabRemoved tabId windowId true) ∧
    (∀ windowId, ev = BrowserEvent.windowRemoved windowId →
      onWindowRemovedSetsTimer m windowId state = false) ∧
    (∀ addedTabId removedTabId, ev = BrowserEvent.tabReplaced addedTabId removedTabId →
      onTabReplacedFetchesTab m removedTabId state = false) := by
  cases ev with
  | tabCreated tab =>
    simp only [staleReference] at hstale
    refine ⟨?_, Or.inl ⟨_, rfl⟩, ?_, ?_⟩
    · intro updater hu
      simp only [submittedUpdater, Option.some.injEq] at hu
      subst hu
      simp [onTabCreated, hstale]
    · intro windowId h; cases h
    · intro a r h; cases h
  | tabAttached tab =>
    simp only [staleReference] at hstale
    refine ⟨?_, Or.inl ⟨_, rfl⟩, ?_, ?_⟩
    · intro updater hu
      simp only [submittedUpdater, Option.some.injEq] at hu
      subst hu
      simp [onTabCreated, hstale]
    · intro windowId h; cases h
    · intro a r h; cases h
  | tabUpdated tabId changeInfo tab =>
    simp only [staleReference] at hstale
    refine ⟨?_, Or.inl ⟨_, rfl⟩, ?_, ?_⟩
    · intro updater hu
      simp only [submittedUpdater, Option.some.injEq] at hu
      subst hu
      simp [onTabUpdated, hstale]
    · intro windowId h; cases h
    · intro a r h; cases h
  | tabActivated tabId windowId =>
    simp only [staleReference] at hstale
    refine ⟨?_, Or.inl ⟨_, rfl⟩, ?_, ?_⟩
    · intro updater hu
      simp only [submittedUpdater, Option.some.injEq] at hu
      subst hu
      simp [onTabActivated, hstale]
    · intro windowId h; cases h
    · intro a r h; cases h
  | tabRemoved tabId windowId isWindowClosing =>
    simp only [staleReference] at hstale
    refine ⟨?_, ?_, ?_, ?_⟩
    · intro updater hu
      cases isWindowClosing with
      | true => simp [submittedUpdater] at hu
      | false =>
        simp only [submittedUpdater, Bool.false_eq_true, if_false, Option.some.injEq] at hu
        subst hu
        simp [onTabRemoved, hstale]
    · cases isWindowClosing with
      | true => exact Or.inr ⟨tabId, windowId, rfl⟩
      | false => exact Or.inl ⟨onTabRemoved m windowId tabId, by simp [submittedUpdater]⟩
    · intro windowId h; cases h
    · intro a r h; cases h
  | tabDetached tabId oldWindowId =>
    simp only [staleReference] at hstale
    refine ⟨?_, Or.inl ⟨_, rfl⟩, ?_, ?_⟩
    · intro updater hu
      simp only [submittedUpdater, Option.some.injEq] at hu
      subst hu
      simp [onTabRemoved, hstale]
    · intro windowId h; cases h
    · intro a r h; cases h
  | windowRemoved windowId =>
    simp only [staleReference] at hstale
    refine ⟨?_, Or.inl ⟨_, rfl⟩, ?_, ?_⟩
    · intro updater hu
      simp only [submittedUpdater, Option.some.injEq] at hu
      subst hu
      simp [onWindowRemoved, hstale]
    · intro windowId' h
      cases h
      simp [onWindowRemovedSetsTimer, hstale]
    · intro a r h; cases h
  | tabReplaced addedTabId removedTabId =>
    simp only [staleReference] at hstale
    refine ⟨?_, Or.inl ⟨_, rfl⟩, ?_, ?_⟩
    · intro updater hu
      simp only [submittedUpdater, Option.some.injEq] at hu
      subst hu
      simp [onTabReplaced, hstale]
    · intro windowId h; cases h
    · intro a r h
      cases h
      simp [onTabReplacedFetchesTab, hstale]

/-- Witness for C11: the sample store holds the live window 5 with tab 51; a tab created in
window 9 and a replacement of tab 99 leave the store as it is, while the same events for
window 5 and tab 51 run a transition. -/
theorem C11_stale_reference_is_noop_witness :
    staleReference sampleMethods sampleOpenStore
      (BrowserEvent.tabCreated { id := 91, windowId := 9, url := "X", title := "X", active := true }) ∧
    onTabCreated sampleMethods
      { id := 91, windowId := 9, url := "X", title := "X", active := true } false sampleOpenStore
      = some sampleOpenStore ∧
    onTabReplaced sampleMethods 99 sampleOpenStore = some sampleOpenStore ∧
    onTabCreated sampleMethods
      { id := 52, windowId := 5, url := "X", title := "X", active := true } false sampleOpenStore
      ≠ some sampleOpenStore ∧
    onTabReplaced sampleMethods 51 sampleOpenStore ≠ some sampleOpenStore ∧
    (∀ updater, submittedUpdater sampleMethods
        (BrowserEvent.tabCreated { id := 91, windowId := 9, url := "X", title := "X", active := true })
        = some updater → updater sampleOpenStore = some sampleOpenStore) :=
  ⟨by simp only [staleReference]; decide, by decide, by decide, by decide, by decide,
    (C11_stale_reference_is_noop sampleMethods sampleOpenStore
      (BrowserEvent.tabCreated { id := 91, windowId := 9, url := "X", title := "X", active := true })
      (by simp only [staleReference]; decide)).1⟩

/-! ## The claims about errors and session recovery in `loadSnapState` -/

/-- C12, as the code has it: when the value stored under `savedWindowState` is missing or
falsy, `loadSnapState` raises no error and treats it as no snapshot being available: the
callback receives the input store unchanged, once. When the value is a text that parses to
an object of well-formed entries, `loadSnapState` raises no error either and calls the
callback once. A text that cannot be parsed as JSON raises the `SyntaxError` of
`JSON.parse`, and the callback is not called. -/
theorem C12_missing_snapshot_is_no_snapshot (ops : TabWindowOps)
    (jsonParse : String → Option Json) (bmStore : TabManagerState) (sessions : List Session)
    (ts : Int) :
    (∀ v, truthyStr v = false →
      loadSnapState ops jsonParse bmStore (some v) sessions ts
        = { delivered := [bmStore], threw := false, lastSessionTimestamp := ts }) ∧
    (∀ text savedWindowState, text ≠ "" → jsonParse text = some savedWindowState →
      wellFormedSnapshot savedWindowState →
      (loadSnapState ops jsonParse bmStore (some (some text)) sessions ts).threw = false ∧
      ∃ st, (loadSnapState ops jsonParse bmStore (some (some text)) sessions ts).delivered = [st]) ∧
    (∀ text, text ≠ "" → jsonParse text = none →
      loadSnapState ops jsonParse bmStore (some (some text)) sessions ts
        = { delivered := [], threw := true, lastSessionTimestamp := ts }) := by
  refine ⟨fun v hv => loadSnapState_falsy ops jsonParse bmStore v sessions ts hv, ?_, ?_⟩
  · intro text sws htext hparse hwf
    have hv : truthyStr (some text) = true := by simpa [truthyStr] using htext
    obtain ⟨nextStore, hmerge⟩ := mergeSnapState_some ops bmStore sws hwf
    rw [loadSnapState_merged ops jsonParse bmStore nextStore (some text) sessions ts sws hv
      hparse hmerge]
    exact ⟨rfl, _, rfl⟩
  · intro text htext hparse
    have hv : truthyStr (some text) = true := by simpa [truthyStr] using htext
    exact loadSnapState_unparseable ops jsonParse bmStore (some text) sessions ts hv hparse

/-- Witness for C12: the sample store with no stored value, with the empty text, and with
the text of the sample snapshot. -/
theorem C12_missing_snapshot_is_no_snapshot_witness :
    loadSnapState specOps sampleJsonParse sampleSnapStore (some none) sampleRawSessions (-1)
      = { delivered := [sampleSnapStore], threw := false, lastSessionTimestamp := -1 } ∧
    loadSnapState specOps sampleJsonParse sampleSnapStore (some (some "")) sampleRawSessions (-1)
      = { delivered := [sampleSnapStore], threw := false, lastSessionTimestamp := -1 } ∧
    (loadSnapState specOps sampleJsonParse sampleSnapStore (some (some sampleSnapshotText))
      sampleRawSessions (-1)).threw = false := by
  have main := C12_missing_snapshot_is_no_snapshot specOps sampleJsonParse sampleSnapStore
    sampleRawSessions (-1)
  refine ⟨main.1 none (by decide), main.1 (some "") (by decide), ?_⟩
  refine (main.2.1 sampleSnapshotText sampleSnapshot (by decide)
    (by simp [sampleJsonParse, parseTable, mapGet]) ?_).1
  refine ⟨_, rfl, ?_⟩
  intro e he
  simp only [List.mem_cons, List.mem_singleton, List.not_mem_nil, or_false] at he
  rcases he with rfl | rfl
  · right
    refine ⟨_, rfl, ?_⟩
    intro it hit
    simp only [List.mem_cons, List.mem_singleton, List.not_mem_nil, or_false] at hit
    rcases hit with rfl | rfl | rfl <;> simp [jsonTabItem, jsProp]
  · right
    refine ⟨_, rfl, ?_⟩
    intro it hit
    simp only [List.mem_cons, List.mem_singleton, List.not_mem_nil, or_false] at hit
    subst hit
    simp [jsonTabItem, jsProp]

/-- Counterexample to C12 as stated: the stored text `{oops` cannot be parsed as JSON;
`loadSnapState` ends in an exception and the callback receives nothing. The stored text
`null` parses, and with a closed saved window in the store the read of its entry raises. -/
theorem C12_counterexample :
    sampleJsonParse "\x7boops" = none ∧
    loadSnapState specOps sampleJsonParse sampleSnapStore (some (some "\x7boops"))
      sampleRawSessions (-1)
      = { delivered := [], threw := true, lastSessionTimestamp := -1 } ∧
    sampleJsonParse "null" = some Json.null ∧
    loadSnapState specOps sampleJsonParse sampleSnapStore (some (some "null"))
      sampleRawSessions (-1)
      = { delivered := [], threw := true, lastSessionTimestamp := -1 } := by
  refine ⟨by rfl, by decide, by rfl, by decide⟩

section SkipLemmas

theorem snapEntry_skipped (ops : TabWindowOps) (savedWindowState : Json) (k : BookmarkId)
    (hskip : skippedEntry savedWindowState k)
    (hsome : snapEntry ops savedWindowState k ≠ none) :
    snapEntry ops savedWindowState k = some none := by
  rcases hskip with habsent | ⟨entry, hentry, hfalsy | ⟨items, hitems, hnone⟩⟩
  · simp [snapEntry, habsent]
  · simp [snapEntry, hentry, hfalsy]
  · rw [snapEntry_of_tabItems ops savedWindowState k entry items hentry hitems hsome, hnone]
    simp

end SkipLemmas

/-- C13, as the code has it: for a persisted snapshot that is an object of well-formed
entries, `loadSnapState` raises no error and calls the callback once; a saved window whose
entry is absent or falsy, or has a `tabItems` array without an open item, is skipped and
left unchanged, and every closed saved window whose entry has a `tabItems` array with an open
item is merged all the same. -/
theorem C13_skipped_entries (ops : TabWindowOps) (bmStore : TabManagerState)
    (savedWindowState : Json) (hst : storeKeysDistinct bmStore)
    (hwf : wellFormedSnapshot savedWindowState) :
    ∃ nextStore, mergeSnapState ops bmStore savedWindowState = some nextStore ∧
      (∀ (jsonParse : String → Option Json) (text : String) (sessions : List Session) (ts : Int),
        text ≠ "" → jsonParse text = some savedWindowState →
        (loadSnapState ops jsonParse bmStore (some (some text)) sessions ts).threw = false ∧
        (loadSnapState ops jsonParse bmStore (some (some text)) sessions ts).delivered
          = [(attachSessions nextStore (windowSessions sessions) ts).1]) ∧
      (∀ k tw, (k, tw) ∈ bmStore.bookmarkIdMap → skippedEntry savedWindowState k →
        mapGet nextStore.bookmarkIdMap k = some tw) ∧
      (∀ k tw entry items, (k, tw) ∈ bmStore.bookmarkIdMap → tw.isOpen = false →
        jsProp savedWindowState k = some (some entry) →
        jsProp entry "tabItems" = some (some (Json.arr items)) →
        openJsonItems items ≠ [] →
        mapGet nextStore.bookmarkIdMap k =
          some { tw with
            tabItems := ops.mergeSavedOpenTabs (baseSavedItems ops tw)
              ((openJsonItems items).map ops.tabItemFromJS),
            snapshot := true }) := by
  obtain ⟨nextStore, hmerge⟩ := mergeSnapState_some ops bmStore savedWindowState hwf
  refine ⟨nextStore, hmerge, ?_, ?_, ?_⟩
  · intro jsonParse text sessions ts htext hparse
    have hv : truthyStr (some text) = true := by simpa [truthyStr] using htext
    rw [loadSnapState_merged ops jsonParse bmStore nextStore (some text) sessions ts
      savedWindowState hv hparse hmerge]
    exact ⟨rfl, rfl⟩
  · intro k tw hmem hskip
    obtain ⟨m, hm, hnext⟩ := mergeSnapState_get ops bmStore nextStore savedWindowState hmerge
    have hget : mapGet bmStore.bookmarkIdMap k = some tw := mapGet_of_mem hst hmem
    have hnone : mapGet m k = none := by
      cases hmk : mapGet m k with
      | none => rfl
      | some tiList =>
        exfalso
        obtain ⟨_, hentry⟩ :=
          (savedOpenTabsMap_get ops bmStore savedWindowState m hm k tiList).mp hmk
        have := snapEntry_skipped ops savedWindowState k hskip (by rw [hentry]; simp)
        rw [hentry] at this
        simp at this
    rw [hnext]
    show mapGet (bmStore.bookmarkIdMap.map (fun e => (e.1, updTabWindow ops m e.2 e.1))) k = some tw
    rw [mapGet_map_values bmStore.bookmarkIdMap (fun k v => updTabWindow ops m v k) k, hget]
    simp [updTabWindow, hnone]
  · intro k tw entry items hmem hclosed hentry hitems hopen
    obtain ⟨m, hm, hnext⟩ := mergeSnapState_get ops bmStore nextStore savedWindowState hmerge
    have hget : mapGet bmStore.bookmarkIdMap k = some tw := mapGet_of_mem hst hmem
    have hid : k ∈ closedWindowIds bmStore :=
      (mem_closedWindowIds bmStore k).mpr ⟨tw, hmem, hclosed⟩
    have hsome : snapEntry ops savedWindowState k ≠ none :=
      snapEntry_some_of_wellFormed ops savedWindowState hwf k
    have hlen : (openJsonItems items).length > 0 := List.length_pos.mpr hopen
    have hse := snapEntry_of_tabItems ops savedWindowState k entry items hentry hitems hsome
    simp only [hlen, if_true] at hse
    have hmk : mapGet m k = some ((openJsonItems items).map ops.tabItemFromJS) :=
      (savedOpenTabsMap_get ops bmStore savedWindowState m hm k _).mpr ⟨hid, hse⟩
    rw [hnext]
    show mapGet (bmStore.bookmarkIdMap.map (fun e => (e.1, updTabWindow ops m e.2 e.1))) k = _
    rw [mapGet_map_values bmStore.bookmarkIdMap (fun k v => updTabWindow ops m v k) k, hget]
    simp [updTabWindow, hmk, baseSavedItems]

/-- Witness for C13: the store with the closed windows "10" and "12" and a snapshot whose
entry for "10" lists no open item; window "10" is left as it was and window "12" receives
the open item X. -/
theorem C13_skipped_entries_witness :
    storeKeysDistinct twoClosedStore ∧ wellFormedSnapshot skippingSnapshot ∧
    (mergeSnapState specOps twoClosedStore skippingSnapshot).map
      (fun st => st.bookmarkIdMap.map (fun e =>
        (e.1, e.2.tabItems.map (fun ti => (ti.url, ti.isOpen, ti.saved)))))
      = some [("10", [("A", false, true), ("B", false, true)]),
              ("12", [("C", false, true), ("X", true, false)])] ∧
    ∃ nextStore, mergeSnapState specOps twoClosedStore skippingSnapshot = some nextStore ∧
      mapGet nextStore.bookmarkIdMap "10" = some (savedWindow "10" ["A", "B"]) := by
  have hst : storeKeysDistinct twoClosedStore := by decide
  have hwf : wellFormedSnapshot skippingSnapshot := by
    refine ⟨_, rfl, ?_⟩
    intro e he
    simp only [List.mem_cons, List.mem_singleton, List.not_mem_nil, or_false] at he
    rcases he with rfl | rfl
    · right
      refine ⟨_, rfl, ?_⟩
      intro it hit
      simp only [List.mem_singleton] at hit
      subst hit
      simp [jsonTabItem, jsProp]
    · right
      refine ⟨_, rfl, ?_⟩
      intro it hit
      simp only [List.mem_singleton] at hit
      subst hit
      simp [jsonTabItem, jsProp]
  obtain ⟨nextStore, hnext, _, hskip, _⟩ :=
    C13_skipped_entries specOps twoClosedStore skippingSnapshot hst hwf
  have hval : (mergeSnapState specOps twoClosedStore skippingSnapshot).map
      (fun st => st.bookmarkIdMap.map (fun e =>
        (e.1, e.2.tabItems.map (fun ti => (ti.url, ti.isOpen, ti.saved)))))
      = some [("10", [("A", false, true), ("B", false, true)]),
              ("12", [("C", false, true), ("X", true, false)])] := by decide
  exact ⟨hst, hwf, hval, nextStore, hnext,
    hskip "10" (savedWindow "10" ["A", "B"]) (by decide)
      (Or.inr ⟨Json.obj [("tabItems", Json.arr [jsonTabItem "A" false])], by rfl,
        Or.inr ⟨[jsonTabItem "A" false], by rfl, by rfl⟩⟩)⟩

/-- Counterexample to C13 as stated: the closed saved windows "10" and "12" and a snapshot
whose entry for "10" is an object without a `tabItems` array, next to a well-formed entry
for "12". The merge raises an exception: no store is produced, the callback is not called,
and the entry of window "12" is not merged. -/
theorem C13_counterexample :
    jsProp malformedSnapshot "10" = some (some (Json.obj [])) ∧
    jsProp (Json.obj []) "tabItems" = some none ∧
    wellFormedEntry (Json.obj [("tabItems", Json.arr [jsonTabItem "X" true])]) ∧
    mergeSnapState specOps twoClosedStore malformedSnapshot = none ∧
    sampleJsonParse malformedSnapshotText = some malformedSnapshot ∧
    loadSnapState specOps sampleJsonParse twoClosedStore (some (some malformedSnapshotText))
      sampleRawSessions (-1)
      = { delivered := [], threw := true, lastSessionTimestamp := -1 } := by
  have hmerge : mergeSnapState specOps twoClosedStore malformedSnapshot = none := by decide
  have hparse : sampleJsonParse malformedSnapshotText = some malformedSnapshot := by
    have hne : ¬ sampleSnapshotText = malformedSnapshotText := by decide
    simp [sampleJsonParse, parseTable, mapGet, hne]
  refine ⟨by rfl, by rfl, ?_, hmerge, hparse, ?_⟩
  · right
    refine ⟨_, rfl, ?_⟩
    intro it hit
    simp only [List.mem_singleton] at hit
    subst hit
    simp [jsonTabItem, jsProp]
  · exact loadSnapState_merge_throws specOps sampleJsonParse twoClosedStore
      (some malformedSnapshotText) sampleRawSessions (-1) malformedSnapshot (by decide) hparse
      hmerge

/-- C14, as the code has it: session recovery is a step of the branch of `loadSnapState`
that found a persisted blob. When a blob exists, parses, and the snapshot merge completes,
the one store that the callback receives is the merged store with `attachSessions` applied
to it for the window sessions of the recently-closed list; when no blob exists the callback
receives the input store as it is, without session recovery. -/
theorem C14_session_recovery_after_merge (ops : TabWindowOps)
    (jsonParse : String → Option Json) (bmStore : TabManagerState) (sessions : List Session)
    (ts : Int) :
    (∀ text savedWindowState nextStore, text ≠ "" → jsonParse text = some savedWindowState →
      mergeSnapState ops bmStore savedWindowState = some nextStore →
      loadSnapState ops jsonParse bmStore (some (some text)) sessions ts
        = { delivered := [(attachSessions nextStore (windowSessions sessions) ts).1],
            threw := false,
            lastSessionTimestamp := (attachSessions nextStore (windowSessions sessions) ts).2 }) ∧
    (∀ v, truthyStr v = false →
      loadSnapState ops jsonParse bmStore (some v) sessions ts
        = { delivered := [bmStore], threw := false, lastSessionTimestamp := ts }) := by
  refine ⟨?_, fun v hv => loadSnapState_falsy ops jsonParse bmStore v sessions ts hv⟩
  intro text sws nextStore htext hparse hmerge
  have hv : truthyStr (some text) = true := by simpa [truthyStr] using htext
  exact loadSnapState_merged ops jsonParse bmStore nextStore (some text) sessions ts sws hv
    hparse hmerge

/-- Witness for C14: the sample session store with the text of the sample snapshot; the
callback receives the merged store with window "10" tagged with the session "s3". -/
theorem C14_session_recovery_after_merge_witness :
    (loadSnapState specOps sampleJsonParse sampleSessionStore (some (some sampleSnapshotText))
      sampleRawSessions (-1)).delivered.map
        (fun st => st.bookmarkIdMap.map (fun e => (e.1, e.2.chromeSessionId)))
      = [[("10", some "s3"), ("11", none)]] ∧
    ∃ nextStore, mergeSnapState specOps sampleSessionStore sampleSnapshot = some nextStore ∧
      loadSnapState specOps sampleJsonParse sampleSessionStore (some (some sampleSnapshotText))
        sampleRawSessions (-1)
      = { delivered := [(attachSessions nextStore (windowSessions sampleRawSessions) (-1)).1],
          threw := false,
          lastSessionTimestamp :=
            (attachSessions nextStore (windowSessions sampleRawSessions) (-1)).2 } := by
  have hparse : sampleJsonParse sampleSnapshotText = some sampleSnapshot := by
    simp [sampleJsonParse, parseTable, mapGet]
  obtain ⟨nextStore, hnext⟩ : ∃ nextStore,
      mergeSnapState specOps sampleSessionStore sampleSnapshot = some nextStore := by
    cases h : mergeSnapState specOps sampleSessionStore sampleSnapshot with
    | none => exact absurd h (by decide)
    | some st => exact ⟨st, rfl⟩
  have hload := (C14_session_recovery_after_merge specOps sampleJsonParse sampleSessionStore
    sampleRawSessions (-1)).1 sampleSnapshotText sampleSnapshot nextStore (by decide) hparse hnext
  have hmerged : (mergeSnapState specOps sampleSessionStore sampleSnapshot).map
      (fun st => (attachSessions st (windowSessions sampleRawSessions) (-1)).1.bookmarkIdMap.map
        (fun e => (e.1, e.2.chromeSessionId)))
      = some [("10", some "s3"), ("11", none)] := by decide
  rw [hnext] at hmerged
  refine ⟨?_, nextStore, hnext, hload⟩
  rw [hload]
  simp only [List.map_cons, List.map_nil]
  simp only [Option.map_some', Option.some.injEq] at hmerged
  rw [hmerged]

/-- Counterexample to C14 as stated: no blob is stored. Saved window "10" of the sample
session store is open with the tabs A and B and `matchSnapshot` matches it with the session
"s3" of the recently-closed list, so `attachSessions` would tag it; the callback receives
the input store, in which the window has no session id. -/
theorem C14_counterexample :
    loadSnapState specOps sampleJsonParse sampleSessionStore (some none) sampleRawSessions (-1)
      = { delivered := [sampleSessionStore], threw := false, lastSessionTimestamp := -1 } ∧
    matchSnapshot (openSavedWindow "10" 5 ["A", "B"]) (windowSession "s3" 300 ["A", "B"]) = true ∧
    windowSession "s3" 300 ["A", "B"] ∈ windowSessions sampleRawSessions ∧
    (mapGet sampleSessionStore.bookmarkIdMap "10").map (fun tw => tw.chromeSessionId)
      = some none ∧
    (mapGet (attachSessions sampleSessionStore (windowSessions sampleRawSessions) (-1)).1.bookmarkIdMap
        "10").map (fun tw => tw.chromeSessionId) = some (some "s3") ∧
    (attachSessions sampleSessionStore (windowSessions sampleRawSessions) (-1)).1
      ≠ sampleSessionStore := by
  refine ⟨by decide, by decide, by decide, by decide, by decide, by decide⟩

/-! ## The claims about the actions and the startup load -/

/-- C15: what the code does on a precondition violation. `closeWindow` on a tab window
that is not open only logs: it issues no browser call and submits no updater, and
`unmanageWindow` without an archive folder only shows the notice. `manageWindow` without a
destination folder id shows the notice and goes on: it asks the browser to create the
folder, with the missing id as parent, creates the bookmarks, and submits the
`attachBookmarkFolder` updater. -/
theorem C15_manageWindow_goes_on_without_folder :
    (∀ tabWindow : TabWindow, tabWindow.isOpen = false →
      ∀ step ∈ closeWindow tabWindow,
        step.isCreateOrRemove = false ∧ step.isSubmitUpdater = false) ∧
    (∀ (archiveFolderId : Option BookmarkId) (tabWindow : TabWindow),
      truthyStr archiveFolderId = false →
      unmanageWindow archiveFolderId tabWindow
        = [ActionStep.alert "could not move managed window folder to archive -- no archive folder"]) ∧
    (∀ (tabliFolderId : Option BookmarkId) (tabWindow : TabWindow) (title : String)
        (nodeId : BookmarkId),
      truthyStr tabliFolderId = false →
      ActionStep.alert "Could not save bookmarks -- no tab manager folder"
        ∈ manageWindow tabliFolderId tabWindow title nodeId ∧
      ActionStep.bookmarksCreate tabliFolderId title none
        ∈ manageWindow tabliFolderId tabWindow title nodeId ∧
      ActionStep.submitUpdater "attachBookmarkFolder"
        ∈ manageWindow tabliFolderId tabWindow title nodeId ∧
      ∃ step ∈ manageWindow tabliFolderId tabWindow title nodeId,
        step.isCreateOrRemove = true) ∧
    manageWindow none sampleOpenWindow "Work" "77"
      = [ActionStep.alert "Could not save bookmarks -- no tab manager folder",
         ActionStep.bookmarksCreate none "Work" none,
         ActionStep.bookmarksCreate (some "77") "first A" (some "A"),
         ActionStep.bookmarksCreate (some "77") "b" (some "B"),
         ActionStep.bookmarksCreate (some "77") "c" (some "C"),
         ActionStep.bookmarksGetSubTree "77",
         ActionStep.windowsGet (some 5),
         ActionStep.submitUpdater "attachBookmarkFolder"] := by
  refine ⟨?_, ?_, ?_, by decide⟩
  · intro tabWindow hclosed step hstep
    simp only [closeWindow, hclosed, Bool.not_false, if_true, List.mem_singleton] at hstep
    subst hstep
    exact ⟨rfl, rfl⟩
  · intro archiveFolderId tabWindow hfalsy
    simp [unmanageWindow, hfalsy]
  · intro tabliFolderId tabWindow title nodeId hfalsy
    have hcreate : ActionStep.bookmarksCreate tabliFolderId title none
        ∈ manageWindow tabliFolderId tabWindow title nodeId := by
      simp [manageWindow]
    refine ⟨?_, hcreate, ?_, ⟨_, hcreate, rfl⟩⟩
    · simp [manageWindow, hfalsy]
    · simp [manageWindow]

/-! ## The claims about the session timestamp -/

/-- C16: the last-seen session timestamp never decreases. For every store, every session
list and every value of `lastSessionTimestamp`, the value after `attachSessions` is greater
than or equal to the value before; the same holds for the sessions-changed handler and for
`loadSnapState`. -/
theorem C16_session_timestamp_monotone (st : TabManagerState) (sessions : List WinSession)
    (ts : Int) :
    ts ≤ (attachSessions st sessions ts).2 ∧
    (∀ rawSessions : List Session, ts ≤ (onSessionsChanged st rawSessions ts).2) ∧
    (∀ (ops : TabWindowOps) (jsonParse : String → Option Json) (items : Option (Option String))
        (rawSessions : List Session),
      ts ≤ (loadSnapState ops jsonParse st items rawSessions ts).lastSessionTimestamp) := by
  have hmono : ∀ (st : TabManagerState) (sessions : List WinSession),
      ts ≤ (attachSessions st sessions ts).2 := by
    intro st sessions
    rw [attachSessions_ts]
    by_cases h : st.bookmarkIdMap = []
    · simp [h]
    · simp only [h, if_false]
      exact latestTimestamp_ge sessions ts
  refine ⟨hmono st sessions, fun rawSessions => hmono st _, ?_⟩
  intro ops jsonParse items rawSessions
  cases items with
  | none => rw [loadSnapState_no_items]
  | some v =>
    cases hv : truthyStr v with
    | false => rw [loadSnapState_falsy _ _ _ _ _ _ hv]
    | true =>
      cases hparse : jsonParse (v.getD "") with
      | none => rw [loadSnapState_unparseable _ _ _ _ _ _ hv hparse]
      | some savedWindowState =>
        cases hmerge : mergeSnapState ops st savedWindowState with
        | none => rw [loadSnapState_merge_throws _ _ _ _ _ _ _ hv hparse hmerge]
        | some nextStore =>
          rw [loadSnapState_merged _ _ _ _ _ _ _ _ hv hparse hmerge]
          exact hmono nextStore _

/-- C17, as the code has it: the sessions-changed handler passes to `attachSessions` only
window sessions whose `lastModified` is strictly greater than the last-seen timestamp. For
every store with at least one saved window and every recently-closed list, handling the same
list a second time passes an empty session list; for every store, with or without saved
windows, the second handling returns the store of the first unchanged and leaves the
timestamp where the first put it. -/
theorem C17_sessions_not_reprocessed (st : TabManagerState) (sessions : List Session)
    (ts : Int) :
    (∀ s ∈ changedWinSessions sessions ts, s.lastModified > ts ∧
      ∃ r ∈ sessions, r.window = some s.window ∧ r.lastModified = s.lastModified) ∧
    (st.bookmarkIdMap ≠ [] →
      changedWinSessions sessions (onSessionsChanged st sessions ts).2 = []) ∧
    onSessionsChanged (onSessionsChanged st sessions ts).1 sessions
        (onSessionsChanged st sessions ts).2
      = onSessionsChanged st sessions ts := by
  have hpassed : ∀ s ∈ changedWinSessions sessions ts, s.lastModified > ts ∧
      ∃ r ∈ sessions, r.window = some s.window ∧ r.lastModified = s.lastModified := by
    intro s hs
    unfold changedWinSessions at hs
    rw [List.mem_filter] at hs
    refine ⟨by simpa using hs.2, ?_⟩
    obtain ⟨r, hr, hrs⟩ := List.mem_filterMap.mp hs.1
    refine ⟨r, hr, ?_⟩
    cases hw : r.window with
    | none => simp [hw] at hrs
    | some w =>
      simp only [hw, Option.map_some', Option.some.injEq] at hrs
      rw [← hrs]
      exact ⟨rfl, rfl⟩
  have hempty : st.bookmarkIdMap ≠ [] →
      changedWinSessions sessions (onSessionsChanged st sessions ts).2 = [] := by
    intro hne
    have hts : (onSessionsChanged st sessions ts).2
        = latestTimestamp (changedWinSessions sessions ts) ts := by
      unfold onSessionsChanged
      simp only [attachSessions_ts, hne, if_false]
    rw [hts]
    unfold changedWinSessions
    rw [List.filter_eq_nil_iff]
    intro s hs
    simp only [gt_iff_lt, decide_eq_true_eq, not_lt]
    by_cases hgt : s.lastModified > ts
    · apply latestTimestamp_ge_mem
      rw [List.mem_filter]
      exact ⟨hs, by simpa using hgt⟩
    · exact le_trans (not_lt.mp hgt) (latestTimestamp_ge _ ts)
  refine ⟨hpassed, hempty, ?_⟩
  by_cases hne : st.bookmarkIdMap = []
  · have h1 : onSessionsChanged st sessions ts = (st, ts) := by
      unfold onSessionsChanged
      exact attachSessions_no_windows st _ ts hne
    rw [h1]
    exact h1
  · have h2 : ∀ (st1 : TabManagerState) (ts1 : Int), changedWinSessions sessions ts1 = [] →
        onSessionsChanged st1 sessions ts1 = (st1, ts1) := by
      intro st1 ts1 hnil
      unfold onSessionsChanged
      simp only [hnil]
      exact attachSessions_nil st1 ts1
    rw [h2 _ _ (hempty hne)]

/-- Counterexample to C17 as stated: the empty store has no saved window, so the handler
leaves the timestamp at -1, and a second handling of the same recently-closed list passes
the same three window sessions to `attachSessions` again. -/
theorem C17_counterexample :
    onSessionsChanged emptyStore sampleRawSessions (-1) = (emptyStore, -1) ∧
    changedWinSessions sampleRawSessions (onSessionsChanged emptyStore sampleRawSessions (-1)).2
      = sampleSessions ∧
    changedWinSessions sampleRawSessions (onSessionsChanged emptyStore sampleRawSessions (-1)).2
      ≠ [] := by
  decide

/-- Witness for C17: the sample store has two saved windows; the first handling of the
sample list moves the timestamp to 300 and tags window "10", and a second handling passes no
session. -/
theorem C17_sessions_not_reprocessed_witness :
    sampleSessionStore.bookmarkIdMap ≠ [] ∧
    (onSessionsChanged sampleSessionStore sampleRawSessions (-1)).2 = 300 ∧
    changedWinSessions sampleRawSessions (-1) = sampleSessions ∧
    changedWinSessions sampleRawSessions
      (onSessionsChanged sampleSessionStore sampleRawSessions (-1)).2 = [] :=
  ⟨by decide, by decide, by decide,
    (C17_sessions_not_reprocessed sampleSessionStore sampleRawSessions (-1)).2.1 (by decide)⟩

/-! ## The claim about the match counts -/

/-- C18: for every live window `w` and every index from URL to set of bookmark ids, the
`matches` map that `getMatchInfo` computes holds for a bookmark id `b` exactly the number of
tabs of `w`, counted per tab, whose URL the index maps to a set containing `b`, and holds no
entry for a bookmark id that no tab of `w` matches; a tab whose URL is absent from the index
adds nothing. With the index of its own store `getMatchInfo` raises no exception. -/
theorem C18_matches_counts_tabs (bmStore : TabManagerState)
    (urlIdMap : IMap Url (List BookmarkId)) (w : ChromeWindow)
    (hsets : ∀ u, ((mapGet urlIdMap u).getD []).Nodup) :
    (∀ mi, getMatchInfo bmStore urlIdMap w = some mi →
      mi.matches_ = matchMap urlIdMap w ∧ mi.windowId = w.id ∧ mi.tabCount = w.tabs.length) ∧
    (∀ b, mapGet (matchMap urlIdMap w) b =
      if (w.tabs.filter (fun t => decide (b ∈ (mapGet urlIdMap t.url).getD []))).length = 0
      then none
      else some (w.tabs.filter (fun t => decide (b ∈ (mapGet urlIdMap t.url).getD []))).length) ∧
    (mapKeys (matchMap urlIdMap w)).Nodup ∧
    (∀ t ∈ w.tabs, mapGet urlIdMap t.url = none →
      matchMap urlIdMap { w with tabs := w.tabs.filter (fun t' => decide (t' ≠ t)) }
        = matchMap urlIdMap w) ∧
    (∃ mi, getMatchInfo bmStore (getUrlBookmarkIdMap bmStore) w = some mi) := by
  have hcount : ∀ b, (mapGet (matchMap urlIdMap w) b).getD 0
      = (w.tabs.filter (fun t => decide (b ∈ (mapGet urlIdMap t.url).getD []))).length := by
    intro b
    rw [matchMap_getD, ← sum_map_ite_eq_length_filter]
    congr 1
    apply List.map_congr_left
    intro t _
    by_cases hb : b ∈ (mapGet urlIdMap t.url).getD []
    · simp only [hb, decide_True, if_true]
      exact List.count_eq_one_of_mem (hsets t.url) hb
    · simp only [hb, decide_False, Bool.false_eq_true, if_false]
      exact List.count_eq_zero_of_not_mem hb
  refine ⟨?_, ?_, matchMap_nodup urlIdMap w, ?_, ?_⟩
  · intro mi hmi
    unfold getMatchInfo at hmi
    simp only [] at hmi
    cases ht : threshFilter bmStore (matchMap urlIdMap w) with
    | none => simp [ht] at hmi
    | some tm =>
      simp only [ht, Option.some.injEq] at hmi
      rw [← hmi]
      exact ⟨rfl, rfl, rfl⟩
  · intro b
    have hc := hcount b
    by_cases hz : (w.tabs.filter (fun t => decide (b ∈ (mapGet urlIdMap t.url).getD []))).length = 0
    · rw [if_pos hz]
      rw [hz] at hc
      have hnotkey : b ∉ mapKeys (matchMap urlIdMap w) := by
        rw [mem_mapKeys_iff_pos _ b (matchMap_pos urlIdMap w), hc]
        exact lt_irrefl 0
      exact (mapGet_eq_none_iff _ b).mpr hnotkey
    · rw [if_neg hz]
      have hkey : b ∈ mapKeys (matchMap urlIdMap w) := by
        rw [mem_mapKeys_iff_pos _ b (matchMap_pos urlIdMap w), hc]
        omega
      obtain ⟨v, hv⟩ := (mem_mapKeys_iff_mapGet _ b).mp hkey
      rw [hv] at hc ⊢
      simp only [Option.getD_some] at hc
      rw [hc]
  · intro t _ hnone
    unfold matchMap
    simp only []
    congr 2
    have : ∀ l : List ChromeTab,
        ((l.filter (fun t' => decide (t' ≠ t))).map (fun t => mapGet urlIdMap t.url)).filterMap id
        = (l.map (fun t => mapGet urlIdMap t.url)).filterMap id := by
      intro l
      induction l with
      | nil => rfl
      | cons a rest ih =>
        rw [List.filter_cons]
        by_cases ha : a = t
        · have hd : decide (a ≠ t) = false := by simp [ha]
          rw [hd]
          simp only [Bool.false_eq_true, if_false]
          rw [ih, List.map_cons, ha, hnone]
          rfl
        · have hd : decide (a ≠ t) = true := by simp [ha]
          rw [hd]
          simp only [if_true]
          rw [List.map_cons, List.map_cons]
          cases hg : mapGet urlIdMap a.url with
          | none =>
            show List.filterMap id _ = List.filterMap id _
            exact ih
          | some s =>
            show s :: List.filterMap id _ = s :: List.filterMap id _
            rw [ih]
    exact this w.tabs
  · obtain ⟨tm, _, hmi⟩ := getMatchInfo_some bmStore w
    exact ⟨_, hmi⟩

/-- Witness for C18: the index of a store with the saved windows "10" (A, B) and "11" (A);
a live window with the tabs A, A, B and X gives "10" the count 3 and "11" the count 2. -/
theorem C18_matches_counts_tabs_witness :
    matchMap (getUrlBookmarkIdMap (storeOf [("10", ["A", "B"]), ("11", ["A"])]))
      (liveWindow 1 ["A", "A", "B", "X"]) = [("10", 3), ("11", 2)] ∧
    (∀ b, mapGet (matchMap (getUrlBookmarkIdMap (storeOf [("10", ["A", "B"]), ("11", ["A"])]))
        (liveWindow 1 ["A", "A", "B", "X"])) b =
      if ((liveWindow 1 ["A", "A", "B", "X"]).tabs.filter (fun t => decide (b ∈
        (mapGet (getUrlBookmarkIdMap (storeOf [("10", ["A", "B"]), ("11", ["A"])])) t.url).getD
          []))).length = 0
      then none
      else some ((liveWindow 1 ["A", "A", "B", "X"]).tabs.filter (fun t => decide (b ∈
        (mapGet (getUrlBookmarkIdMap (storeOf [("10", ["A", "B"]), ("11", ["A"])])) t.url).getD
          []))).length) :=
  ⟨by decide,
    (C18_matches_counts_tabs (storeOf [("10", ["A", "B"]), ("11", ["A"])])
      (getUrlBookmarkIdMap (storeOf [("10", ["A", "B"]), ("11", ["A"])]))
      (liveWindow 1 ["A", "A", "B", "X"])
      (nodup_getUrlBookmarkIdMap (storeOf [("10", ["A", "B"]), ("11", ["A"])]))).2.1⟩

section LoadManagedLemmas

theorem folderTabWindowsLoop_eq (makeFolderTabWindow : BookmarkTreeNode → TabWindow)
    (children : List BookmarkTreeNode) (acc : List TabWindow) :
    folderTabWindowsLoop makeFolderTabWindow children acc
    = acc ++ (children.filter isWindowFolder).map makeFolderTabWindow := by
  induction children generalizing acc with
  | nil => simp [folderTabWindowsLoop]
  | cons windowFolder rest ih =>
    unfold folderTabWindowsLoop
    by_cases hu : titleStartsWithUnderscore windowFolder.title = true
    · simp [hu, ih, List.filter_cons, isWindowFolder]
    · cases hc : windowFolder.children with
      | none => simp [hu, hc, ih, List.filter_cons, isWindowFolder]
      | some fc => simp [hu, hc, ih, List.filter_cons, isWindowFolder]

end LoadManagedLemmas

/-- C19: for a Tabli folder that was read with its children, `loadManagedWindows` registers
exactly the child folders whose title does not begin with `_` and whose `children` field is
present, each converted by `makeFolderTabWindow`, in folder order; a child whose title
begins with `_` and a child without a `children` field are not among the folders it
converts. -/
theorem C19_loadManagedWindows_registers_window_folders
    (makeFolderTabWindow : BookmarkTreeNode → TabWindow) (winStore : TabManagerState)
    (tabManFolder : BookmarkTreeNode) (children : List BookmarkTreeNode)
    (hchildren : tabManFolder.children = some children) :
    folderTabWindows makeFolderTabWindow tabManFolder
      = some ((children.filter (fun node =>
          !titleStartsWithUnderscore node.title && node.children.isSome)).map
          makeFolderTabWindow) ∧
    loadManagedWindows makeFolderTabWindow winStore tabManFolder
      = some (registerTabWindows winStore
          ((children.filter (fun node =>
            !titleStartsWithUnderscore node.title && node.children.isSome)).map
            makeFolderTabWindow)) ∧
    (∀ node ∈ children,
      (titleStartsWithUnderscore node.title = true ∨ node.children = none) →
      node ∉ children.filter (fun node =>
        !titleStartsWithUnderscore node.title && node.children.isSome)) ∧
    (∀ title : String, titleStartsWithUnderscore title = true ↔ title.data.head? = some '_') := by
  have hloop := folderTabWindowsLoop_eq makeFolderTabWindow children []
  have hfilter : (children.filter isWindowFolder)
      = children.filter (fun node =>
          !titleStartsWithUnderscore node.title && node.children.isSome) := rfl
  rw [hfilter] at hloop
  refine ⟨?_, ?_, ?_, ?_⟩
  · simp only [folderTabWindows, hchildren, hloop, List.nil_append]
  · simp only [loadManagedWindows, folderTabWindows, hchildren, hloop, List.nil_append]
  · intro node _ hcase hmem
    rw [List.mem_filter] at hmem
    have h := hmem.2
    simp only [Bool.and_eq_true, Bool.not_eq_true'] at h
    rcases hcase with hu | hn
    · rw [hu] at h
      exact absurd h.1 (by simp)
    · rw [hn] at h
      exact absurd h.2 (by simp)
  · intro title
    unfold titleStartsWithUnderscore
    cases title.data with
    | nil => simp
    | cons c rest => simp

/-- Witness for C19: the sample Tabli folder; the `_Archive` folder and the folder read
without children are left out, the window folder "10" and the empty window folder "12" are
registered in this order. -/
theorem C19_loadManagedWindows_registers_window_folders_witness :
    (loadManagedWindows sampleMakeFolderTabWindow emptyStore sampleTabliFolder).map
      (fun st => st.bookmarkIdMap)
      = some [("10", savedWindow "10" ["A", "B"]), ("12", savedWindow "12" [])] ∧
    folderTabWindows sampleMakeFolderTabWindow sampleTabliFolder
      = some [savedWindow "10" ["A", "B"], savedWindow "12" []] ∧
    titleStartsWithUnderscore "_Archive" = true := by
  have hval : (loadManagedWindows sampleMakeFolderTabWindow emptyStore sampleTabliFolder).map
      (fun st => st.bookmarkIdMap)
      = some [("10", savedWindow "10" ["A", "B"]), ("12", savedWindow "12" [])] := by decide
  have hmain := (C19_loadManagedWindows_registers_window_folders sampleMakeFolderTabWindow
    emptyStore sampleTabliFolder _ rfl).1
  refine ⟨hval, ?_, by decide⟩
  rw [hmain]
  decide

section UniqLemmas

theorem head?_filter_eq_find? {α : Type} (p : α → Bool) (l : List α) :
    (l.filter p).head? = l.find? p := by
  induction l with
  | nil => rfl
  | cons a rest ih =>
    by_cases h : p a = true
    · simp [List.filter_cons, List.find?_cons, h]
    · simp [List.filter_cons, List.find?_cons, h, ih]

theorem find?_url_of_mem (items : List TabItem) (u : Url) (h : ∃ ti ∈ items, ti.url = u) :
    ∃ ti, items.find? (fun ti => decide (ti.url = u)) = some ti ∧ ti.url = u ∧ ti ∈ items := by
  cases hf : items.find? (fun ti => decide (ti.url = u)) with
  | none =>
    obtain ⟨ti, hti, hu⟩ := h
    have := List.find?_eq_none.mp hf ti hti
    simp [hu] at this
  | some ti =>
    have h1 := List.find?_some hf
    have h2 := List.mem_of_find?_eq_some hf
    exact ⟨ti, rfl, by simpa using h1, h2⟩

theorem bookmarkActions_aux (nodeId : BookmarkId) (items : List TabItem) (urls : List Url)
    (h : ∀ u ∈ urls, ∃ ti ∈ items, ti.url = u) :
    (((urls.map (fun u => (u, items.filter (fun ti => decide (ti.url = u))))).filterMap
        (fun e => e.2.head?)).map (fun tabItem =>
          ActionStep.bookmarksCreate (some nodeId) tabItem.title (some tabItem.url)))
    = urls.map (fun u =>
        ActionStep.bookmarksCreate (some nodeId)
          (((items.find? (fun ti => decide (ti.url = u))).map (fun ti => ti.title)).getD "")
          (some u)) := by
  induction urls with
  | nil => rfl
  | cons u rest ih =>
    obtain ⟨ti, hfind, hurl, _⟩ := find?_url_of_mem items u (h u (by simp))
    have ih' := ih (fun v hv => h v (List.mem_cons_of_mem _ hv))
    rw [List.map_cons, List.filterMap_cons_some (b := ti), List.map_cons, ih', List.map_cons,
      hfind]
    · simp [hurl]
    · simp only [head?_filter_eq_find?, hfind]

end UniqLemmas

/-- C20: `manageWindow` creates, in the new folder, exactly one bookmark per distinct URL
among the tab items of the window, in the order of the first occurrence of each URL, with
that URL and the title of the first tab item that has it; a tab item whose URL occurred
earlier in the window gets no bookmark. These are the only bookmarks `manageWindow` creates,
after the folder and before it reads the folder back. -/
theorem C20_manageWindow_one_bookmark_per_url (tabliFolderId : Option BookmarkId)
    (tabWindow : TabWindow) (title : String) (nodeId : BookmarkId) :
    bookmarkActions nodeId tabWindow
      = (firstOccurrences (tabWindow.tabItems.map (fun ti => ti.url))).map (fun u =>
          ActionStep.bookmarksCreate (some nodeId)
            (((tabWindow.tabItems.find? (fun ti => decide (ti.url = u))).map
              (fun ti => ti.title)).getD "")
            (some u)) ∧
    (firstOccurrences (tabWindow.tabItems.map (fun ti => ti.url))).Nodup ∧
    (∀ u, u ∈ firstOccurrences (tabWindow.tabItems.map (fun ti => ti.url)) ↔
      ∃ ti ∈ tabWindow.tabItems, ti.url = u) ∧
    (∀ u ∈ firstOccurrences (tabWindow.tabItems.map (fun ti => ti.url)),
      ∃ ti, tabWindow.tabItems.find? (fun ti => decide (ti.url = u)) = some ti ∧ ti.url = u) ∧
    (∀ pre ti post, tabWindow.tabItems = pre ++ ti :: post → (∃ earlier ∈ pre, earlier.url = ti.url) →
      firstOccurrences (tabWindow.tabItems.map (fun ti => ti.url))
        = firstOccurrences ((pre ++ post).map (fun ti => ti.url))) ∧
    (manageWindow tabliFolderId tabWindow title nodeId).filter
        (fun step => step.isCreateOrRemove)
      = ActionStep.bookmarksCreate tabliFolderId title none :: bookmarkActions nodeId tabWindow := by
  have hmem : ∀ u, u ∈ firstOccurrences (tabWindow.tabItems.map (fun ti => ti.url)) ↔
      ∃ ti ∈ tabWindow.tabItems, ti.url = u := by
    intro u
    rw [mem_firstOccurrences]
    simp [List.mem_map]
  have hactions : bookmarkActions nodeId tabWindow
      = (firstOccurrences (tabWindow.tabItems.map (fun ti => ti.url))).map (fun u =>
          ActionStep.bookmarksCreate (some nodeId)
            (((tabWindow.tabItems.find? (fun ti => decide (ti.url = u))).map
              (fun ti => ti.title)).getD "")
            (some u)) := by
    unfold bookmarkActions uniqTabItems
    rw [groupBy_eq]
    exact bookmarkActions_aux nodeId tabWindow.tabItems _ (fun u hu => (hmem u).mp hu)
  refine ⟨hactions, nodup_firstOccurrences _, hmem, ?_, ?_, ?_⟩
  · intro u hu
    obtain ⟨ti, hfind, hurl, _⟩ := find?_url_of_mem tabWindow.tabItems u ((hmem u).mp hu)
    exact ⟨ti, hfind, hurl⟩
  · intro pre ti post hsplit hearlier
    rw [hsplit]
    obtain ⟨earlier, he, heu⟩ := hearlier
    have hin : ti.url ∈ pre.map (fun ti => ti.url) := List.mem_map.mpr ⟨earlier, he, heu⟩
    simp only [List.map_append, List.map_cons]
    exact firstOccurrences_remove_later _ _ _ hin
  · simp [manageWindow, bookmarkActions, List.filter_append, List.filter_map, Function.comp_def,
      ActionStep.isCreateOrRemove]

/-- Witness for C20: the sample window has the tabs A, B, A again and C; three bookmarks
are created, for A with the title of its first tab, for B and for C. -/
theorem C20_manageWindow_one_bookmark_per_url_witness :
    bookmarkActions "77" sampleOpenWindow
      = [ActionStep.bookmarksCreate (some "77") "first A" (some "A"),
         ActionStep.bookmarksCreate (some "77") "b" (some "B"),
         ActionStep.bookmarksCreate (some "77") "c" (some "C")] ∧
    firstOccurrences (sampleOpenWindow.tabItems.map (fun ti => ti.url)) = ["A", "B", "C"] ∧
    (manageWindow (some "1") sampleOpenWindow "Work" "77").filter
        (fun step => step.isCreateOrRemove)
      = ActionStep.bookmarksCreate (some "1") "Work" none :: bookmarkActions "77" sampleOpenWindow :=
  ⟨by decide, by decide,
    (C20_manageWindow_one_bookmark_per_url (some "1") sampleOpenWindow "Work" "77").2.2.2.2.2⟩

/-! ## The claim about `revertWindow` -/

section RevertLemmas

theorem removedTabIds_revertWindow (tabWindow : TabWindow) :
    removedTabIds (revertWindow tabWindow) = unsavedOpenTabIds tabWindow := by
  unfold removedTabIds revertWindow
  rw [List.map_append, List.flatten_append, List.map_map]
  have h : ((savedClosedUrls tabWindow).map
      (ActionStep.removedTabs ∘ fun url => ActionStep.tabsCreate tabWindow.openWindowId url)).flatten
      = [] := by
    induction savedClosedUrls tabWindow with
    | nil => rfl
    | cons u rest ih =>
      rw [List.map_cons, List.flatten_cons, ih]
      rfl
  rw [h]
  simp [ActionStep.removedTabs]

theorem openedUrl_revertWindow (tabWindow : TabWindow) :
    (revertWindow tabWindow).filterMap ActionStep.openedUrl
    = (savedClosedUrls tabWindow).map (fun url => (tabWindow.openWindowId, url)) := by
  unfold revertWindow
  rw [List.filterMap_append]
  have h : ∀ urls : List Url,
      (urls.map (fun url => ActionStep.tabsCreate tabWindow.openWindowId url)).filterMap
        ActionStep.openedUrl
      = urls.map (fun url => (tabWindow.openWindowId, url)) := by
    intro urls
    induction urls with
    | nil => rfl
    | cons u rest ih =>
      rw [List.map_cons, List.map_cons, List.filterMap_cons, ih]
      rfl
  rw [h]
  simp [ActionStep.openedUrl]

theorem reopenedUrls_revertWindow (tabWindow : TabWindow) :
    reopenedUrls (revertWindow tabWindow) = savedClosedUrls tabWindow := by
  unfold reopenedUrls
  rw [openedUrl_revertWindow, List.map_map]
  induction savedClosedUrls tabWindow with
  | nil => rfl
  | cons u rest ih => rw [List.map_cons, ih]; rfl

/-- Reading a field of a state that the filter has found present loses no item. -/
theorem map_some_filterMap_of_isSome {α β : Type} (f : α → Option β) (l : List α)
    (h : ∀ a ∈ l, (f a).isSome = true) : (l.filterMap f).map some = l.map f := by
  induction l with
  | nil => rfl
  | cons a rest ih =>
    have ha := h a (by simp)
    have hrest := ih (fun b hb => h b (List.mem_cons_of_mem _ hb))
    cases hfa : f a with
    | none => rw [hfa] at ha; cases ha
    | some b =>
      rw [List.filterMap_cons_some hfa, List.map_cons, List.map_cons, hrest, hfa]

theorem unsavedOpenTabIds_map_some (tabWindow : TabWindow) :
    (unsavedOpenTabIds tabWindow).map some
    = (unsavedOpenItems tabWindow).map (fun ti => ti.openState.map (fun os => os.openTabId)) := by
  unfold unsavedOpenTabIds
  apply map_some_filterMap_of_isSome
  intro ti hti
  unfold unsavedOpenItems at hti
  have h := (List.mem_filter.mp hti).2
  simp only [TabItem.isOpen, Bool.and_eq_true] at h
  cases hos : ti.openState with
  | none => rw [hos] at h; simp at h
  | some os => rfl

theorem savedClosedUrls_map_some (tabWindow : TabWindow) :
    (savedClosedUrls tabWindow).map some
    = (savedClosedItems tabWindow).map (fun ti => ti.savedState.map (fun ss => ss.url)) := by
  unfold savedClosedUrls
  apply map_some_filterMap_of_isSome
  intro ti hti
  unfold savedClosedItems at hti
  have h := (List.mem_filter.mp hti).2
  simp only [TabItem.saved, Bool.and_eq_true] at h
  cases hss : ti.savedState with
  | none => rw [hss] at h; simp at h
  | some ss => rfl

/-- In a list whose present values of `g` are distinct, two members with the same value are
the same member. -/
theorem eq_of_nodup_filterMap {α β : Type} (g : α → Option β) (l : List α)
    (h : (l.filterMap g).Nodup) (a b : α) (ha : a ∈ l) (hb : b ∈ l) (x : β)
    (hga : g a = some x) (hgb : g b = some x) : a = b := by
  induction l with
  | nil => cases ha
  | cons c rest ih =>
    cases hgc : g c with
    | none =>
      rw [List.filterMap_cons_none hgc] at h
      have hac : a ≠ c := fun e => by rw [e, hgc] at hga; cases hga
      have hbc : b ≠ c := fun e => by rw [e, hgc] at hgb; cases hgb
      exact ih h ((List.mem_cons.mp ha).resolve_left hac) ((List.mem_cons.mp hb).resolve_left hbc)
    | some y =>
      rw [List.filterMap_cons_some hgc, List.nodup_cons] at h
      rcases List.mem_cons.mp ha with hac | har
      · rcases List.mem_cons.mp hb with hbc | hbr
        · rw [hac, hbc]
        · exfalso
          have hxy : y = x := by rw [hac, hgc] at hga; exact Option.some.inj hga
          exact h.1 (List.mem_filterMap.mpr ⟨b, hbr, by rw [hxy]; exact hgb⟩)
      · rcases List.mem_cons.mp hb with hbc | hbr
        · exfalso
          have hxy : y = x := by rw [hbc, hgc] at hgb; exact Option.some.inj hgb
          exact h.1 (List.mem_filterMap.mpr ⟨a, har, by rw [hxy]; exact hga⟩)
        · exact ih h.2 har hbr

end RevertLemmas

/-- C21: `revertWindow` partitions the tab items of the window. The tab ids it removes are,
in tab order, the `openState.openTabId` of the items that are open and not saved; the URLs it
re-opens are, in tab order, the `savedState.url` of the items that are saved and not open,
each opened in the window itself; no item is in both groups, and an item that is both open
and saved is in neither. When no two open items share a tab id, the tab of an item that is
both open and saved is not among the removed tab ids. -/
theorem C21_revertWindow_partitions (tabWindow : TabWindow) :
    (removedTabIds (revertWindow tabWindow)).map some
      = (tabWindow.tabItems.filter (fun ti => ti.isOpen && !ti.saved)).map
          (fun ti => ti.openState.map (fun os => os.openTabId)) ∧
    (reopenedUrls (revertWindow tabWindow)).map some
      = (tabWindow.tabItems.filter (fun ti => !ti.isOpen && ti.saved)).map
          (fun ti => ti.savedState.map (fun ss => ss.url)) ∧
    (∀ step ∈ revertWindow tabWindow, ∀ w u,
      ActionStep.openedUrl step = some (w, u) → w = tabWindow.openWindowId) ∧
    (∀ id, id ∈ removedTabIds (revertWindow tabWindow) ↔
      ∃ ti ∈ tabWindow.tabItems, ti.isOpen = true ∧ ti.saved = false ∧
        ti.openState.map (fun os => os.openTabId) = some id) ∧
    (∀ u, u ∈ reopenedUrls (revertWindow tabWindow) ↔
      ∃ ti ∈ tabWindow.tabItems, ti.saved = true ∧ ti.isOpen = false ∧
        ti.savedState.map (fun ss => ss.url) = some u) ∧
    (∀ ti, ¬ (ti ∈ unsavedOpenItems tabWindow ∧ ti ∈ savedClosedItems tabWindow)) ∧
    (∀ ti ∈ tabWindow.tabItems, ti.isOpen = true → ti.saved = true →
      ti ∉ unsavedOpenItems tabWindow ∧ ti ∉ savedClosedItems tabWindow) ∧
    (openTabIdsDistinct tabWindow →
      ∀ ti ∈ tabWindow.tabItems, ti.isOpen = true → ti.saved = true →
        ∀ os, ti.openState = some os → os.openTabId ∉ removedTabIds (revertWindow tabWindow)) := by
  have hrem : ∀ id, id ∈ removedTabIds (revertWindow tabWindow) ↔
      ∃ ti ∈ tabWindow.tabItems, ti.isOpen = true ∧ ti.saved = false ∧
        ti.openState.map (fun os => os.openTabId) = some id := by
    intro id
    rw [removedTabIds_revertWindow]
    unfold unsavedOpenTabIds unsavedOpenItems
    rw [List.mem_filterMap]
    constructor
    · rintro ⟨ti, hti, hid⟩
      obtain ⟨hmem, hp⟩ := List.mem_filter.mp hti
      simp only [Bool.and_eq_true, Bool.not_eq_true'] at hp
      exact ⟨ti, hmem, hp.1, hp.2, hid⟩
    · rintro ⟨ti, hmem, ho, hs, hid⟩
      exact ⟨ti, List.mem_filter.mpr ⟨hmem, by simp [ho, hs]⟩, hid⟩
  refine ⟨?_, ?_, ?_, hrem, ?_, ?_, ?_, ?_⟩
  · rw [removedTabIds_revertWindow]
    exact unsavedOpenTabIds_map_some tabWindow
  · rw [reopenedUrls_revertWindow]
    exact savedClosedUrls_map_some tabWindow
  · intro step hstep w u hopen
    have hmem : (w, u) ∈ (revertWindow tabWindow).filterMap ActionStep.openedUrl :=
      List.mem_filterMap.mpr ⟨step, hstep, hopen⟩
    rw [openedUrl_revertWindow] at hmem
    obtain ⟨u0, _, hu0⟩ := List.mem_map.mp hmem
    exact (congrArg Prod.fst hu0).symm
  · intro u
    rw [reopenedUrls_revertWindow]
    unfold savedClosedUrls savedClosedItems
    rw [List.mem_filterMap]
    constructor
    · rintro ⟨ti, hti, hu⟩
      obtain ⟨hmem, hp⟩ := List.mem_filter.mp hti
      simp only [Bool.and_eq_true, Bool.not_eq_true'] at hp
      exact ⟨ti, hmem, hp.2, hp.1, hu⟩
    · rintro ⟨ti, hmem, hs, ho, hu⟩
      exact ⟨ti, List.mem_filter.mpr ⟨hmem, by simp [ho, hs]⟩, hu⟩
  · rintro ti ⟨h1, h2⟩
    have p1 := (List.mem_filter.mp h1).2
    have p2 := (List.mem_filter.mp h2).2
    simp only [Bool.and_eq_true, Bool.not_eq_true'] at p1 p2
    rw [p1.1] at p2
    exact Bool.noConfusion p2.1
  · intro ti _ ho hs
    constructor
    · intro h
      have p := (List.mem_filter.mp h).2
      simp only [Bool.and_eq_true, Bool.not_eq_true'] at p
      rw [hs] at p
      exact Bool.noConfusion p.2
    · intro h
      have p := (List.mem_filter.mp h).2
      simp only [Bool.and_eq_true, Bool.not_eq_true'] at p
      rw [ho] at p
      exact Bool.noConfusion p.1
  · intro hd ti hmem _ hs os hos hin
    obtain ⟨t2, hmem2, _, hs2, hid2⟩ := (hrem os.openTabId).mp hin
    unfold openTabIdsDistinct at hd
    rw [List.map_filterMap] at hd
    have hid1 : Option.map (fun os => os.openTabId) ti.openState = some os.openTabId := by
      rw [hos]
      rfl
    have heq : ti = t2 :=
      eq_of_nodup_filterMap _ tabWindow.tabItems hd ti t2 hmem hmem2 os.openTabId hid1 hid2
    rw [heq, hs2] at hs
    exact Bool.noConfusion hs

/-- On the sample window `revertWindow` opens the saved closed URLs `C` and `E`, then removes
the unsaved open tabs 1 and 3; the tab 2 of the saved open item stays. -/
theorem C21_revertWindow_partitions_witness :
    openTabIdsDistinct sampleRevertWindow ∧
    revertWindow sampleRevertWindow
      = [ActionStep.tabsCreate (some 7) "C", ActionStep.tabsCreate (some 7) "E",
         ActionStep.tabsRemove [1, 3], ActionStep.windowsGet (some 7),
         ActionStep.submitUpdater "syncChromeWindow"] ∧
    (2 : TabId) ∉ removedTabIds (revertWindow sampleRevertWindow) := by
  have hd : openTabIdsDistinct sampleRevertWindow := by
    unfold openTabIdsDistinct
    decide
  refine ⟨hd, by decide, ?_⟩
  exact (C21_revertWindow_partitions sampleRevertWindow).2.2.2.2.2.2.2 hd
    (tabItemOf "B" (some 2) (some "b2")) (by decide) (by decide) (by decide)
    { openTabId := 2, openWindowId := 7, active := false } rfl

/-! ## The claim about where `attachSessions` advances the timestamp -/

section LatestLemmas

/-- The latest timestamp is the old one or that of a session of the list. -/
theorem latestTimestamp_attained (sessions : List WinSession) (t : Int) :
    latestTimestamp sessions t = t ∨ ∃ s ∈ sessions, latestTimestamp sessions t = s.lastModified := by
  induction sessions generalizing t with
  | nil => exact Or.inl rfl
  | cons s0 rest ih =>
    have hstep : latestTimestamp (s0 :: rest) t
        = latestTimestamp rest (if s0.lastModified > t then s0.lastModified else t) := rfl
    rw [hstep]
    rcases ih (if s0.lastModified > t then s0.lastModified else t) with h | ⟨s, hs, h⟩
    · by_cases hgt : s0.lastModified > t
      · rw [if_pos hgt] at h ⊢
        exact Or.inr ⟨s0, by simp, h⟩
      · rw [if_neg hgt] at h ⊢
        exact Or.inl h
    · exact Or.inr ⟨s, List.mem_cons_of_mem _ hs, h⟩

end LatestLemmas

/-- C22: `attachSessions` advances the last-seen session timestamp only inside its loop over
the saved windows. When the store has at least one saved window, the timestamp afterwards is
the maximum of its previous value and the `lastModified` of every session of the list: it is
at least each of them and is one of them. When the store has no saved window, the timestamp
and the store are left as they were, whatever the sessions. -/
theorem C22_timestamp_advances_inside_loop (st : TabManagerState) (sessions : List WinSession)
    (ts : Int) :
    (st.bookmarkIdMap ≠ [] →
      (attachSessions st sessions ts).2 = latestTimestamp sessions ts ∧
      ts ≤ (attachSessions st sessions ts).2 ∧
      (∀ s ∈ sessions, s.lastModified ≤ (attachSessions st sessions ts).2) ∧
      ((attachSessions st sessions ts).2 = ts ∨
        ∃ s ∈ sessions, (attachSessions st sessions ts).2 = s.lastModified)) ∧
    (st.bookmarkIdMap = [] → attachSessions st sessions ts = (st, ts)) := by
  constructor
  · intro hne
    have h : (attachSessions st sessions ts).2 = latestTimestamp sessions ts := by
      rw [attachSessions_ts]
      simp only [hne, if_false]
    rw [h]
    exact ⟨rfl, latestTimestamp_ge sessions ts, latestTimestamp_ge_mem sessions ts,
      latestTimestamp_attained sessions ts⟩
  · intro hempty
    exact attachSessions_no_windows st sessions ts hempty

/-- On the sample store, which has saved windows, sessions last modified at 100, 200 and 300
move a timestamp of 150 to 300 and leave a timestamp of 400 alone; on the empty store the
same sessions leave the timestamp at 150. -/
theorem C22_timestamp_advances_inside_loop_witness :
    sampleSessionStore.bookmarkIdMap ≠ [] ∧ emptyStore.bookmarkIdMap = [] ∧
    sampleSessions.map (fun s => s.lastModified) = [100, 200, 300] ∧
    (attachSessions sampleSessionStore sampleSessions 150).2 = 300 ∧
    (attachSessions sampleSessionStore sampleSessions 400).2 = 400 ∧
    (attachSessions emptyStore sampleSessions 150).2 = 150 := by
  have hne : sampleSessionStore.bookmarkIdMap ≠ [] := by decide
  have hempty : emptyStore.bookmarkIdMap = [] := rfl
  refine ⟨hne, hempty, by decide, ?_, ?_, ?_⟩
  · rw [((C22_timestamp_advances_inside_loop sampleSessionStore sampleSessions 150).1 hne).1]
    decide
  · rw [((C22_timestamp_advances_inside_loop sampleSessionStore sampleSessions 400).1 hne).1]
    decide
  · rw [(C22_timestamp_advances_inside_loop emptyStore sampleSessions 150).2 hempty]

end Tabli
